import Mathlib

/-!
# ImagePlus: the WebP adapter and its animation compositor

A shallow embedding of `src/formats/webp.cpp` (namespace `decode`): the two
blenders `blend_noover` and `blend_alpha`, and the decoder `webpInner` with its
two entry points `webp` and `webpHeader`.

Conventions of the embedding.

* A pixel buffer (`uint8_t*`, `std::vector<uint8_t>`, `std::unique_ptr<uint8_t[]>`)
  is a `List Nat`; a byte is a natural number, and the statements that need it
  say that the bytes involved are below 256.
* Every function that touches memory returns an `Option`: `none` stands for an
  execution whose behaviour the language leaves undefined (an access outside a
  buffer, a signed `int` overflow) or that lies outside the model.  A decoder
  returns `Option (Except String _)`: the inner `Except` is `geode::Result`.
* `int` values are non-negative naturals checked against `2 ^ 31` (`int32`);
  `uint32_t` arithmetic is taken modulo `2 ^ 32`; the narrowing casts to
  `uint16_t` are taken modulo `2 ^ 16`.
* `float` arithmetic is IEEE-754 binary32 with round-to-nearest-even applied to
  every single operation (`F32`).
* libwebp is an external collaborator: what it reports for a byte buffer (the
  demuxer's fields, the iterator's fields, the decoded pixels of a fragment) is
  the input of the model (`WebPData`).
-/

namespace ImagePlus

/-! ## IEEE-754 binary32 arithmetic on non-negative values -/

/-- A non-negative rational `num / den`; the results of `F32.round` are the
binary32 numbers (unbounded exponent: no value of this program leaves the
normal range). -/
structure F32 where
  num : Nat
  den : Nat
deriving Repr, DecidableEq

namespace F32

/-- Quotient `x / y` rounded to the nearest integer, ties to the even one. -/
def rne (x y : Nat) : Nat :=
  let q := x / y
  let r := x % y
  if 2 * r < y then q
  else if y < 2 * r then q + 1
  else if q % 2 = 0 then q else q + 1

/-- Fuelled helper of `ilog2`. -/
def ilog2Aux : Nat → Nat → Nat
  | 0, _ => 0
  | fuel + 1, n => if n < 2 then 0 else ilog2Aux fuel (n / 2) + 1

/-- Position of the leading bit: `2 ^ ilog2 n ≤ n < 2 ^ (ilog2 n + 1)` for `0 < n`. -/
def ilog2 (n : Nat) : Nat := ilog2Aux n n

/-- The binary32 number nearest to `n / d` (24 significant bits, ties to even).
With `t = ilog2 n` and `u = ilog2 d` the scaled quotient `x / y` lies between
`2 ^ 23` and `2 ^ 25`, so one of the two branches yields a 24-bit significand. -/
def round (n d : Nat) : F32 :=
  if n = 0 then ⟨0, 1⟩
  else
    let t := ilog2 n
    let u := ilog2 d
    let x := n * 2 ^ (u + 24)
    let y := d * 2 ^ t
    if x < y * 2 ^ 24 then ⟨rne x y * 2 ^ t, 2 ^ (u + 24)⟩
    else ⟨rne x (2 * y) * 2 ^ (t + 1), 2 ^ (u + 24)⟩

/-- Conversion of an integer operand to `float`. -/
def ofNat (n : Nat) : F32 := round n 1

/-- Correctly rounded `a / b`. -/
def div (a b : F32) : F32 := round (a.num * b.den) (a.den * b.num)

/-- Correctly rounded `a * b`. -/
def mul (a b : F32) : F32 := round (a.num * b.num) (a.den * b.den)

/-- Correctly rounded `a + b`. -/
def add (a b : F32) : F32 := round (a.num * b.den + b.num * a.den) (a.den * b.den)

/-- Correctly rounded `a - b`, for `b ≤ a`. -/
def sub (a b : F32) : F32 := round (a.num * b.den - b.num * a.den) (a.den * b.den)

/-- The cast `static_cast<uint8_t>(x)`: truncation toward zero. -/
def toUInt8 (a : F32) : Nat := (a.num / a.den) % 256

/-- The rational value of a number. -/
def toRat (a : F32) : ℚ := (a.num : ℚ) / (a.den : ℚ)

end F32

/-- One colour channel of the partial-alpha branch of `blend_alpha`:
`float alpha = as / 255.0f;`
`dst[k] = static_cast<uint8_t>(dst[k] * (1 - alpha) + src[k] * alpha);`
with `d` the old destination byte, `s` the source byte and `a` the source alpha. -/
def blendChannel (d s a : Nat) : Nat :=
  let alpha := F32.div (F32.ofNat a) (F32.ofNat 255)
  F32.toUInt8
    (F32.add (F32.mul (F32.ofNat d) (F32.sub (F32.ofNat 1) alpha))
      (F32.mul (F32.ofNat s) alpha))

/-! ## Memory and loops -/

/-- A non-negative `int` value; a result that does not fit is a signed overflow. -/
def int32 (n : Nat) : Option Nat := if n < 2 ^ 31 then some n else none

/-- Read of `buf[i]`. -/
def load (buf : List Nat) (i : Nat) : Option Nat := buf[i]?

/-- Write `buf[i] = v`. -/
def store (buf : List Nat) (i v : Nat) : Option (List Nat) :=
  if i < buf.length then some (buf.set i v) else none

/-- The call `std::memset(buf + start, value, len)`. -/
def memset (buf : List Nat) (start value len : Nat) : Option (List Nat) :=
  if start + len ≤ buf.length then
    some (buf.take start ++ List.replicate len value ++ buf.drop (start + len))
  else none

/-- The call `std::memcpy(dst + dstStart, src + srcStart, len)`. -/
def memcpy (dst : List Nat) (dstStart : Nat) (src : List Nat) (srcStart len : Nat) :
    Option (List Nat) :=
  if dstStart + len ≤ dst.length ∧ srcStart + len ≤ src.length then
    some (dst.take dstStart ++ (src.drop srcStart).take len ++ dst.drop (dstStart + len))
  else none

/-- The iterations `i, i + 1, ..., i + k - 1` of a loop body, in order. -/
def loopFrom {σ : Type} (body : Nat → σ → Option σ) : Nat → Nat → σ → Option σ
  | 0, _, s => some s
  | k + 1, i, s => (body i s).bind (loopFrom body k (i + 1))

/-- The loop `for (int i = 0; i < n; i++) body`. -/
def forLoop {σ : Type} (n : Nat) (body : Nat → σ → Option σ) (s : σ) : Option σ :=
  loopFrom body n 0 s

/-! ## The blenders -/

/-- The function `blend_noover`: row-wise copy of an RGB sub-frame. -/
def blend_noover (canvas src : List Nat)
    (canvasW canvasH srcW srcH offsetX offsetY : Nat) : Option (List Nat) :=
  forLoop srcH (fun row canvas => do
    let r0 ← int32 (offsetY + row)
    let r1 ← int32 (r0 * canvasW)
    let r2 ← int32 (r1 + offsetX)
    let dstRow ← int32 (r2 * 3)
    let s0 ← int32 (row * srcW)
    let srcRow ← int32 (s0 * 3)
    let n ← int32 (srcW * 3)
    memcpy canvas dstRow src srcRow n) canvas

/-- The branch `as == 255` of `blend_alpha`: the source pixel at full opacity. -/
def blend_alpha_solid (canvas : List Nat) (dst rs gs bs : Nat) : Option (List Nat) := do
  let canvas ← store canvas (dst + 0) rs
  let canvas ← store canvas (dst + 1) gs
  let canvas ← store canvas (dst + 2) bs
  store canvas (dst + 3) 255

/-- The branch `as > 0` of `blend_alpha`: interpolated colour, larger alpha. -/
def blend_alpha_mixed (canvas : List Nat) (dst rs gs bs sa : Nat) : Option (List Nat) := do
  let d0 ← load canvas (dst + 0)
  let canvas ← store canvas (dst + 0) (blendChannel d0 rs sa)
  let d1 ← load canvas (dst + 1)
  let canvas ← store canvas (dst + 1) (blendChannel d1 gs sa)
  let d2 ← load canvas (dst + 2)
  let canvas ← store canvas (dst + 2) (blendChannel d2 bs sa)
  let d3 ← load canvas (dst + 3)
  store canvas (dst + 3) (if d3 < sa then sa else d3)

/-- Body of the inner loop of `blend_alpha`: the pixel `x` of the current row
(`sa` is the source alpha, `as` in the source). -/
def blend_alpha_pixel (src : List Nat) (dstRow srcRow : Nat) (x : Nat) (canvas : List Nat) :
    Option (List Nat) := do
  let i0 ← int32 (4 * x + 0)
  let i1 ← int32 (4 * x + 1)
  let i2 ← int32 (4 * x + 2)
  let i3 ← int32 (4 * x + 3)
  let rs ← load src (srcRow + i0)
  let gs ← load src (srcRow + i1)
  let bs ← load src (srcRow + i2)
  let sa ← load src (srcRow + i3)
  let j ← int32 (4 * x)
  let dst := dstRow + j
  if sa = 255 then blend_alpha_solid canvas dst rs gs bs
  else if sa > 0 then blend_alpha_mixed canvas dst rs gs bs sa
  else some canvas

/-- Body of the outer loop of `blend_alpha`: the row `y` of the sub-frame. -/
def blend_alpha_row (src : List Nat) (canvasW srcW offsetX offsetY : Nat)
    (y : Nat) (canvas : List Nat) : Option (List Nat) := do
  let r0 ← int32 (offsetY + y)
  let r1 ← int32 (r0 * canvasW)
  let r2 ← int32 (r1 + offsetX)
  let dstRow ← int32 (r2 * 4)
  let s0 ← int32 (y * srcW)
  let srcRow ← int32 (s0 * 4)
  forLoop srcW (blend_alpha_pixel src dstRow srcRow) canvas

/-- The function `blend_alpha`: per-pixel blend of an RGBA sub-frame. -/
def blend_alpha (canvas src : List Nat)
    (canvasW canvasH srcW srcH offsetX offsetY : Nat) : Option (List Nat) :=
  forLoop srcH (blend_alpha_row src canvasW srcW offsetX offsetY) canvas

/-! ## What libwebp reports, and the result types -/

/-- The enum `WebPMuxAnimDispose` of libwebp. -/
inductive WebPMuxAnimDispose where
  | WEBP_MUX_DISPOSE_NONE
  | WEBP_MUX_DISPOSE_BACKGROUND
deriving Repr, DecidableEq

/-- The enum `WebPMuxAnimBlend` of libwebp. -/
inductive WebPMuxAnimBlend where
  | WEBP_MUX_BLEND
  | WEBP_MUX_NO_BLEND
deriving Repr, DecidableEq

export WebPMuxAnimDispose (WEBP_MUX_DISPOSE_NONE WEBP_MUX_DISPOSE_BACKGROUND)
export WebPMuxAnimBlend (WEBP_MUX_BLEND WEBP_MUX_NO_BLEND)

/-- The fields of `WebPIterator` the decoder reads (all `int`, non-negative),
together with what `WebPDecodeRGBA` and `WebPDecodeRGB` return for the fragment
of the sub-frame (`none` is the null pointer). -/
structure WebPIterator where
  x_offset : Nat
  y_offset : Nat
  width : Nat
  height : Nat
  duration : Nat
  dispose_method : WebPMuxAnimDispose
  blend_method : WebPMuxAnimBlend
  decodeRGBA : Option (List Nat)
  decodeRGB : Option (List Nat)
deriving Repr, DecidableEq

/-- The fields of `WebPBitstreamFeatures` the decoder reads (`int`, non-negative). -/
structure WebPBitstreamFeatures where
  width : Nat
  height : Nat
  has_alpha : Nat
deriving Repr, DecidableEq

/-- The enum `WebPFormatFeature` of libwebp, as far as the decoder queries it. -/
inductive WebPFormatFeature where
  | WEBP_FF_FORMAT_FLAGS
  | WEBP_FF_CANVAS_WIDTH
  | WEBP_FF_CANVAS_HEIGHT
  | WEBP_FF_LOOP_COUNT
  | WEBP_FF_FRAME_COUNT
deriving Repr, DecidableEq

/-- A demuxer object: the container-level values and the sub-frames in file
order (`WebPDemuxGetFrame(demux, 1, _)` delivers the head, `WebPDemuxNextFrame`
the following ones). -/
structure WebPDemuxer where
  formatFlags : Nat
  canvasWidth : Nat
  canvasHeight : Nat
  loopCount : Nat
  frameCount : Nat
  frames : List WebPIterator
deriving Repr, DecidableEq

/-- The byte buffer handed to the decoder, seen through libwebp: the result of
`WebPDemux` (`none` is the null pointer), of `WebPGetFeatures` (`none` is a
status other than `VP8_STATUS_OK`) and of the two whole-buffer decoders. -/
structure WebPData where
  demux : Option WebPDemuxer
  features : Option WebPBitstreamFeatures
  decodeRGBA : Option (List Nat)
  decodeRGB : Option (List Nat)
deriving Repr, DecidableEq

/-- The call `WebPDemuxGetI`, which returns a `uint32_t`. -/
def WebPDemuxGetI (demux : WebPDemuxer) : WebPFormatFeature → Nat
  | .WEBP_FF_FORMAT_FLAGS => demux.formatFlags % 2 ^ 32
  | .WEBP_FF_CANVAS_WIDTH => demux.canvasWidth % 2 ^ 32
  | .WEBP_FF_CANVAS_HEIGHT => demux.canvasHeight % 2 ^ 32
  | .WEBP_FF_LOOP_COUNT => demux.loopCount % 2 ^ 32
  | .WEBP_FF_FRAME_COUNT => demux.frameCount % 2 ^ 32

/-- The constant `ANIMATION_FLAG` of libwebp's `WebPFeatureFlags`. -/
def ANIMATION_FLAG : Nat := 0x00000002

/-- The constant `ALPHA_FLAG` of libwebp's `WebPFeatureFlags`. -/
def ALPHA_FLAG : Nat := 0x00000010

/-- Modelled from the spec: `types.hpp` is not among the sources.  The record
`DecodedImage` (the spec's StaticImage): `data` is absent (`nullptr`) for a
header-only result; `bit_depth` is `none` where the adapter leaves the member
to its default. -/
structure DecodedImage where
  data : Option (List Nat)
  width : Nat
  height : Nat
  bit_depth : Option Nat
  hasAlpha : Bool
deriving Repr, DecidableEq

/-- Modelled from the spec: `types.hpp` is not among the sources.  The record
`AnimationFrame`: a full-canvas pixel buffer and a delay (`u32`). -/
structure AnimationFrame where
  data : List Nat
  delay : Nat
deriving Repr, DecidableEq

/-- Modelled from the spec: `types.hpp` is not among the sources.  The record
`DecodedAnimation` (the spec's Animation); `loopCount`, `width` and `height`
are 16-bit members. -/
structure DecodedAnimation where
  loopCount : Nat
  hasAlpha : Bool
  width : Nat
  height : Nat
  frames : List AnimationFrame
deriving Repr, DecidableEq

/-- Modelled from the spec: `types.hpp` is not among the sources.  The tagged
union `DecodedResult` of a static image and an animation. -/
inductive DecodedResult where
  | image (img : DecodedImage)
  | animation (anim : DecodedAnimation)
deriving Repr, DecidableEq

/-! ## The decoder -/

/-- Number of bytes per pixel, `hasAlpha ? 4 : 3`. -/
def channels (hasAlpha : Bool) : Nat := if hasAlpha then 4 else 3

/-- The loop that zeroes the rectangle of a sub-frame, used before an
overwriting draw and for the disposal to background:
`dest = canvas.data() + (((iter.y_offset + row) * canvasW + iter.x_offset) * ch);`
`std::memset(dest, 0, iter.width * ch);`
The offset is computed in `uint32_t`, the length in `int`. -/
def clearRect (canvasW ch : Nat) (iter : WebPIterator) (canvas : List Nat) :
    Option (List Nat) :=
  forLoop iter.height (fun row canvas => do
    let r0 ← int32 (iter.y_offset + row)
    let dest := ((r0 * canvasW + iter.x_offset) * ch) % 2 ^ 32
    let n ← int32 (iter.width * ch)
    memset canvas dest 0 n) canvas

/-- The drawing part of one iteration of the frame loop.  The canvas sizes are
`uint32_t` here and `int` parameters of the blenders; a size of `2 ^ 31` or more
does not convert to a non-negative `int` and is left outside the model. -/
def drawFrame (hasAlpha : Bool) (canvasW canvasH : Nat) (iter : WebPIterator)
    (frameDecoded canvas : List Nat) : Option (List Nat) := do
  let cw ← int32 canvasW
  let ch ← int32 canvasH
  if hasAlpha then
    let canvas ←
      if iter.blend_method = WEBP_MUX_NO_BLEND then clearRect canvasW 4 iter canvas
      else some canvas
    blend_alpha canvas frameDecoded cw ch iter.width iter.height iter.x_offset iter.y_offset
  else
    blend_noover canvas frameDecoded cw ch iter.width iter.height iter.x_offset iter.y_offset

/-- The snapshot part of one iteration: a fresh buffer of `canvasSize` bytes
that receives the whole canvas. -/
def snapshot (canvasSize : Nat) (iter : WebPIterator) (canvas : List Nat) :
    Option AnimationFrame := do
  let data ← memcpy (List.replicate canvasSize 0) 0 canvas 0 canvasSize
  some { delay := iter.duration % 2 ^ 32, data := data }

/-- The disposal part of one iteration. -/
def disposeFrame (hasAlpha : Bool) (canvasW : Nat) (iter : WebPIterator)
    (canvas : List Nat) : Option (List Nat) :=
  if iter.dispose_method = WEBP_MUX_DISPOSE_BACKGROUND then
    clearRect canvasW (channels hasAlpha) iter canvas
  else some canvas

/-- The loop `do { ... } while (WebPDemuxNextFrame(&iter));` of `webpInner`:
`iter` is the current sub-frame, `rest` the ones the iterator still delivers,
`frames` is `anim.frames`. -/
def webpLoop (hasAlpha : Bool) (canvasW canvasH canvasSize : Nat) :
    WebPIterator → List WebPIterator → List Nat → List AnimationFrame →
      Option (Except String (List AnimationFrame))
  | iter, rest, canvas, frames =>
    match (if hasAlpha then iter.decodeRGBA else iter.decodeRGB) with
    | none => some (.error "Failed to decode animation frame")
    | some frameDecoded =>
      match drawFrame hasAlpha canvasW canvasH iter frameDecoded canvas with
      | none => none
      | some canvas =>
        match snapshot canvasSize iter canvas with
        | none => none
        | some frame =>
          let frames := frames ++ [frame]
          match disposeFrame hasAlpha canvasW iter canvas with
          | none => none
          | some canvas =>
            match rest with
            | [] => some (.ok frames)
            | next :: rest => webpLoop hasAlpha canvasW canvasH canvasSize next rest canvas frames

/-- The function `webpInner`. -/
def webpInner (data : WebPData) (onlyHeader : Bool) : Option (Except String DecodedResult) :=
  match data.demux with
  | none => some (.error "Failed to demux WebP data")
  | some demux =>
    let frameCount := WebPDemuxGetI demux .WEBP_FF_FRAME_COUNT
    if frameCount ≤ 1 then
      match data.features with
      | none => some (.error "Failed to get WebP features")
      | some feats =>
        let img : DecodedImage :=
          { data := none
            width := feats.width % 2 ^ 16
            height := feats.height % 2 ^ 16
            bit_depth := none
            hasAlpha := feats.has_alpha != 0 }
        if onlyHeader then some (.ok (.image img))
        else
          match (if feats.has_alpha != 0 then data.decodeRGBA else data.decodeRGB) with
          | none => some (.error "Failed to decode static WebP image")
          | some decoded => some (.ok (.image { img with data := some decoded }))
    else
      let loopCount := WebPDemuxGetI demux .WEBP_FF_LOOP_COUNT
      let canvasW := WebPDemuxGetI demux .WEBP_FF_CANVAS_WIDTH
      let canvasH := WebPDemuxGetI demux .WEBP_FF_CANVAS_HEIGHT
      let hasAlpha := (WebPDemuxGetI demux .WEBP_FF_FORMAT_FLAGS &&& ANIMATION_FLAG) != 0
      let anim : DecodedAnimation :=
        { loopCount := loopCount % 2 ^ 16
          hasAlpha := hasAlpha
          width := canvasW % 2 ^ 16
          height := canvasH % 2 ^ 16
          frames := [] }
      if onlyHeader then some (.ok (.animation anim))
      else
        let canvasSize := (canvasW * canvasH * channels hasAlpha) % 2 ^ 32
        let canvas := List.replicate canvasSize 0
        match demux.frames with
        | [] => some (.error "Failed to get initial frame")
        | iter :: rest =>
          match webpLoop hasAlpha canvasW canvasH canvasSize iter rest canvas anim.frames with
          | none => none
          | some (.error e) => some (.error e)
          | some (.ok frames) => some (.ok (.animation { anim with frames := frames }))

/-- The entry point `decode::webp`. -/
def webp (data : WebPData) : Option (Except String DecodedResult) :=
  webpInner data false

/-- The entry point `decode::webpHeader`; the source passes `false` here too. -/
def webpHeader (data : WebPData) : Option (Except String DecodedResult) :=
  webpInner data false

/-! ## The PNG adapter (`png.cpp`) -/

/-- The members of libspng's `struct spng_ihdr` the adapter reads or writes
(`width` and `height` are `uint32_t`, the other two `uint8_t`). -/
structure spng_ihdr where
  width : Nat
  height : Nat
  bit_depth : Nat
  color_type : Nat
deriving Repr, DecidableEq

/-- The enum `spng_format` of libspng, as far as the adapter uses it. -/
inductive spng_format where
  | SPNG_FMT_RGBA8
  | SPNG_FMT_RGB8
  | SPNG_FMT_PNG
deriving Repr, DecidableEq

export spng_format (SPNG_FMT_RGBA8 SPNG_FMT_RGB8 SPNG_FMT_PNG)

/-- The constant `SPNG_DECODE_TRNS` of libspng's `spng_decode_flags`. -/
def SPNG_DECODE_TRNS : Nat := 1

/-- The constant `SPNG_COLOR_TYPE_TRUECOLOR` of libspng. -/
def SPNG_COLOR_TYPE_TRUECOLOR : Nat := 2

/-- The constant `SPNG_COLOR_TYPE_TRUECOLOR_ALPHA` of libspng. -/
def SPNG_COLOR_TYPE_TRUECOLOR_ALPHA : Nat := 6

/-- A byte buffer handed to a PNG decoder, seen through libspng: whether
`spng_ctx_new(0)` yields a context, whether `spng_set_png_buffer` returns 0,
the header `spng_get_ihdr` delivers (`none` is a non-zero status), the size
`spng_decoded_image_size` delivers for a format (`none` is a non-zero status),
and what `spng_decode_image` does for a format, flags, the output buffer and
the length it is told: whether it returns 0, and the bytes the output buffer
holds afterwards. -/
structure PngSource where
  spng_ctx_new : Bool
  spng_set_png_buffer : Bool
  spng_get_ihdr : Option spng_ihdr
  spng_decoded_image_size : spng_format → Option Nat
  spng_decode_image : spng_format → Nat → List Nat → Nat → Bool × List Nat

/-- The encoder side of libspng: whether `spng_ctx_new(SPNG_CTX_ENCODER)`
yields a context, whether `spng_set_option` and `spng_set_ihdr` return 0,
whether `spng_encode_image` returns 0 for the header set, the image, its length
and the format, and the buffer `spng_get_png_buffer` hands out afterwards
(`none` is a null buffer or a non-zero `ret`). -/
structure SpngEncoder where
  spng_ctx_new : Bool
  spng_set_option : Bool
  spng_set_ihdr : spng_ihdr → Bool
  spng_encode_image : spng_ihdr → List Nat → Nat → spng_format → Bool
  spng_get_png_buffer : spng_ihdr → List Nat → Nat → Option (List Nat)

namespace decode

/-- The constant `static constexpr bool hasAlpha = true;` of namespace `decode`. -/
def hasAlpha : Bool := true

/-- The function `parseHeader`; the header it fills in is its `Ok` value. -/
def parseHeader (src : PngSource) : Except String spng_ihdr :=
  if !src.spng_ctx_new || !src.spng_set_png_buffer then
    .error "Failed to create PNG context or set buffer"
  else
    match src.spng_get_ihdr with
    | none => .error "Failed to get PNG header"
    | some ihdr =>
      if ihdr.width > 65535 || ihdr.height > 65535 then
        .error "PNG image dimensions exceed 65535 pixels"
      else .ok ihdr

/-- The entry point `decode::png`.  The output buffer comes from
`std::make_unique`, which never returns null, so the allocation check of the
source has no failing branch here. -/
def png (src : PngSource) : Except String DecodedImage :=
  match parseHeader src with
  | .error e => .error e
  | .ok ihdr =>
    let fmt := if hasAlpha then SPNG_FMT_RGBA8 else SPNG_FMT_RGB8
    match src.spng_decoded_image_size fmt with
    | none => .error "Failed to get PNG decoded image size"
    | some totalSize =>
      let output := List.replicate totalSize 0
      let decoded :=
        src.spng_decode_image fmt (if hasAlpha then SPNG_DECODE_TRNS else 0) output totalSize
      if !decoded.1 then .error "Failed to decode PNG image"
      else
        .ok { data := some decoded.2
              width := ihdr.width % 2 ^ 16
              height := ihdr.height % 2 ^ 16
              bit_depth := some ihdr.bit_depth
              hasAlpha := hasAlpha }

/-- The entry point `decode::pngHeader`. -/
def pngHeader (src : PngSource) : Except String DecodedImage :=
  match parseHeader src with
  | .error e => .error e
  | .ok ihdr =>
    .ok { data := none
          width := ihdr.width % 2 ^ 16
          height := ihdr.height % 2 ^ 16
          bit_depth := some ihdr.bit_depth
          hasAlpha := hasAlpha }

/-- The entry point `decode::pngInto`: the result, and the bytes the caller's
buffer `buf` holds afterwards. -/
def pngInto (src : PngSource) (buf : List Nat) (bufSize : Nat) :
    Except String Nat × List Nat :=
  match parseHeader src with
  | .error e => (.error e, buf)
  | .ok _ =>
    let fmt := if hasAlpha then SPNG_FMT_RGBA8 else SPNG_FMT_RGB8
    match src.spng_decoded_image_size fmt with
    | none => (.error "Failed to get PNG decoded image size", buf)
    | some totalSize =>
      if bufSize < totalSize then
        (.error "Output buffer is too small for decoded PNG image", buf)
      else
        let decoded :=
          src.spng_decode_image fmt (if hasAlpha then SPNG_DECODE_TRNS else 0) buf bufSize
        if !decoded.1 then (.error "Failed to decode PNG image", decoded.2)
        else (.ok totalSize, decoded.2)

end decode

namespace encode

/-- The entry point `encode::png`; `image` is `none` for a null pointer, and
the result is `none` when the image buffer is shorter than the
`width * height * channels` bytes the encoder is told to read. -/
def png (lib : SpngEncoder) (image : Option (List Nat)) (width height : Nat)
    (hasAlpha : Bool) : Option (Except String (List Nat)) :=
  match image with
  | none => some (.error "Invalid image data")
  | some image =>
    if !lib.spng_ctx_new then some (.error "Failed to create PNG context")
    else if !lib.spng_set_option then some (.error "Failed to set buffer encoding option")
    else
      let ihdr : spng_ihdr :=
        { width := width
          height := height
          bit_depth := 8
          color_type :=
            if hasAlpha then SPNG_COLOR_TYPE_TRUECOLOR_ALPHA else SPNG_COLOR_TYPE_TRUECOLOR }
      if !lib.spng_set_ihdr ihdr then some (.error "Failed to set PNG header")
      else
        let channels := if hasAlpha then 4 else 3
        let expectedSize := width * height * channels
        if image.length < expectedSize then none
        else if !lib.spng_encode_image ihdr image expectedSize SPNG_FMT_PNG then
          some (.error "Failed to encode PNG image")
        else
          match lib.spng_get_png_buffer ihdr image expectedSize with
          | none => some (.error "Failed to get PNG buffer")
          | some pngBuffer => some (.ok pngBuffer)

end encode

/-! ## The animation encoder (`encode::webp` on a `DecodedAnimation`) -/

/-- The members of libwebp's `WebPConfig` the encoder sets (`quality` is a
`float`, taken as the rational it denotes). -/
structure WebPConfig where
  quality : ℚ
  method : Nat
  lossless : Bool

/-- The part of libwebp the animation encoder calls, over the states `Enc` of
an encoder object and the imported pictures `Pic`: the three `Init` calls
(`false` is a version mismatch), `WebPAnimEncoderNew` for a width, a height and
the options `minimize_size` and `kmax`, `WebPValidateConfig`, the two picture
imports for the picture's `width`, `height`, `use_argb`, the pixels and the
stride, `WebPAnimEncoderAdd` for a picture (`none` is the null pointer), a
timestamp and a configuration, giving the new state of the encoder (`none` is
failure), and `WebPAnimEncoderAssemble`. -/
structure AnimEncoderLib (Enc Pic : Type) where
  WebPAnimEncoderOptionsInit : Bool
  WebPAnimEncoderNew : Nat → Nat → Nat → Nat → Option Enc
  WebPConfigInit : Bool
  WebPValidateConfig : WebPConfig → Bool
  WebPPictureInit : Bool
  WebPPictureImportRGBA : Nat → Nat → Nat → List Nat → Nat → Option Pic
  WebPPictureImportRGB : Nat → Nat → Nat → List Nat → Nat → Option Pic
  WebPAnimEncoderAdd : Enc → Option Pic → Int → Option WebPConfig → Option Enc
  WebPAnimEncoderAssemble : Enc → Option (List Nat)

/-- The value of an `int` that receives the 32-bit pattern of `n`. -/
def toInt32 (n : Int) : Int := (n + 2 ^ 31) % 2 ^ 32 - 2 ^ 31

namespace encode

/-- The loop `for (size_t i = 0; i < anim.frames.size(); ++i)` of the animation
encoder: the frames still to add, the state of the encoder and the timestamp;
its value is the state and the timestamp after the last frame.  `none` stands
for a frame buffer shorter than the canvas the import reads. -/
def webpAnimLoop {Enc Pic : Type} (lib : AnimEncoderLib Enc Pic) (anim : DecodedAnimation)
    (quality : ℚ) : List AnimationFrame → Enc → Int → Option (Except String (Enc × Int))
  | [], enc, timestamp => some (.ok (enc, timestamp))
  | frame :: frames, enc, timestamp =>
    if !lib.WebPConfigInit then some (.error "Failed to initialize WebP config")
    else
      let config : WebPConfig := { quality := quality, method := 4, lossless := quality ≥ 99 }
      if !lib.WebPValidateConfig config then some (.error "Invalid WebP config")
      else if !lib.WebPPictureInit then some (.error "Failed to initialize WebP picture")
      else if frame.data.length < anim.width * anim.height * channels anim.hasAlpha then none
      else
        let use_argb := if anim.hasAlpha then 1 else 0
        let success :=
          if anim.hasAlpha then
            lib.WebPPictureImportRGBA anim.width anim.height use_argb frame.data (anim.width * 4)
          else
            lib.WebPPictureImportRGB anim.width anim.height use_argb frame.data (anim.width * 3)
        match success with
        | none => some (.error "Failed to import frame data")
        | some picture =>
          match lib.WebPAnimEncoderAdd enc (some picture) timestamp (some config) with
          | none => some (.error "Failed to add frame to animation")
          | some enc =>
            webpAnimLoop lib anim quality frames enc (toInt32 (timestamp + frame.delay))

/-- The entry point `encode::webp(DecodedAnimation const&, float)`. -/
def webpAnim {Enc Pic : Type} (lib : AnimEncoderLib Enc Pic) (anim : DecodedAnimation)
    (quality : ℚ) : Option (Except String (List Nat)) :=
  if anim.frames.isEmpty then some (.error "Animation has no frames")
  else if !lib.WebPAnimEncoderOptionsInit then
    some (.error "Failed to initialize animation encoder options")
  else
    match lib.WebPAnimEncoderNew anim.width anim.height 1 9 with
    | none => some (.error "Failed to create WebP animation encoder")
    | some enc =>
      match webpAnimLoop lib anim quality anim.frames enc 0 with
      | none => none
      | some (.error e) => some (.error e)
      | some (.ok (enc, timestamp)) =>
        match lib.WebPAnimEncoderAdd enc none timestamp none with
        | none => some (.error "Failed to finalize animation")
        | some enc =>
          match lib.WebPAnimEncoderAssemble enc with
          | none => some (.error "Failed to assemble animation")
          | some webpData => some (.ok webpData)

end encode

/-! ## The static WebP encoder (`encode::webp` on raw pixels) -/

/-- The four simple encoders of libwebp that the static `encode::webp` calls,
for the image, its width, height and stride (and the quality, for the lossy
ones): the size each returns, and the buffer it stores in `output` (`none` is
a null pointer). -/
structure WebPEncoderLib where
  WebPEncodeLosslessRGBA : List Nat → Nat → Nat → Nat → Nat × Option (List Nat)
  WebPEncodeLosslessRGB : List Nat → Nat → Nat → Nat → Nat × Option (List Nat)
  WebPEncodeRGBA : List Nat → Nat → Nat → Nat → ℚ → Nat × Option (List Nat)
  WebPEncodeRGB : List Nat → Nat → Nat → Nat → ℚ → Nat × Option (List Nat)

namespace encode

/-- The end of the static `encode::webp`: the check
`if (outputSize == 0 || !output)` and the result
`Ok(FakeVector(output, outputSize))`. -/
def webpResult (encoded : Nat × Option (List Nat)) : Except String (List Nat) :=
  match encoded.2 with
  | none => .error "Failed to encode WebP image"
  | some output =>
    if encoded.1 = 0 then .error "Failed to encode WebP image"
    else .ok (output.take encoded.1)

/-- The entry point `encode::webp(void const*, uint16_t, uint16_t, bool, float)`;
`image` is `none` for a null pointer, `quality` is the value of the `float`, and
the result is `none` when the image buffer is shorter than the `height` rows of
`stride` bytes the encoder is told to read. -/
def webp (lib : WebPEncoderLib) (image : Option (List Nat)) (width height : Nat)
    (hasAlpha : Bool) (quality : ℚ) : Option (Except String (List Nat)) :=
  match image with
  | none => some (.error "Invalid image data")
  | some image =>
    if image.length < width * height * (if hasAlpha then 4 else 3) then none
    else
      let encoded :=
        if quality ≥ 99 then
          if hasAlpha then lib.WebPEncodeLosslessRGBA image width height (width * 4)
          else lib.WebPEncodeLosslessRGB image width height (width * 3)
        else
          if hasAlpha then lib.WebPEncodeRGBA image width height (width * 4) quality
          else lib.WebPEncodeRGB image width height (width * 3) quality
      some (webpResult encoded)

end encode

/-! ## The event-based API (`events.hpp`) and the published table (`Events.cpp`) -/

/-- Modelled from the spec: `types.hpp` is not among the sources.  The enum
`ImageFormat` (the spec's Format). -/
inductive ImageFormat where
  | Unknown
  | Png
  | APng
  | Jpeg
  | Gif
  | Webp
  | Tiff
  | Qoi
  | JpegXL
deriving Repr, DecidableEq

/-- The struct `__detail::FunctionTable`, without its `AnimatedSprite_` members:
the version and the function pointers, `none` for a null pointer.  A buffer
`(void const* data, size_t size)` is the list of its bytes, an image pointer is
`none` when null, and a `float` is the rational it denotes. -/
structure FunctionTable where
  version : Nat
  guessFormat : Option (List Nat → ImageFormat)
  tryDecode : Option (List Nat → ImageFormat → Except String DecodedResult)
  isJpeg : Option (List Nat → Bool)
  isAPng : Option (List Nat → Bool)
  isPng : Option (List Nat → Bool)
  isGif : Option (List Nat → Bool)
  isWebp : Option (List Nat → Bool)
  isTiff : Option (List Nat → Bool)
  isQoi : Option (List Nat → Bool)
  isJpegXL : Option (List Nat → Bool)
  decodePng : Option (List Nat → Except String DecodedImage)
  decodeQoi : Option (List Nat → Except String DecodedImage)
  decodeJpegXL : Option (List Nat → Except String DecodedResult)
  decodeWebp : Option (List Nat → Except String DecodedResult)
  decodeGif : Option (List Nat → Except String DecodedResult)
  encodePng : Option (Option (List Nat) → Nat → Nat → Bool → Except String (List Nat))
  encodeQoi : Option (Option (List Nat) → Nat → Nat → Bool → Except String (List Nat))
  encodeWebp : Option (Option (List Nat) → Nat → Nat → Bool → ℚ → Except String (List Nat))
  encodeJpegXL : Option (Option (List Nat) → Nat → Nat → Bool → ℚ → Except String (List Nat))
  encodeWebpAnim : Option (DecodedAnimation → ℚ → Except String (List Nat))
  encodeJpegXLAnim : Option (DecodedAnimation → ℚ → Except String (List Nat))
  decodePngHeader : Option (List Nat → Except String DecodedImage)
  decodeQoiHeader : Option (List Nat → Except String DecodedImage)
  decodeJpegXLHeader : Option (List Nat → Except String DecodedResult)
  decodeWebpHeader : Option (List Nat → Except String DecodedResult)
  decodeGifHeader : Option (List Nat → Except String DecodedResult)

/-- The functions of `api.hpp` whose addresses `Events.cpp` stores in its
table, as functions of the buffer's bytes. -/
structure Api where
  guessFormat : List Nat → ImageFormat
  tryDecode : List Nat → ImageFormat → Except String DecodedResult
  isJpeg : List Nat → Bool
  isAPng : List Nat → Bool
  isPng : List Nat → Bool
  isGif : List Nat → Bool
  isWebp : List Nat → Bool
  isTiff : List Nat → Bool
  isQoi : List Nat → Bool
  isJpegXL : List Nat → Bool
  decodePng : List Nat → Except String DecodedImage
  decodeQoi : List Nat → Except String DecodedImage
  decodeJpegXL : List Nat → Except String DecodedResult
  decodeWebp : List Nat → Except String DecodedResult
  decodeGif : List Nat → Except String DecodedResult
  encodePng : Option (List Nat) → Nat → Nat → Bool → Except String (List Nat)
  encodeQoi : Option (List Nat) → Nat → Nat → Bool → Except String (List Nat)
  encodeWebp : Option (List Nat) → Nat → Nat → Bool → ℚ → Except String (List Nat)
  encodeJpegXL : Option (List Nat) → Nat → Nat → Bool → ℚ → Except String (List Nat)
  encodeWebpAnim : DecodedAnimation → ℚ → Except String (List Nat)
  encodeJpegXLAnim : DecodedAnimation → ℚ → Except String (List Nat)
  decodePngHeader : List Nat → Except String DecodedImage
  decodeWebpHeader : List Nat → Except String DecodedResult

/-- The table `static FunctionTable functionTable` of `Events.cpp`. -/
def functionTable (api : Api) : FunctionTable :=
  { version := 1
    guessFormat := some api.guessFormat
    tryDecode := some api.tryDecode
    isJpeg := some api.isJpeg
    isAPng := some api.isAPng
    isPng := some api.isPng
    isGif := some api.isGif
    isWebp := some api.isWebp
    isTiff := some api.isTiff
    isQoi := some api.isQoi
    isJpegXL := some api.isJpegXL
    decodePng := some api.decodePng
    decodeQoi := some api.decodeQoi
    decodeJpegXL := some api.decodeJpegXL
    decodeWebp := some api.decodeWebp
    decodeGif := some api.decodeGif
    encodePng := some api.encodePng
    encodeQoi := some api.encodeQoi
    encodeWebp := some api.encodeWebp
    encodeJpegXL := some api.encodeJpegXL
    encodeWebpAnim := some api.encodeWebpAnim
    encodeJpegXLAnim := some api.encodeJpegXLAnim
    decodePngHeader := some api.decodePngHeader
    decodeQoiHeader := none
    decodeJpegXLHeader := none
    decodeWebpHeader := some api.decodeWebpHeader
    decodeGifHeader := none }

/-- What `getFunctionTable` works on: its variable `static FunctionTable const* table`,
and the table the listeners of `FetchTableEvent` store in the reference they
are sent (`none` when nothing listens and the reference stays null). -/
structure Resolver where
  table : Option FunctionTable
  event : Option FunctionTable

namespace events

/-- The function `__detail::getFunctionTable`: the pointer it returns and the
state it leaves. -/
def getFunctionTable (r : Resolver) : Option FunctionTable × Resolver :=
  match r.table with
  | none => (r.event, { r with table := r.event })
  | some table => (some table, r)

/-- The function `isAvailable`. -/
def isAvailable (r : Resolver) : Bool × Resolver :=
  ((getFunctionTable r).1.isSome, (getFunctionTable r).2)

/-- The function `guessFormat`. -/
def guessFormat (r : Resolver) (data : List Nat) : ImageFormat × Resolver :=
  match (getFunctionTable r).1 with
  | none => (.Unknown, (getFunctionTable r).2)
  | some table =>
    match table.guessFormat with
    | none => (.Unknown, (getFunctionTable r).2)
    | some f => (f data, (getFunctionTable r).2)

/-- The function `tryDecode`. -/
def tryDecode (r : Resolver) (data : List Nat) (format : ImageFormat) :
    Except String DecodedResult × Resolver :=
  match (getFunctionTable r).1 with
  | none => (.error "ImagePlus is not available", (getFunctionTable r).2)
  | some table =>
    match table.tryDecode with
    | none => (.error "ImagePlus is not available", (getFunctionTable r).2)
    | some f => (f data format, (getFunctionTable r).2)

/-- The macro `IMAGE_PLUS_GEN_CHECK_FUNC(name)`; `name` selects the member. -/
def IMAGE_PLUS_GEN_CHECK_FUNC (name : FunctionTable → Option (List Nat → Bool))
    (r : Resolver) (data : List Nat) : Bool × Resolver :=
  match (getFunctionTable r).1 with
  | none => (false, (getFunctionTable r).2)
  | some table =>
    match name table with
    | none => (false, (getFunctionTable r).2)
    | some f => (f data, (getFunctionTable r).2)

/-- The macro `IMAGE_PLUS_GEN_DECODE_FUNC1(name, func)`; `func` selects the member. -/
def IMAGE_PLUS_GEN_DECODE_FUNC1
    (func : FunctionTable → Option (List Nat → Except String DecodedImage))
    (r : Resolver) (data : List Nat) : Except String DecodedImage × Resolver :=
  match (getFunctionTable r).1 with
  | none => (.error "ImagePlus is not available", (getFunctionTable r).2)
  | some table =>
    match func table with
    | none => (.error "ImagePlus is not available", (getFunctionTable r).2)
    | some f => (f data, (getFunctionTable r).2)

/-- The macro `IMAGE_PLUS_GEN_DECODE_FUNC1_HDR(name, func)`. -/
def IMAGE_PLUS_GEN_DECODE_FUNC1_HDR
    (func : FunctionTable → Option (List Nat → Except String DecodedImage))
    (r : Resolver) (data : List Nat) : Except String DecodedImage × Resolver :=
  match (getFunctionTable r).1 with
  | none => (.error "ImagePlus is not available", (getFunctionTable r).2)
  | some table =>
    if table.version < 2 then
      (.error "Installed ImagePlus version does not support header decoding",
        (getFunctionTable r).2)
    else
      match func table with
      | none =>
        (.error "Installed ImagePlus version does not support header decoding",
          (getFunctionTable r).2)
      | some f => (f data, (getFunctionTable r).2)

/-- The macro `IMAGE_PLUS_GEN_DECODE_FUNC2(name, func)`. -/
def IMAGE_PLUS_GEN_DECODE_FUNC2
    (func : FunctionTable → Option (List Nat → Except String DecodedResult))
    (r : Resolver) (data : List Nat) : Except String DecodedResult × Resolver :=
  match (getFunctionTable r).1 with
  | none => (.error "ImagePlus is not available", (getFunctionTable r).2)
  | some table =>
    match func table with
    | none => (.error "ImagePlus is not available", (getFunctionTable r).2)
    | some f => (f data, (getFunctionTable r).2)

/-- The macro `IMAGE_PLUS_GEN_DECODE_FUNC2_HDR(name, func)`. -/
def IMAGE_PLUS_GEN_DECODE_FUNC2_HDR
    (func : FunctionTable → Option (List Nat → Except String DecodedResult))
    (r : Resolver) (data : List Nat) : Except String DecodedResult × Resolver :=
  match (getFunctionTable r).1 with
  | none => (.error "ImagePlus is not available", (getFunctionTable r).2)
  | some table =>
    if table.version < 2 then
      (.error "Installed ImagePlus version does not support header decoding",
        (getFunctionTable r).2)
    else
      match func table with
      | none =>
        (.error "Installed ImagePlus version does not support header decoding",
          (getFunctionTable r).2)
      | some f => (f data, (getFunctionTable r).2)

/-- The macro `IMAGE_PLUS_GEN_ENCODE_FUNC1(name, func)`. -/
def IMAGE_PLUS_GEN_ENCODE_FUNC1
    (func : FunctionTable →
      Option (Option (List Nat) → Nat → Nat → Bool → Except String (List Nat)))
    (r : Resolver) (image : Option (List Nat)) (width height : Nat) (hasAlpha : Bool) :
    Except String (List Nat) × Resolver :=
  match (getFunctionTable r).1 with
  | none => (.error "ImagePlus is not available", (getFunctionTable r).2)
  | some table =>
    match func table with
    | none => (.error "ImagePlus is not available", (getFunctionTable r).2)
    | some f => (f image width height hasAlpha, (getFunctionTable r).2)

/-- The macro `IMAGE_PLUS_GEN_ENCODE_FUNC2(name, func)`. -/
def IMAGE_PLUS_GEN_ENCODE_FUNC2
    (func : FunctionTable →
      Option (Option (List Nat) → Nat → Nat → Bool → ℚ → Except String (List Nat)))
    (r : Resolver) (image : Option (List Nat)) (width height : Nat) (hasAlpha : Bool)
    (quality : ℚ) : Except String (List Nat) × Resolver :=
  match (getFunctionTable r).1 with
  | none => (.error "ImagePlus is not available", (getFunctionTable r).2)
  | some table =>
    match func table with
    | none => (.error "ImagePlus is not available", (getFunctionTable r).2)
    | some f => (f image width height hasAlpha quality, (getFunctionTable r).2)

/-- The macro `IMAGE_PLUS_GEN_ENCODE_FUNC3(name, func)`. -/
def IMAGE_PLUS_GEN_ENCODE_FUNC3
    (func : FunctionTable → Option (DecodedAnimation → ℚ → Except String (List Nat)))
    (r : Resolver) (anim : DecodedAnimation) (quality : ℚ) :
    Except String (List Nat) × Resolver :=
  match (getFunctionTable r).1 with
  | none => (.error "ImagePlus is not available", (getFunctionTable r).2)
  | some table =>
    match func table with
    | none => (.error "ImagePlus is not available", (getFunctionTable r).2)
    | some f => (f anim quality, (getFunctionTable r).2)

namespace formats

/-- The wrapper `IMAGE_PLUS_GEN_CHECK_FUNC(isJpeg)`. -/
def isJpeg := IMAGE_PLUS_GEN_CHECK_FUNC (fun table => table.isJpeg)

/-- The wrapper `IMAGE_PLUS_GEN_CHECK_FUNC(isAPng)`. -/
def isAPng := IMAGE_PLUS_GEN_CHECK_FUNC (fun table => table.isAPng)

/-- The wrapper `IMAGE_PLUS_GEN_CHECK_FUNC(isPng)`. -/
def isPng := IMAGE_PLUS_GEN_CHECK_FUNC (fun table => table.isPng)

/-- The wrapper `IMAGE_PLUS_GEN_CHECK_FUNC(isGif)`. -/
def isGif := IMAGE_PLUS_GEN_CHECK_FUNC (fun table => table.isGif)

/-- The wrapper `IMAGE_PLUS_GEN_CHECK_FUNC(isWebp)`. -/
def isWebp := IMAGE_PLUS_GEN_CHECK_FUNC (fun table => table.isWebp)

/-- The wrapper `IMAGE_PLUS_GEN_CHECK_FUNC(isTiff)`. -/
def isTiff := IMAGE_PLUS_GEN_CHECK_FUNC (fun table => table.isTiff)

/-- The wrapper `IMAGE_PLUS_GEN_CHECK_FUNC(isQoi)`. -/
def isQoi := IMAGE_PLUS_GEN_CHECK_FUNC (fun table => table.isQoi)

/-- The wrapper `IMAGE_PLUS_GEN_CHECK_FUNC(isJpegXL)`. -/
def isJpegXL := IMAGE_PLUS_GEN_CHECK_FUNC (fun table => table.isJpegXL)

end formats

namespace decode

/-- The wrapper `IMAGE_PLUS_GEN_DECODE_FUNC1(png, decodePng)`. -/
def png := IMAGE_PLUS_GEN_DECODE_FUNC1 (fun table => table.decodePng)

/-- The wrapper `IMAGE_PLUS_GEN_DECODE_FUNC1_HDR(pngHeader, decodePngHeader)`. -/
def pngHeader := IMAGE_PLUS_GEN_DECODE_FUNC1_HDR (fun table => table.decodePngHeader)

/-- The wrapper `IMAGE_PLUS_GEN_DECODE_FUNC1(qoi, decodeQoi)`. -/
def qoi := IMAGE_PLUS_GEN_DECODE_FUNC1 (fun table => table.decodeQoi)

/-- The wrapper `IMAGE_PLUS_GEN_DECODE_FUNC2(jpegxl, decodeJpegXL)`. -/
def jpegxl := IMAGE_PLUS_GEN_DECODE_FUNC2 (fun table => table.decodeJpegXL)

/-- The wrapper `IMAGE_PLUS_GEN_DECODE_FUNC2(webp, decodeWebp)`. -/
def webp := IMAGE_PLUS_GEN_DECODE_FUNC2 (fun table => table.decodeWebp)

/-- The wrapper `IMAGE_PLUS_GEN_DECODE_FUNC2_HDR(webpHeader, decodeWebpHeader)`. -/
def webpHeader := IMAGE_PLUS_GEN_DECODE_FUNC2_HDR (fun table => table.decodeWebpHeader)

/-- The wrapper `IMAGE_PLUS_GEN_DECODE_FUNC2(gif, decodeGif)`. -/
def gif := IMAGE_PLUS_GEN_DECODE_FUNC2 (fun table => table.decodeGif)

end decode

namespace encode

/-- The wrapper `IMAGE_PLUS_GEN_ENCODE_FUNC1(png, encodePng)`. -/
def png := IMAGE_PLUS_GEN_ENCODE_FUNC1 (fun table => table.encodePng)

/-- The wrapper `IMAGE_PLUS_GEN_ENCODE_FUNC1(qoi, encodeQoi)`. -/
def qoi := IMAGE_PLUS_GEN_ENCODE_FUNC1 (fun table => table.encodeQoi)

/-- The wrapper `IMAGE_PLUS_GEN_ENCODE_FUNC2(webp, encodeWebp)`. -/
def webp := IMAGE_PLUS_GEN_ENCODE_FUNC2 (fun table => table.encodeWebp)

/-- The wrapper `IMAGE_PLUS_GEN_ENCODE_FUNC2(jpegxl, encodeJpegXL)`. -/
def jpegxl := IMAGE_PLUS_GEN_ENCODE_FUNC2 (fun table => table.encodeJpegXL)

/-- The wrapper `IMAGE_PLUS_GEN_ENCODE_FUNC3(webp, encodeWebpAnim)`, the
overload of `webp` for animations. -/
def webpAnim := IMAGE_PLUS_GEN_ENCODE_FUNC3 (fun table => table.encodeWebpAnim)

/-- The wrapper `IMAGE_PLUS_GEN_ENCODE_FUNC3(jpegxl, encodeJpegXLAnim)`, the
overload of `jpegxl` for animations. -/
def jpegxlAnim := IMAGE_PLUS_GEN_ENCODE_FUNC3 (fun table => table.encodeJpegXLAnim)

end encode

end events

/-! ## Specification helpers -/

/-- Byte `k` (0 to 3) of the pixel that `blend_alpha` leaves at canvas index
`di` when it blends the source pixel at index `si` over it. -/
def blendByte (canvas src : List Nat) (di si k : Nat) : Nat :=
  let sa := src.getD (si + 3) 0
  if sa = 255 then (if k = 3 then 255 else src.getD (si + k) 0)
  else if sa > 0 then
    (if k = 3 then (if canvas.getD (di + 3) 0 < sa then sa else canvas.getD (di + 3) 0)
     else blendChannel (canvas.getD (di + k) 0) (src.getD (si + k) 0) sa)
  else canvas.getD (di + k) 0

/-- The decoded pixels of a sub-frame, `hasAlpha ? WebPDecodeRGBA(..) : WebPDecodeRGB(..)`. -/
def frameDecoded (hasAlpha : Bool) (iter : WebPIterator) : Option (List Nat) :=
  if hasAlpha then iter.decodeRGBA else iter.decodeRGB

/-- The alpha flag `webpInner` derives for an animation. -/
def animHasAlpha (demux : WebPDemuxer) : Bool :=
  (WebPDemuxGetI demux .WEBP_FF_FORMAT_FLAGS &&& ANIMATION_FLAG) != 0

/-- A sub-frame as libwebp's demuxer delivers it: its rectangle lies inside
the canvas, its duration is an `int`, and it decodes to a buffer of
`width * height * channels` bytes. -/
def FrameFits (hasAlpha : Bool) (canvasW canvasH : Nat) (iter : WebPIterator) : Prop :=
  iter.x_offset + iter.width ≤ canvasW ∧ iter.y_offset + iter.height ≤ canvasH ∧
    iter.duration < 2 ^ 31 ∧
    (frameDecoded hasAlpha iter).map List.length =
      some (iter.width * iter.height * channels hasAlpha)

instance (hasAlpha : Bool) (canvasW canvasH : Nat) (iter : WebPIterator) :
    Decidable (FrameFits hasAlpha canvasW canvasH iter) := by
  unfold FrameFits; infer_instance

/-- A multi-frame container whose canvas takes less than `2 ^ 31` bytes and
whose sub-frames all satisfy `FrameFits`. -/
def WellFormed (demux : WebPDemuxer) : Prop :=
  1 < demux.frameCount ∧ demux.frameCount < 2 ^ 32 ∧ demux.formatFlags < 2 ^ 32 ∧
    demux.loopCount < 2 ^ 32 ∧
    demux.canvasWidth < 2 ^ 31 ∧ demux.canvasHeight < 2 ^ 31 ∧
    demux.canvasWidth * demux.canvasHeight * channels (animHasAlpha demux) < 2 ^ 31 ∧
    ∀ iter ∈ demux.frames,
      FrameFits (animHasAlpha demux) demux.canvasWidth demux.canvasHeight iter

instance (demux : WebPDemuxer) : Decidable (WellFormed demux) := by
  unfold WellFormed; infer_instance

/-- The run of the frame loop, frame by frame: from `canvas`, the sub-frame is
drawn, the drawn canvas is the output frame, and the disposal gives the canvas
the next sub-frame starts from. -/
def Trace (hasAlpha : Bool) (canvasW canvasH : Nat) :
    List Nat → List WebPIterator → List AnimationFrame → Prop
  | _, [], [] => True
  | canvas, iter :: iters, frame :: frames =>
    ∃ dec drawn next, frameDecoded hasAlpha iter = some dec ∧
      drawFrame hasAlpha canvasW canvasH iter dec canvas = some drawn ∧
      drawn.length = canvas.length ∧
      frame = { data := drawn, delay := iter.duration } ∧
      disposeFrame hasAlpha canvasW iter drawn = some next ∧
      next.length = canvas.length ∧
      Trace hasAlpha canvasW canvasH next iters frames
  | _, _ :: _, [] => False
  | _, [], _ :: _ => False

/-- The RGBA8 form of a buffer of RGB8 pixels: each pixel followed by the
alpha byte 255. -/
def addAlpha : List Nat → List Nat
  | r :: g :: b :: rest => r :: g :: b :: 255 :: addAlpha rest
  | _ => []

/-- What libspng is assumed to do with an RGB8 image of `w` by `h` pixels: the
encoder accepts the truecolour header and the image and hands out a buffer
`bytes`; a decoder context on `bytes` reads the same header back, asks
`w * h * 4` bytes for `SPNG_FMT_RGBA8`, and decodes into a buffer of that size
the image's pixels, each followed by the alpha byte 255. -/
def SpngRoundTrip (lib : SpngEncoder) (view : List Nat → PngSource) (w h : Nat)
    (image : List Nat) : Prop :=
  lib.spng_ctx_new = true ∧ lib.spng_set_option = true ∧
    lib.spng_set_ihdr
      { width := w, height := h, bit_depth := 8, color_type := SPNG_COLOR_TYPE_TRUECOLOR } = true ∧
    lib.spng_encode_image
      { width := w, height := h, bit_depth := 8, color_type := SPNG_COLOR_TYPE_TRUECOLOR }
      image (w * h * 3) SPNG_FMT_PNG = true ∧
    ∃ bytes, lib.spng_get_png_buffer
        { width := w, height := h, bit_depth := 8, color_type := SPNG_COLOR_TYPE_TRUECOLOR }
        image (w * h * 3) = some bytes ∧
      (view bytes).spng_ctx_new = true ∧ (view bytes).spng_set_png_buffer = true ∧
      (view bytes).spng_get_ihdr = some
        { width := w, height := h, bit_depth := 8, color_type := SPNG_COLOR_TYPE_TRUECOLOR } ∧
      (view bytes).spng_decoded_image_size SPNG_FMT_RGBA8 = some (w * h * 4) ∧
      ∀ out, out.length = w * h * 4 →
        (view bytes).spng_decode_image SPNG_FMT_RGBA8 SPNG_DECODE_TRNS out (w * h * 4) =
          (true, addAlpha image)

/-- The sum of the delays of a list of frames. -/
def delaySum (frames : List AnimationFrame) : Nat :=
  (frames.map (fun f => f.delay)).sum

/-- The timestamp of the frame with index `i`, in the words of the
specification: the sum of the delays of the frames before it, as the `int` with
that 32-bit pattern.  At `i = frames.length` it is the timestamp of the
finalising call. -/
def frameTimestamp (frames : List AnimationFrame) (i : Nat) : Int :=
  toInt32 (delaySum (frames.take i))

namespace encode

/-- The frame loop of the animation encoder in the words of the specification:
the frame with index `i` of `all` is added with the timestamp
`frameTimestamp all i`; no timestamp is carried from one frame to the next. -/
def webpAnimLoopSummed {Enc Pic : Type} (lib : AnimEncoderLib Enc Pic) (anim : DecodedAnimation)
    (quality : ℚ) (all : List AnimationFrame) :
    Nat → List AnimationFrame → Enc → Option (Except String Enc)
  | _, [], enc => some (.ok enc)
  | i, frame :: frames, enc =>
    if !lib.WebPConfigInit then some (.error "Failed to initialize WebP config")
    else
      let config : WebPConfig := { quality := quality, method := 4, lossless := quality ≥ 99 }
      if !lib.WebPValidateConfig config then some (.error "Invalid WebP config")
      else if !lib.WebPPictureInit then some (.error "Failed to initialize WebP picture")
      else if frame.data.length < anim.width * anim.height * channels anim.hasAlpha then none
      else
        let use_argb := if anim.hasAlpha then 1 else 0
        let success :=
          if anim.hasAlpha then
            lib.WebPPictureImportRGBA anim.width anim.height use_argb frame.data (anim.width * 4)
          else
            lib.WebPPictureImportRGB anim.width anim.height use_argb frame.data (anim.width * 3)
        match success with
        | none => some (.error "Failed to import frame data")
        | some picture =>
          match lib.WebPAnimEncoderAdd enc (some picture) (frameTimestamp all i) (some config) with
          | none => some (.error "Failed to add frame to animation")
          | some enc => webpAnimLoopSummed lib anim quality all (i + 1) frames enc

/-- The animation encoder in the words of the specification: frame `i` is
added at `frameTimestamp anim.frames i`, and the finalising call is made at the
sum of all delays, `frameTimestamp anim.frames anim.frames.length`. -/
def webpAnimSummed {Enc Pic : Type} (lib : AnimEncoderLib Enc Pic) (anim : DecodedAnimation)
    (quality : ℚ) : Option (Except String (List Nat)) :=
  if anim.frames.isEmpty then some (.error "Animation has no frames")
  else if !lib.WebPAnimEncoderOptionsInit then
    some (.error "Failed to initialize animation encoder options")
  else
    match lib.WebPAnimEncoderNew anim.width anim.height 1 9 with
    | none => some (.error "Failed to create WebP animation encoder")
    | some enc =>
      match webpAnimLoopSummed lib anim quality anim.frames 0 anim.frames enc with
      | none => none
      | some (.error e) => some (.error e)
      | some (.ok enc) =>
        match lib.WebPAnimEncoderAdd enc none
            (frameTimestamp anim.frames anim.frames.length) none with
        | none => some (.error "Failed to finalize animation")
        | some enc =>
          match lib.WebPAnimEncoderAssemble enc with
          | none => some (.error "Failed to assemble animation")
          | some webpData => some (.ok webpData)

end encode

/-! ## Example inputs -/

/-- A sub-frame of one opaque pixel at the origin, blended, not disposed. -/
def pixelFrame : WebPIterator :=
  { x_offset := 0, y_offset := 0, width := 1, height := 1, duration := 40
    dispose_method := WEBP_MUX_DISPOSE_NONE, blend_method := WEBP_MUX_BLEND
    decodeRGBA := some [1, 2, 3, 255], decodeRGB := some [1, 2, 3] }

/-- A two-frame animation on a canvas of 65536 by 1 pixels (the VP8X header
stores the canvas width minus one in 24 bits). -/
def wideDemux : WebPDemuxer :=
  { formatFlags := 0x12, canvasWidth := 65536, canvasHeight := 1, loopCount := 0
    frameCount := 2, frames := [pixelFrame, pixelFrame] }

/-- The container of `wideDemux`. -/
def wideData : WebPData :=
  { demux := some wideDemux, features := none, decodeRGBA := none, decodeRGB := none }

/-- A two-frame animation on a canvas of 2 by 2 pixels. -/
def smallDemux : WebPDemuxer :=
  { formatFlags := 0x12, canvasWidth := 2, canvasHeight := 2, loopCount := 3
    frameCount := 2, frames := [pixelFrame, { pixelFrame with x_offset := 1, duration := 70 }] }

/-- The container of `smallDemux`. -/
def smallData : WebPData :=
  { demux := some smallDemux, features := none, decodeRGBA := none, decodeRGB := none }

/-- A still image of one pixel with an alpha channel. -/
def stillData : WebPData :=
  { demux := some { formatFlags := 0x10, canvasWidth := 1, canvasHeight := 1, loopCount := 0
                    frameCount := 1, frames := [] }
    features := some { width := 1, height := 1, has_alpha := 1 }
    decodeRGBA := some [9, 8, 7, 6], decodeRGB := some [9, 8, 7] }

/-- A sub-frame covering a 2 by 2 canvas with opaque pixels, disposed to background. -/
def coverFrame : WebPIterator :=
  { x_offset := 0, y_offset := 0, width := 2, height := 2, duration := 100
    dispose_method := WEBP_MUX_DISPOSE_BACKGROUND, blend_method := WEBP_MUX_NO_BLEND
    decodeRGBA := some [10, 20, 30, 255, 10, 20, 30, 255, 10, 20, 30, 255, 10, 20, 30, 255]
    decodeRGB := none }

/-- A sub-frame of one half-transparent pixel at (1, 1), alpha-blended. -/
def cornerFrame : WebPIterator :=
  { x_offset := 1, y_offset := 1, width := 1, height := 1, duration := 50
    dispose_method := WEBP_MUX_DISPOSE_NONE, blend_method := WEBP_MUX_BLEND
    decodeRGBA := some [255, 0, 7, 128], decodeRGB := none }

/-- The animation `coverFrame`, `cornerFrame` on a 2 by 2 canvas. -/
def disposeDemux : WebPDemuxer :=
  { formatFlags := 0x12, canvasWidth := 2, canvasHeight := 2, loopCount := 0
    frameCount := 2, frames := [coverFrame, cornerFrame] }

/-- The container of `disposeDemux`. -/
def disposeData : WebPData :=
  { demux := some disposeDemux, features := none, decodeRGBA := none, decodeRGB := none }

/-- A sub-frame of one fully transparent pixel with colour, drawn with
`WEBP_MUX_NO_BLEND`. -/
def clearPixelFrame : WebPIterator :=
  { x_offset := 0, y_offset := 0, width := 1, height := 1, duration := 40
    dispose_method := WEBP_MUX_DISPOSE_NONE, blend_method := WEBP_MUX_NO_BLEND
    decodeRGBA := some [10, 20, 30, 0], decodeRGB := none }

/-- A sub-frame of one half-transparent pixel, drawn with `WEBP_MUX_NO_BLEND`. -/
def halfPixelFrame : WebPIterator :=
  { x_offset := 0, y_offset := 0, width := 1, height := 1, duration := 40
    dispose_method := WEBP_MUX_DISPOSE_NONE, blend_method := WEBP_MUX_NO_BLEND
    decodeRGBA := some [200, 100, 50, 128], decodeRGB := none }

/-- The animation `clearPixelFrame`, `halfPixelFrame` on a canvas of one pixel. -/
def overwriteDemux : WebPDemuxer :=
  { formatFlags := 0x12, canvasWidth := 1, canvasHeight := 1, loopCount := 0
    frameCount := 2, frames := [clearPixelFrame, halfPixelFrame] }

/-- The container of `overwriteDemux`. -/
def overwriteData : WebPData :=
  { demux := some overwriteDemux, features := none, decodeRGBA := none, decodeRGB := none }

/-- A two-frame animation without an alpha channel: of the format flags only
the animation flag is set. -/
def animOnlyDemux : WebPDemuxer :=
  { formatFlags := 0x02, canvasWidth := 1, canvasHeight := 1, loopCount := 0
    frameCount := 2, frames := [pixelFrame, pixelFrame] }

/-- The container of `animOnlyDemux`. -/
def animOnlyData : WebPData :=
  { demux := some animOnlyDemux, features := none, decodeRGBA := none, decodeRGB := none }

/-- A sub-frame whose bitstream does not decode. -/
def brokenFrame : WebPIterator :=
  { pixelFrame with decodeRGBA := none, decodeRGB := none }

/-- A three-frame animation whose second sub-frame does not decode. -/
def brokenDemux : WebPDemuxer :=
  { formatFlags := 0x12, canvasWidth := 1, canvasHeight := 1, loopCount := 0
    frameCount := 3, frames := [pixelFrame, brokenFrame, pixelFrame] }

/-- The container of `brokenDemux`. -/
def brokenData : WebPData :=
  { demux := some brokenDemux, features := none, decodeRGBA := none, decodeRGB := none }

/-- A container that announces two frames and delivers none. -/
def emptyDemux : WebPDemuxer :=
  { formatFlags := 0x12, canvasWidth := 1, canvasHeight := 1, loopCount := 0
    frameCount := 2, frames := [] }

/-- The container of `emptyDemux`. -/
def emptyData : WebPData :=
  { demux := some emptyDemux, features := none, decodeRGBA := none, decodeRGB := none }

/-- A stand-in for libspng's encoder that stores width, height and colour type
in three bytes, followed by the raw pixels. -/
def rawEncoder : SpngEncoder :=
  { spng_ctx_new := true
    spng_set_option := true
    spng_set_ihdr := fun _ => true
    spng_encode_image := fun _ _ _ _ => true
    spng_get_png_buffer := fun ihdr image len =>
      some (ihdr.width :: ihdr.height :: ihdr.color_type :: image.take len) }

/-- The reader that goes with `rawEncoder`, for truecolour images: it expands
the stored RGB8 pixels to the format it is asked for. -/
def rawView (bytes : List Nat) : PngSource :=
  { spng_ctx_new := true
    spng_set_png_buffer := true
    spng_get_ihdr :=
      match bytes with
      | w :: h :: ct :: _ => some { width := w, height := h, bit_depth := 8, color_type := ct }
      | _ => none
    spng_decoded_image_size := fun fmt =>
      match bytes with
      | w :: h :: _ :: _ => some (w * h * (if fmt = SPNG_FMT_RGBA8 then 4 else 3))
      | _ => none
    spng_decode_image := fun fmt _ out len =>
      let px := if fmt = SPNG_FMT_RGBA8 then addAlpha (bytes.drop 3) else bytes.drop 3
      if len < px.length then (false, out) else (true, px ++ out.drop px.length) }

/-- An RGB8 image of 2 by 2 pixels. -/
def rgb2x2 : List Nat := [10, 20, 30, 40, 50, 60, 70, 80, 90, 100, 110, 120]

/-- The bytes `rawEncoder` produces for `rgb2x2`. -/
def raw2x2 : List Nat := 2 :: 2 :: SPNG_COLOR_TYPE_TRUECOLOR :: rgb2x2

/-- A header that announces a width of 65536 pixels. -/
def wideRaw : List Nat := [65536, 1, SPNG_COLOR_TYPE_TRUECOLOR]

/-- A stand-in for libwebp's animation encoder whose calls all succeed: the
state of the encoder is the list of the pictures added with their timestamps
(`none` for the finalising call), and the assembled file lists the timestamps. -/
def recordingLib : AnimEncoderLib (List (Option (List Nat) × Int)) (List Nat) :=
  { WebPAnimEncoderOptionsInit := true
    WebPAnimEncoderNew := fun _ _ _ _ => some []
    WebPConfigInit := true
    WebPValidateConfig := fun _ => true
    WebPPictureInit := true
    WebPPictureImportRGBA := fun _ _ _ data _ => some data
    WebPPictureImportRGB := fun _ _ _ data _ => some data
    WebPAnimEncoderAdd := fun enc picture timestamp _ => some (enc ++ [(picture, timestamp)])
    WebPAnimEncoderAssemble := fun enc => some (enc.map (fun e => e.2.toNat)) }

/-- An animation of 2 by 2 pixels without frames. -/
def emptyAnim : DecodedAnimation :=
  { loopCount := 0, hasAlpha := true, width := 2, height := 2, frames := [] }

/-- An animation of one pixel with three frames. -/
def threeFrames : DecodedAnimation :=
  { loopCount := 0, hasAlpha := true, width := 1, height := 1
    frames := [{ data := [1, 2, 3, 255], delay := 40 }, { data := [4, 5, 6, 255], delay := 70 },
               { data := [7, 8, 9, 255], delay := 100 }] }

/-- An animation of one pixel whose delays add up to `2 ^ 31 + 5`. -/
def longFrames : DecodedAnimation :=
  { loopCount := 0, hasAlpha := true, width := 1, height := 1
    frames := [{ data := [1, 2, 3, 255], delay := 2147483647 },
               { data := [4, 5, 6, 255], delay := 6 }] }

/-- A stand-in for libwebp's simple encoders: each returns two bytes, a tag
that tells the four apart and the stride it was given. -/
def tagEncoders : WebPEncoderLib :=
  { WebPEncodeLosslessRGBA := fun _ _ _ stride => (2, some [1, stride])
    WebPEncodeLosslessRGB := fun _ _ _ stride => (2, some [2, stride])
    WebPEncodeRGBA := fun _ _ _ stride _ => (2, some [3, stride])
    WebPEncodeRGB := fun _ _ _ stride _ => (2, some [4, stride]) }

/-- Stand-ins for the functions of `api.hpp`: the PNG decoders are the adapter's
on the stand-in reader `rawView`, the others are constant. -/
def sampleApi : Api :=
  { guessFormat := fun _ => .Png
    tryDecode := fun _ _ => .error "unsupported"
    isJpeg := fun _ => false
    isAPng := fun _ => false
    isPng := fun _ => true
    isGif := fun _ => false
    isWebp := fun _ => false
    isTiff := fun _ => false
    isQoi := fun _ => false
    isJpegXL := fun _ => false
    decodePng := fun data => decode.png (rawView data)
    decodeQoi := fun _ => .error "unsupported"
    decodeJpegXL := fun _ => .error "unsupported"
    decodeWebp := fun _ => .error "unsupported"
    decodeGif := fun _ => .error "unsupported"
    encodePng := fun _ _ _ _ => .error "unsupported"
    encodeQoi := fun _ _ _ _ => .error "unsupported"
    encodeWebp := fun _ _ _ _ _ => .error "unsupported"
    encodeJpegXL := fun _ _ _ _ _ => .error "unsupported"
    encodeWebpAnim := fun _ _ => .error "unsupported"
    encodeJpegXLAnim := fun _ _ => .error "unsupported"
    decodePngHeader := fun data => decode.pngHeader (rawView data)
    decodeWebpHeader := fun _ =>
      .ok (.image { data := none, width := 1, height := 1, bit_depth := none, hasAlpha := true }) }

/-- The state before the first call when the table of `Events.cpp` is
published: nothing cached, and the listener delivers the table. -/
def publishedResolver : Resolver :=
  { table := none, event := some (functionTable sampleApi) }

/-- The state when nothing listens to `FetchTableEvent`. -/
def unresolved : Resolver :=
  { table := none, event := none }

/-- A table of version 2 that offers the two header decoders of `sampleApi`
and the PNG decoder, and nothing else. -/
def headerTable : FunctionTable :=
  { version := 2
    guessFormat := none
    tryDecode := none
    isJpeg := none
    isAPng := none
    isPng := none
    isGif := none
    isWebp := none
    isTiff := none
    isQoi := none
    isJpegXL := none
    decodePng := some sampleApi.decodePng
    decodeQoi := none
    decodeJpegXL := none
    decodeWebp := none
    decodeGif := none
    encodePng := none
    encodeQoi := none
    encodeWebp := none
    encodeJpegXL := none
    encodeWebpAnim := none
    encodeJpegXLAnim := none
    decodePngHeader := some sampleApi.decodePngHeader
    decodeQoiHeader := none
    decodeJpegXLHeader := none
    decodeWebpHeader := some sampleApi.decodeWebpHeader
    decodeGifHeader := none }

/-- A sub-frame of one pixel at (0, 32), alpha-blended. -/
def tallFrame : WebPIterator :=
  { pixelFrame with y_offset := 32 }

/-- A two-frame animation on a canvas of 16777216 by 33 pixels, the largest
width the 24-bit field of the VP8X header holds; the canvas takes
2214592512 bytes, fewer than `2 ^ 32`. -/
def tallDemux : WebPDemuxer :=
  { formatFlags := 0x12, canvasWidth := 16777216, canvasHeight := 33, loopCount := 0
    frameCount := 2, frames := [tallFrame, pixelFrame] }

/-- The container of `tallDemux`. -/
def tallData : WebPData :=
  { demux := some tallDemux, features := none, decodeRGBA := none, decodeRGB := none }

theorem int32_of_lt {n : Nat} (h : n < 2 ^ 31) : int32 n = some n := by
  unfold int32; rw [if_pos h]

theorem load_of_lt {buf : List Nat} {i : Nat} (h : i < buf.length) :
    load buf i = some (buf.getD i 0) := by
  simp [load, List.getElem?_eq_getElem h]

theorem store_of_lt {buf : List Nat} {i : Nat} (v : Nat) (h : i < buf.length) :
    store buf i v = some (buf.set i v) := by
  simp [store, h]

theorem getD_of_getElem? {buf buf' : List Nat} {i j : Nat} (h : buf[i]? = buf'[j]?) :
    buf.getD i 0 = buf'.getD j 0 := by
  simp [List.getD_eq_getElem?_getD, h]

theorem getElem?_eq_some_getD {buf : List Nat} {i : Nat} (h : i < buf.length) :
    buf[i]? = some (buf.getD i 0) := by
  simp [List.getElem?_eq_getElem h]

/-- Invariant rule for a counted loop. -/
theorem loopFrom_inv {σ : Type} (Inv : Nat → σ → Prop) (body : Nat → σ → Option σ) :
    ∀ (k i : Nat) (s : σ), Inv i s →
      (∀ j t, i ≤ j → j < i + k → Inv j t → ∃ t', body j t = some t' ∧ Inv (j + 1) t') →
      ∃ s', loopFrom body k i s = some s' ∧ Inv (i + k) s' := by
  intro k
  induction k with
  | zero => intro i s h _; exact ⟨s, rfl, by simpa using h⟩
  | succ k ih =>
    intro i s h hstep
    obtain ⟨t, ht, hInv⟩ := hstep i s (Nat.le_refl i) (by omega) h
    obtain ⟨s', hs', hInv'⟩ := ih (i + 1) t hInv
      (fun j u hj hlt hu => hstep j u (by omega) (by omega) hu)
    refine ⟨s', ?_, ?_⟩
    · simp [loopFrom, ht, hs']
    · have e : i + (k + 1) = i + 1 + k := by omega
      rw [e]; exact hInv'

/-- A counted loop whose iteration `i` rewrites only the index range
`[lo i, hi i)` of a buffer, the ranges being laid out in increasing order:
the loop runs to the end, keeps the length, leaves in range `i` what iteration
`i` computes from the original buffer, and changes nothing outside the ranges. -/
theorem forLoop_regions (body : Nat → List Nat → Option (List Nat)) (n : Nat)
    (canvas : List Nat) (lo hi : Nat → Nat) (exp : Nat → Nat → Nat)
    (hmono : ∀ i i', i < i' → i' < n → hi i ≤ lo i')
    (hbody : ∀ i cur, i < n → cur.length = canvas.length →
      (∀ j, lo i ≤ j → j < hi i → cur[j]? = canvas[j]?) →
      ∃ out, body i cur = some out ∧ out.length = canvas.length ∧
        (∀ j, (j < lo i ∨ hi i ≤ j) → out[j]? = cur[j]?) ∧
        (∀ j, lo i ≤ j → j < hi i → out[j]? = some (exp i j))) :
    ∃ out, forLoop n body canvas = some out ∧ out.length = canvas.length ∧
      (∀ i j, i < n → lo i ≤ j → j < hi i → out[j]? = some (exp i j)) ∧
      (∀ j, (∀ i, i < n → j < lo i ∨ hi i ≤ j) → out[j]? = canvas[j]?) := by
  have key := loopFrom_inv
    (fun m cur => m ≤ n → (cur.length = canvas.length ∧
      (∀ i j, i < m → lo i ≤ j → j < hi i → cur[j]? = some (exp i j)) ∧
      (∀ j, (∀ i, i < m → j < lo i ∨ hi i ≤ j) → cur[j]? = canvas[j]?)))
    body n 0 canvas
    (by
      intro _
      exact ⟨rfl, fun i j hi' => absurd hi' (Nat.not_lt_zero i), fun j _ => rfl⟩)
    (by
      intro m cur _ hm hInv
      have hm' : m < n := by omega
      obtain ⟨hlen, hdone, hrest⟩ := hInv (by omega)
      have hagree : ∀ j, lo m ≤ j → j < hi m → cur[j]? = canvas[j]? := by
        intro j hj1 _
        apply hrest
        intro i him
        have := hmono i m him hm'
        right; omega
      obtain ⟨out, hc', hlen', hout, hin⟩ := hbody m cur hm' hlen hagree
      refine ⟨out, hc', fun _ => ⟨hlen', ?_, ?_⟩⟩
      · intro i j hi1 hj1 hj2
        by_cases him : i < m
        · have := hmono i m him hm'
          rw [hout j (by left; omega)]
          exact hdone i j him hj1 hj2
        · have : i = m := by omega
          subst this
          exact hin j hj1 hj2
      · intro j hj
        rw [hout j (hj m (by omega))]
        exact hrest j (fun i hi1 => hj i (by omega)))
  obtain ⟨out, hc', hInv⟩ := key
  have := hInv (by omega)
  simp only [Nat.zero_add] at this
  exact ⟨out, hc', this⟩

theorem blend_alpha_solid_eq (cur : List Nat) (dst rs gs bs : Nat) (hd : dst + 3 < cur.length) :
    blend_alpha_solid cur dst rs gs bs =
      some ((((cur.set dst rs).set (dst + 1) gs).set (dst + 2) bs).set (dst + 3) 255) := by
  unfold blend_alpha_solid
  have e0 : store cur (dst + 0) rs = some (cur.set dst rs) := store_of_lt rs (by omega)
  have e1 : store (cur.set dst rs) (dst + 1) gs = some ((cur.set dst rs).set (dst + 1) gs) :=
    store_of_lt gs (by simp; omega)
  have e2 : store ((cur.set dst rs).set (dst + 1) gs) (dst + 2) bs =
      some (((cur.set dst rs).set (dst + 1) gs).set (dst + 2) bs) :=
    store_of_lt bs (by simp; omega)
  have e3 : store (((cur.set dst rs).set (dst + 1) gs).set (dst + 2) bs) (dst + 3) 255 =
      some ((((cur.set dst rs).set (dst + 1) gs).set (dst + 2) bs).set (dst + 3) 255) :=
    store_of_lt 255 (by simp; omega)
  simp only [e0, e1, e2, e3, Option.bind_eq_bind, Option.some_bind, bind, Option.bind]

theorem blend_alpha_mixed_eq (cur : List Nat) (dst rs gs bs sa : Nat)
    (hd : dst + 3 < cur.length) :
    blend_alpha_mixed cur dst rs gs bs sa =
      some ((((cur.set dst (blendChannel (cur.getD dst 0) rs sa)).set (dst + 1)
        (blendChannel (cur.getD (dst + 1) 0) gs sa)).set (dst + 2)
        (blendChannel (cur.getD (dst + 2) 0) bs sa)).set (dst + 3)
        (if cur.getD (dst + 3) 0 < sa then sa else cur.getD (dst + 3) 0)) := by
  unfold blend_alpha_mixed
  have l0 : load cur (dst + 0) = some (cur.getD dst 0) := load_of_lt (by omega)
  have e0 : ∀ v, store cur (dst + 0) v = some (cur.set dst v) := fun v => store_of_lt v (by omega)
  have l1 : ∀ v, load (cur.set dst v) (dst + 1) = some (cur.getD (dst + 1) 0) := by
    intro v
    rw [load_of_lt (by simp; omega)]
    simp [List.getElem?_set]
  have e1 : ∀ v w, store (cur.set dst v) (dst + 1) w = some ((cur.set dst v).set (dst + 1) w) :=
    fun v w => store_of_lt w (by simp; omega)
  have l2 : ∀ v w, load ((cur.set dst v).set (dst + 1) w) (dst + 2) =
      some (cur.getD (dst + 2) 0) := by
    intro v w
    rw [load_of_lt (by simp; omega)]
    simp [List.getElem?_set]
  have e2 : ∀ v w u, store ((cur.set dst v).set (dst + 1) w) (dst + 2) u =
      some (((cur.set dst v).set (dst + 1) w).set (dst + 2) u) :=
    fun v w u => store_of_lt u (by simp; omega)
  have l3 : ∀ v w u, load (((cur.set dst v).set (dst + 1) w).set (dst + 2) u) (dst + 3) =
      some (cur.getD (dst + 3) 0) := by
    intro v w u
    rw [load_of_lt (by simp; omega)]
    simp [List.getElem?_set]
  have e3 : ∀ v w u t, store (((cur.set dst v).set (dst + 1) w).set (dst + 2) u) (dst + 3) t =
      some ((((cur.set dst v).set (dst + 1) w).set (dst + 2) u).set (dst + 3) t) :=
    fun v w u t => store_of_lt t (by simp; omega)
  simp only [l0, e0, l1, e1, l2, e2, l3, e3, Option.bind_eq_bind, Option.some_bind, bind,
    Option.bind]

/-- Reading a buffer after four consecutive single-byte writes. -/
theorem getElem?_set4 (cur : List Nat) (dst v0 v1 v2 v3 : Nat) (hd : dst + 3 < cur.length)
    (j : Nat) :
    ((((cur.set dst v0).set (dst + 1) v1).set (dst + 2) v2).set (dst + 3) v3)[j]? =
      if j = dst then some v0 else if j = dst + 1 then some v1
      else if j = dst + 2 then some v2 else if j = dst + 3 then some v3 else cur[j]? := by
  simp only [List.getElem?_set, List.length_set]
  by_cases h3 : dst + 3 = j
  · subst h3; simp; omega
  · by_cases h2 : dst + 2 = j
    · subst h2; simp; omega
    · by_cases h1 : dst + 1 = j
      · subst h1; simp; omega
      · by_cases h0 : dst = j
        · subst h0; simp; omega
        · have a0 : ¬ j = dst := fun h => h0 h.symm
          have a1 : ¬ j = dst + 1 := fun h => h1 h.symm
          have a2 : ¬ j = dst + 2 := fun h => h2 h.symm
          have a3 : ¬ j = dst + 3 := fun h => h3 h.symm
          simp [h0, h1, h2, h3, a0, a1, a2, a3]

theorem blend_alpha_pixel_spec (src : List Nat) (dstRow srcRow x : Nat) (cur : List Nat)
    (hx : 4 * x + 3 < 2 ^ 31) (hs : srcRow + 4 * x + 3 < src.length)
    (hd : dstRow + 4 * x + 3 < cur.length) :
    ∃ out, blend_alpha_pixel src dstRow srcRow x cur = some out ∧ out.length = cur.length ∧
      (∀ j, (j < dstRow + 4 * x ∨ dstRow + 4 * x + 4 ≤ j) → out[j]? = cur[j]?) ∧
      (∀ j, dstRow + 4 * x ≤ j → j < dstRow + 4 * x + 4 →
        out[j]? = some (blendByte cur src (dstRow + 4 * x) (srcRow + 4 * x) (j - (dstRow + 4 * x)))) := by
  have h0 : 4 * x + 0 < 2 ^ 31 := by omega
  have h1 : 4 * x + 1 < 2 ^ 31 := by omega
  have h2 : 4 * x + 2 < 2 ^ 31 := by omega
  have h4 : 4 * x < 2 ^ 31 := by omega
  have s0 : srcRow + (4 * x + 0) < src.length := by omega
  have s1 : srcRow + (4 * x + 1) < src.length := by omega
  have s2 : srcRow + (4 * x + 2) < src.length := by omega
  have s3 : srcRow + (4 * x + 3) < src.length := by omega
  have hd' : dstRow + 4 * x + 3 < cur.length := hd
  unfold blend_alpha_pixel
  simp only [int32_of_lt h0, int32_of_lt h1, int32_of_lt h2, int32_of_lt hx, int32_of_lt h4,
    load_of_lt s0, load_of_lt s1, load_of_lt s2, load_of_lt s3, Option.bind_eq_bind,
    Option.some_bind, bind, Option.bind]
  have key : ∀ v0 v1 v2 v3 : Nat,
      (∀ k, k < 4 → blendByte cur src (dstRow + 4 * x) (srcRow + 4 * x) k =
        if k = 0 then v0 else if k = 1 then v1 else if k = 2 then v2 else v3) →
      (((((cur.set (dstRow + 4 * x) v0).set (dstRow + 4 * x + 1) v1).set
          (dstRow + 4 * x + 2) v2).set (dstRow + 4 * x + 3) v3).length = cur.length ∧
        (∀ j, (j < dstRow + 4 * x ∨ dstRow + 4 * x + 4 ≤ j) →
          ((((cur.set (dstRow + 4 * x) v0).set (dstRow + 4 * x + 1) v1).set
            (dstRow + 4 * x + 2) v2).set (dstRow + 4 * x + 3) v3)[j]? = cur[j]?) ∧
        (∀ j, dstRow + 4 * x ≤ j → j < dstRow + 4 * x + 4 →
          ((((cur.set (dstRow + 4 * x) v0).set (dstRow + 4 * x + 1) v1).set
            (dstRow + 4 * x + 2) v2).set (dstRow + 4 * x + 3) v3)[j]? =
          some (blendByte cur src (dstRow + 4 * x) (srcRow + 4 * x) (j - (dstRow + 4 * x))))) := by
    intro v0 v1 v2 v3 hv
    refine ⟨by simp, ?_, ?_⟩
    · intro j hj
      rw [getElem?_set4 cur _ v0 v1 v2 v3 hd' j]
      have a0 : ¬ j = dstRow + 4 * x := by omega
      have a1 : ¬ j = dstRow + 4 * x + 1 := by omega
      have a2 : ¬ j = dstRow + 4 * x + 2 := by omega
      have a3 : ¬ j = dstRow + 4 * x + 3 := by omega
      simp [a0, a1, a2, a3]
    · intro j hj1 hj2
      rw [getElem?_set4 cur _ v0 v1 v2 v3 hd' j, hv _ (by omega)]
      by_cases a0 : j = dstRow + 4 * x
      · subst a0; simp
      · by_cases a1 : j = dstRow + 4 * x + 1
        · subst a1; simp
        · by_cases a2 : j = dstRow + 4 * x + 2
          · subst a2; simp
          · have a3 : j = dstRow + 4 * x + 3 := by omega
            subst a3; simp
  by_cases ha : src.getD (srcRow + (4 * x + 3)) 0 = 255
  · rw [if_pos ha, blend_alpha_solid_eq cur _ _ _ _ hd']
    refine ⟨_, rfl, key _ _ _ _ ?_⟩
    intro k hk
    have ha' : src.getD (srcRow + 4 * x + 3) 0 = 255 := by rw [← ha, Nat.add_assoc]
    unfold blendByte
    simp only [ha', if_true]
    by_cases k0 : k = 0
    · subst k0; simp [Nat.add_assoc]
    · by_cases k1 : k = 1
      · subst k1; simp [Nat.add_assoc]
      · by_cases k2 : k = 2
        · subst k2; simp [Nat.add_assoc]
        · have k3 : k = 3 := by omega
          subst k3; simp
  · rw [if_neg ha]
    have ha' : ¬ src.getD (srcRow + 4 * x + 3) 0 = 255 := by rw [Nat.add_assoc]; exact ha
    by_cases hp : src.getD (srcRow + (4 * x + 3)) 0 > 0
    · rw [if_pos hp, blend_alpha_mixed_eq cur _ _ _ _ _ hd']
      refine ⟨_, rfl, key _ _ _ _ ?_⟩
      intro k hk
      have hp' : src.getD (srcRow + 4 * x + 3) 0 > 0 := by rw [Nat.add_assoc]; exact hp
      unfold blendByte
      simp only [if_neg ha', if_pos hp']
      by_cases k0 : k = 0
      · subst k0; simp [Nat.add_assoc]
      · by_cases k1 : k = 1
        · subst k1; simp [Nat.add_assoc]
        · by_cases k2 : k = 2
          · subst k2; simp [Nat.add_assoc]
          · have k3 : k = 3 := by omega
            subst k3; simp [Nat.add_assoc]
    · rw [if_neg hp]
      have hp' : ¬ src.getD (srcRow + 4 * x + 3) 0 > 0 := by rw [Nat.add_assoc]; exact hp
      refine ⟨cur, rfl, rfl, fun _ _ => rfl, ?_⟩
      intro j hj1 hj2
      unfold blendByte
      simp only [if_neg ha', if_neg hp']
      have e : dstRow + 4 * x + (j - (dstRow + 4 * x)) = j := by omega
      rw [e]
      exact getElem?_eq_some_getD (by omega)

theorem blendByte_congr (cur canvas src : List Nat) (di si k : Nat) (hk : k < 4)
    (h : ∀ j, di ≤ j → j < di + 4 → cur[j]? = canvas[j]?) :
    blendByte cur src di si k = blendByte canvas src di si k := by
  have e3 : cur.getD (di + 3) 0 = canvas.getD (di + 3) 0 :=
    getD_of_getElem? (h _ (by omega) (by omega))
  have ek : cur.getD (di + k) 0 = canvas.getD (di + k) 0 :=
    getD_of_getElem? (h _ (by omega) (by omega))
  unfold blendByte
  rw [e3, ek]

/-- The inner loop of `blend_alpha` on one row: it rewrites the `4 * srcW`
bytes from `dstRow` on and nothing else. -/
theorem blend_alpha_pixels_spec (src : List Nat) (dstRow srcRow srcW : Nat)
    (canvas cur : List Nat) (hw : 4 * srcW ≤ 2 ^ 31) (hs : srcRow + 4 * srcW ≤ src.length)
    (hd : dstRow + 4 * srcW ≤ cur.length) (hlen : cur.length = canvas.length)
    (hag : ∀ j, dstRow ≤ j → j < dstRow + 4 * srcW → cur[j]? = canvas[j]?) :
    ∃ out, forLoop srcW (blend_alpha_pixel src dstRow srcRow) cur = some out ∧
      out.length = canvas.length ∧
      (∀ j, (j < dstRow ∨ dstRow + 4 * srcW ≤ j) → out[j]? = cur[j]?) ∧
      (∀ j, dstRow ≤ j → j < dstRow + 4 * srcW →
        out[j]? = some (blendByte canvas src (dstRow + 4 * ((j - dstRow) / 4))
          (srcRow + 4 * ((j - dstRow) / 4)) ((j - dstRow) % 4))) := by
  have hmono : ∀ i i', i < i' → i' < srcW →
      (fun x => dstRow + 4 * x + 4) i ≤ (fun x => dstRow + 4 * x) i' := by
    intro i i' h1 h2
    show dstRow + 4 * i + 4 ≤ dstRow + 4 * i'
    omega
  have hbody : ∀ i cv, i < srcW → cv.length = cur.length →
      (∀ j, (fun x => dstRow + 4 * x) i ≤ j → j < (fun x => dstRow + 4 * x + 4) i →
        cv[j]? = cur[j]?) →
      ∃ o, blend_alpha_pixel src dstRow srcRow i cv = some o ∧ o.length = cur.length ∧
        (∀ j, (j < (fun x => dstRow + 4 * x) i ∨ (fun x => dstRow + 4 * x + 4) i ≤ j) →
          o[j]? = cv[j]?) ∧
        (∀ j, (fun x => dstRow + 4 * x) i ≤ j → j < (fun x => dstRow + 4 * x + 4) i →
          o[j]? = some ((fun x j => blendByte canvas src (dstRow + 4 * x) (srcRow + 4 * x)
            (j - (dstRow + 4 * x))) i j)) := by
    intro x cv hx hcl hc
    have b1 : 4 * x + 3 < 2 ^ 31 := by omega
    have b2 : srcRow + 4 * x + 3 < src.length := by omega
    have b3 : dstRow + 4 * x + 3 < cv.length := by omega
    obtain ⟨o, ho, hol, hoo, hoi⟩ := blend_alpha_pixel_spec src dstRow srcRow x cv b1 b2 b3
    refine ⟨o, ho, by omega, hoo, ?_⟩
    intro j hj1 hj2
    have hcc : ∀ t, dstRow + 4 * x ≤ t → t < dstRow + 4 * x + 4 → cv[t]? = canvas[t]? := by
      intro t ht1 ht2
      rw [hc t ht1 ht2]
      exact hag t (by omega) (by omega)
    have hj1' : dstRow + 4 * x ≤ j := hj1
    have hj2' : j < dstRow + 4 * x + 4 := hj2
    have hk : j - (dstRow + 4 * x) < 4 := by omega
    rw [hoi j hj1 hj2, blendByte_congr cv canvas src _ _ _ hk hcc]
  obtain ⟨out, hout, hl, hin, hrest⟩ := forLoop_regions (blend_alpha_pixel src dstRow srcRow)
    srcW cur _ _ _ hmono hbody
  refine ⟨out, hout, by omega, ?_, ?_⟩
  · intro j hj
    apply hrest
    intro i hi
    show j < dstRow + 4 * i ∨ dstRow + 4 * i + 4 ≤ j
    omega
  · intro j hj1 hj2
    have hi : (j - dstRow) / 4 < srcW := by omega
    have := hin ((j - dstRow) / 4) j hi (by show dstRow + 4 * ((j - dstRow) / 4) ≤ j; omega)
      (by show j < dstRow + 4 * ((j - dstRow) / 4) + 4; omega)
    have e : j - (dstRow + 4 * ((j - dstRow) / 4)) = (j - dstRow) % 4 := by omega
    rw [this, e]

theorem succ_row_le {a b W : Nat} (h : a < b) : a * W + W ≤ b * W := by
  have := Nat.mul_le_mul_right W (Nat.succ_le_of_lt h)
  rw [Nat.succ_mul] at this
  exact this

theorem rect_index_le {W H X Y w : Nat} (hY : Y < H) (hX : X + w ≤ W) :
    Y * W + X + w ≤ W * H := by
  have := succ_row_le (W := W) hY
  rw [Nat.mul_comm W H]
  omega

/-- A loop over the rows of a sub-frame rectangle, each iteration rewriting
exactly the bytes of its row (`ch` bytes per pixel): the loop rewrites the
rectangle and leaves every pixel outside it as it was. -/
theorem rect_rows (ch : Nat) (hch : ch = 3 ∨ ch = 4)
    (body : Nat → List Nat → Option (List Nat)) (canvas : List Nat)
    (W H w h ox oy : Nat) (exp : Nat → Nat → Nat)
    (hX : ox + w ≤ W)
    (hbody : ∀ y cur, y < h → cur.length = canvas.length →
      (∀ j, ((oy + y) * W + ox) * ch ≤ j → j < ((oy + y) * W + ox) * ch + w * ch →
        cur[j]? = canvas[j]?) →
      ∃ out, body y cur = some out ∧ out.length = canvas.length ∧
        (∀ j, (j < ((oy + y) * W + ox) * ch ∨ ((oy + y) * W + ox) * ch + w * ch ≤ j) →
          out[j]? = cur[j]?) ∧
        (∀ j, ((oy + y) * W + ox) * ch ≤ j → j < ((oy + y) * W + ox) * ch + w * ch →
          out[j]? = some (exp y j))) :
    ∃ out, forLoop h body canvas = some out ∧ out.length = canvas.length ∧
      (∀ x y k, x < w → y < h → k < ch →
        out[((oy + y) * W + ox + x) * ch + k]? =
          some (exp y (((oy + y) * W + ox + x) * ch + k))) ∧
      (∀ X Y k, X < W → Y < H → k < ch →
        ¬ (ox ≤ X ∧ X < ox + w ∧ oy ≤ Y ∧ Y < oy + h) →
        out[(Y * W + X) * ch + k]? = canvas[(Y * W + X) * ch + k]?) := by
  obtain ⟨out, hout, hl, hin, hrest⟩ := forLoop_regions body h canvas
    (fun y => ((oy + y) * W + ox) * ch) (fun y => ((oy + y) * W + ox) * ch + w * ch)
    exp
    (by
      intro i i' h1 h2
      show ((oy + i) * W + ox) * ch + w * ch ≤ ((oy + i') * W + ox) * ch
      have := succ_row_le (W := W) (show oy + i < oy + i' by omega)
      rcases hch with rfl | rfl <;> omega)
    hbody
  refine ⟨out, hout, hl, ?_, ?_⟩
  · intro x y k hx hy hk
    apply hin y _ hy
    · show ((oy + y) * W + ox) * ch ≤ ((oy + y) * W + ox + x) * ch + k
      rcases hch with rfl | rfl <;> omega
    · show ((oy + y) * W + ox + x) * ch + k < ((oy + y) * W + ox) * ch + w * ch
      rcases hch with rfl | rfl <;> omega
  · intro X Y k hX' hY' hk hnot
    apply hrest
    intro y hy
    show (Y * W + X) * ch + k < ((oy + y) * W + ox) * ch ∨
      ((oy + y) * W + ox) * ch + w * ch ≤ (Y * W + X) * ch + k
    rcases Nat.lt_trichotomy Y (oy + y) with hlt | heq | hgt
    · left
      have := succ_row_le (W := W) hlt
      rcases hch with rfl | rfl <;> omega
    · subst heq
      by_cases hxl : X < ox
      · left; rcases hch with rfl | rfl <;> omega
      · right
        have : ox + w ≤ X := by
          by_contra hc
          exact hnot ⟨by omega, by omega, by omega, by omega⟩
        rcases hch with rfl | rfl <;> omega
    · right
      have := succ_row_le (W := W) hgt
      rcases hch with rfl | rfl <;> omega

/-- What `blend_alpha` does on a sub-frame that lies inside the canvas: it runs
without leaving the buffers, every pixel of the rectangle becomes the blend of
the old canvas pixel with the source pixel, and every pixel outside the
rectangle keeps its bytes. -/
theorem blend_alpha_spec (canvas src : List Nat)
    (canvasW canvasH srcW srcH offsetX offsetY : Nat)
    (hX : offsetX + srcW ≤ canvasW) (hY : offsetY + srcH ≤ canvasH)
    (hlen : canvas.length = canvasW * canvasH * 4) (hsz : canvasW * canvasH * 4 < 2 ^ 31)
    (hH : canvasH < 2 ^ 31) (hsrc : src.length = srcW * srcH * 4) :
    ∃ out, blend_alpha canvas src canvasW canvasH srcW srcH offsetX offsetY = some out ∧
      out.length = canvas.length ∧
      (∀ x y k, x < srcW → y < srcH → k < 4 →
        out[((offsetY + y) * canvasW + offsetX + x) * 4 + k]? =
          some (blendByte canvas src (((offsetY + y) * canvasW + offsetX + x) * 4)
            ((y * srcW + x) * 4) k)) ∧
      (∀ X Y k, X < canvasW → Y < canvasH → k < 4 →
        ¬ (offsetX ≤ X ∧ X < offsetX + srcW ∧ offsetY ≤ Y ∧ Y < offsetY + srcH) →
        out[(Y * canvasW + X) * 4 + k]? = canvas[(Y * canvasW + X) * 4 + k]?) := by
  have hbody : ∀ y cur, y < srcH → cur.length = canvas.length →
      (∀ j, ((offsetY + y) * canvasW + offsetX) * 4 ≤ j →
        j < ((offsetY + y) * canvasW + offsetX) * 4 + srcW * 4 → cur[j]? = canvas[j]?) →
      ∃ out, blend_alpha_row src canvasW srcW offsetX offsetY y cur = some out ∧
        out.length = canvas.length ∧
        (∀ j, (j < ((offsetY + y) * canvasW + offsetX) * 4 ∨
            ((offsetY + y) * canvasW + offsetX) * 4 + srcW * 4 ≤ j) → out[j]? = cur[j]?) ∧
        (∀ j, ((offsetY + y) * canvasW + offsetX) * 4 ≤ j →
          j < ((offsetY + y) * canvasW + offsetX) * 4 + srcW * 4 →
          out[j]? = some ((fun y j => blendByte canvas src
            (((offsetY + y) * canvasW + offsetX) * 4 +
              4 * ((j - ((offsetY + y) * canvasW + offsetX) * 4) / 4))
            (y * srcW * 4 + 4 * ((j - ((offsetY + y) * canvasW + offsetX) * 4) / 4))
            ((j - ((offsetY + y) * canvasW + offsetX) * 4) % 4)) y j)) := by
    intro y cur hy hcl hag
    have hYlt : offsetY + y < canvasH := by omega
    have hidx := rect_index_le (W := canvasW) (w := srcW) hYlt hX
    have hsidx := succ_row_le (W := srcW) hy
    have b0 : offsetY + y < 2 ^ 31 := by omega
    have b1 : (offsetY + y) * canvasW < 2 ^ 31 := by omega
    have b2 : (offsetY + y) * canvasW + offsetX < 2 ^ 31 := by omega
    have b3 : ((offsetY + y) * canvasW + offsetX) * 4 < 2 ^ 31 := by omega
    have hsw : srcW * srcH ≤ canvasW * canvasH :=
      Nat.mul_le_mul (by omega) (by omega)
    have hcomm : srcH * srcW = srcW * srcH := Nat.mul_comm _ _
    have s0 : y * srcW < 2 ^ 31 := by omega
    have s1 : y * srcW * 4 < 2 ^ 31 := by omega
    unfold blend_alpha_row
    simp only [int32_of_lt b0, int32_of_lt b1, int32_of_lt b2, int32_of_lt b3, int32_of_lt s0,
      int32_of_lt s1, Option.bind_eq_bind, Option.some_bind, bind, Option.bind]
    obtain ⟨out, hout, hl, ho, hi⟩ := blend_alpha_pixels_spec src
      (((offsetY + y) * canvasW + offsetX) * 4) (y * srcW * 4) srcW canvas cur
      (by omega) (by omega) (by omega) hcl
      (by intro j h1 h2; exact hag j h1 (by omega))
    refine ⟨out, hout, hl, ?_, ?_⟩
    · intro j hj
      exact ho j (by omega)
    · intro j h1 h2
      exact hi j h1 (by omega)
  obtain ⟨out, hout, hl, hin, hrest⟩ := rect_rows 4 (Or.inr rfl)
    (blend_alpha_row src canvasW srcW offsetX offsetY) canvas canvasW canvasH srcW srcH
    offsetX offsetY _ hX hbody
  refine ⟨out, hout, hl, ?_, hrest⟩
  intro x y k hx hy hk
  rw [hin x y k hx hy hk]
  have e1 : (((offsetY + y) * canvasW + offsetX + x) * 4 + k -
      ((offsetY + y) * canvasW + offsetX) * 4) / 4 = x := by omega
  have e2 : (((offsetY + y) * canvasW + offsetX + x) * 4 + k -
      ((offsetY + y) * canvasW + offsetX) * 4) % 4 = k := by omega
  have e3 : ((offsetY + y) * canvasW + offsetX) * 4 + 4 * x =
      ((offsetY + y) * canvasW + offsetX + x) * 4 := by omega
  have e4 : y * srcW * 4 + 4 * x = (y * srcW + x) * 4 := by omega
  show some (blendByte canvas src
      (((offsetY + y) * canvasW + offsetX) * 4 +
        4 * ((((offsetY + y) * canvasW + offsetX + x) * 4 + k -
          ((offsetY + y) * canvasW + offsetX) * 4) / 4))
      (y * srcW * 4 + 4 * ((((offsetY + y) * canvasW + offsetX + x) * 4 + k -
          ((offsetY + y) * canvasW + offsetX) * 4) / 4))
      ((((offsetY + y) * canvasW + offsetX + x) * 4 + k -
          ((offsetY + y) * canvasW + offsetX) * 4) % 4)) = _
  rw [e1, e2, e3, e4]

theorem memset_spec (buf : List Nat) (start value len : Nat) (h : start + len ≤ buf.length) :
    ∃ out, memset buf start value len = some out ∧ out.length = buf.length ∧
      (∀ j, (j < start ∨ start + len ≤ j) → out[j]? = buf[j]?) ∧
      (∀ j, start ≤ j → j < start + len → out[j]? = some value) := by
  unfold memset
  rw [if_pos h]
  refine ⟨_, rfl, ?_, ?_, ?_⟩
  · simp only [List.length_append, List.length_take, List.length_replicate, List.length_drop]
    omega
  · intro j hj
    rcases hj with hj | hj
    · rw [List.append_assoc, List.getElem?_append_left (by simp; omega)]
      exact List.getElem?_take_of_lt hj
    · rw [List.getElem?_append_right (by simp; omega)]
      simp only [List.length_append, List.length_take, List.length_replicate,
        List.getElem?_drop]
      congr 1
      omega
  · intro j h1 h2
    rw [List.append_assoc, List.getElem?_append_right (by simp; omega),
      List.getElem?_append_left (by simp; omega)]
    exact List.getElem?_replicate_of_lt (by simp; omega)

theorem memcpy_spec (dst : List Nat) (dstStart : Nat) (src : List Nat) (srcStart len : Nat)
    (hd : dstStart + len ≤ dst.length) (hs : srcStart + len ≤ src.length) :
    ∃ out, memcpy dst dstStart src srcStart len = some out ∧ out.length = dst.length ∧
      (∀ j, (j < dstStart ∨ dstStart + len ≤ j) → out[j]? = dst[j]?) ∧
      (∀ j, dstStart ≤ j → j < dstStart + len →
        out[j]? = some (src.getD (srcStart + (j - dstStart)) 0)) := by
  unfold memcpy
  rw [if_pos ⟨hd, hs⟩]
  refine ⟨_, rfl, ?_, ?_, ?_⟩
  · simp only [List.length_append, List.length_take, List.length_drop]
    omega
  · intro j hj
    rcases hj with hj | hj
    · rw [List.append_assoc, List.getElem?_append_left (by simp; omega)]
      exact List.getElem?_take_of_lt hj
    · rw [List.getElem?_append_right (by simp; omega)]
      simp only [List.length_append, List.length_take, List.length_drop, List.getElem?_drop]
      congr 1
      omega
  · intro j h1 h2
    rw [List.append_assoc, List.getElem?_append_right (by simp; omega),
      List.getElem?_append_left (by simp; omega)]
    simp only [List.length_take]
    rw [List.getElem?_take_of_lt (by omega), List.getElem?_drop]
    have e : srcStart + (j - min dstStart dst.length) = srcStart + (j - dstStart) := by omega
    rw [e]
    exact getElem?_eq_some_getD (by omega)

/-- What the rectangle-clearing loop of `webpInner` does on a sub-frame that
lies inside the canvas: the rectangle becomes zero, the rest is kept. -/
theorem clearRect_spec (ch : Nat) (hch : ch = 3 ∨ ch = 4) (canvasW canvasH : Nat)
    (iter : WebPIterator) (canvas : List Nat)
    (hX : iter.x_offset + iter.width ≤ canvasW) (hY : iter.y_offset + iter.height ≤ canvasH)
    (hlen : canvas.length = canvasW * canvasH * ch) (hsz : canvasW * canvasH * ch < 2 ^ 31)
    (hH : canvasH < 2 ^ 31) :
    ∃ out, clearRect canvasW ch iter canvas = some out ∧ out.length = canvas.length ∧
      (∀ x y k, x < iter.width → y < iter.height → k < ch →
        out[((iter.y_offset + y) * canvasW + iter.x_offset + x) * ch + k]? = some 0) ∧
      (∀ X Y k, X < canvasW → Y < canvasH → k < ch →
        ¬ (iter.x_offset ≤ X ∧ X < iter.x_offset + iter.width ∧
            iter.y_offset ≤ Y ∧ Y < iter.y_offset + iter.height) →
        out[(Y * canvasW + X) * ch + k]? = canvas[(Y * canvasW + X) * ch + k]?) := by
  have hbody : ∀ y cur, y < iter.height → cur.length = canvas.length →
      (∀ j, ((iter.y_offset + y) * canvasW + iter.x_offset) * ch ≤ j →
        j < ((iter.y_offset + y) * canvasW + iter.x_offset) * ch + iter.width * ch →
        cur[j]? = canvas[j]?) →
      ∃ out, (fun row canvas => do
          let r0 ← int32 (iter.y_offset + row)
          let dest := ((r0 * canvasW + iter.x_offset) * ch) % 2 ^ 32
          let n ← int32 (iter.width * ch)
          memset canvas dest 0 n) y cur = some out ∧
        out.length = canvas.length ∧
        (∀ j, (j < ((iter.y_offset + y) * canvasW + iter.x_offset) * ch ∨
            ((iter.y_offset + y) * canvasW + iter.x_offset) * ch + iter.width * ch ≤ j) →
          out[j]? = cur[j]?) ∧
        (∀ j, ((iter.y_offset + y) * canvasW + iter.x_offset) * ch ≤ j →
          j < ((iter.y_offset + y) * canvasW + iter.x_offset) * ch + iter.width * ch →
          out[j]? = some ((fun _ _ => 0) y j)) := by
    intro y cur hy hcl _
    have hYlt : iter.y_offset + y < canvasH := by omega
    have hidx := rect_index_le (W := canvasW) (w := iter.width) hYlt hX
    have hidx' : ((iter.y_offset + y) * canvasW + iter.x_offset) * ch + iter.width * ch ≤
        canvasW * canvasH * ch := by
      rcases hch with rfl | rfl <;> omega
    have b0 : iter.y_offset + y < 2 ^ 31 := by omega
    have b1 : iter.width * ch < 2 ^ 31 := by omega
    have b2 : ((iter.y_offset + y) * canvasW + iter.x_offset) * ch % 2 ^ 32 =
        ((iter.y_offset + y) * canvasW + iter.x_offset) * ch :=
      Nat.mod_eq_of_lt (by omega)
    simp only [int32_of_lt b0, int32_of_lt b1, b2, Option.bind_eq_bind, Option.some_bind, bind,
      Option.bind]
    obtain ⟨out, hout, hl, ho, hi⟩ := memset_spec cur
      (((iter.y_offset + y) * canvasW + iter.x_offset) * ch) 0 (iter.width * ch) (by omega)
    exact ⟨out, hout, by omega, ho, hi⟩
  obtain ⟨out, hout, hl, hin, hrest⟩ := rect_rows ch hch _ canvas canvasW canvasH iter.width
    iter.height iter.x_offset iter.y_offset _ hX hbody
  exact ⟨out, hout, hl, hin, hrest⟩

/-- What `blend_noover` does on a sub-frame that lies inside the canvas: the
rectangle receives the source pixels, the rest is kept. -/
theorem blend_noover_spec (canvas src : List Nat)
    (canvasW canvasH srcW srcH offsetX offsetY : Nat)
    (hX : offsetX + srcW ≤ canvasW) (hY : offsetY + srcH ≤ canvasH)
    (hlen : canvas.length = canvasW * canvasH * 3) (hsz : canvasW * canvasH * 3 < 2 ^ 31)
    (hH : canvasH < 2 ^ 31) (hsrc : src.length = srcW * srcH * 3) :
    ∃ out, blend_noover canvas src canvasW canvasH srcW srcH offsetX offsetY = some out ∧
      out.length = canvas.length ∧
      (∀ x y k, x < srcW → y < srcH → k < 3 →
        out[((offsetY + y) * canvasW + offsetX + x) * 3 + k]? =
          some (src.getD ((y * srcW + x) * 3 + k) 0)) ∧
      (∀ X Y k, X < canvasW → Y < canvasH → k < 3 →
        ¬ (offsetX ≤ X ∧ X < offsetX + srcW ∧ offsetY ≤ Y ∧ Y < offsetY + srcH) →
        out[(Y * canvasW + X) * 3 + k]? = canvas[(Y * canvasW + X) * 3 + k]?) := by
  have hbody : ∀ y cur, y < srcH → cur.length = canvas.length →
      (∀ j, ((offsetY + y) * canvasW + offsetX) * 3 ≤ j →
        j < ((offsetY + y) * canvasW + offsetX) * 3 + srcW * 3 → cur[j]? = canvas[j]?) →
      ∃ out, (fun row canvas => do
          let r0 ← int32 (offsetY + row)
          let r1 ← int32 (r0 * canvasW)
          let r2 ← int32 (r1 + offsetX)
          let dstRow ← int32 (r2 * 3)
          let s0 ← int32 (row * srcW)
          let srcRow ← int32 (s0 * 3)
          let n ← int32 (srcW * 3)
          memcpy canvas dstRow src srcRow n) y cur = some out ∧
        out.length = canvas.length ∧
        (∀ j, (j < ((offsetY + y) * canvasW + offsetX) * 3 ∨
            ((offsetY + y) * canvasW + offsetX) * 3 + srcW * 3 ≤ j) → out[j]? = cur[j]?) ∧
        (∀ j, ((offsetY + y) * canvasW + offsetX) * 3 ≤ j →
          j < ((offsetY + y) * canvasW + offsetX) * 3 + srcW * 3 →
          out[j]? = some ((fun y j => src.getD
            (y * srcW * 3 + (j - ((offsetY + y) * canvasW + offsetX) * 3)) 0) y j)) := by
    intro y cur hy hcl _
    have hYlt : offsetY + y < canvasH := by omega
    have hidx := rect_index_le (W := canvasW) (w := srcW) hYlt hX
    have hsidx := succ_row_le (W := srcW) hy
    have b0 : offsetY + y < 2 ^ 31 := by omega
    have b1 : (offsetY + y) * canvasW < 2 ^ 31 := by omega
    have b2 : (offsetY + y) * canvasW + offsetX < 2 ^ 31 := by omega
    have b3 : ((offsetY + y) * canvasW + offsetX) * 3 < 2 ^ 31 := by omega
    have hsw : srcW * srcH ≤ canvasW * canvasH :=
      Nat.mul_le_mul (by omega) (by omega)
    have hcomm : srcH * srcW = srcW * srcH := Nat.mul_comm _ _
    have s0 : y * srcW < 2 ^ 31 := by omega
    have s1 : y * srcW * 3 < 2 ^ 31 := by omega
    have s2 : srcW * 3 < 2 ^ 31 := by omega
    simp only [int32_of_lt b0, int32_of_lt b1, int32_of_lt b2, int32_of_lt b3, int32_of_lt s0,
      int32_of_lt s1, int32_of_lt s2, Option.bind_eq_bind, Option.some_bind, bind, Option.bind]
    obtain ⟨out, hout, hl, ho, hi⟩ := memcpy_spec cur
      (((offsetY + y) * canvasW + offsetX) * 3) src (y * srcW * 3) (srcW * 3)
      (by omega) (by omega)
    exact ⟨out, hout, by omega, ho, hi⟩
  obtain ⟨out, hout, hl, hin, hrest⟩ := rect_rows 3 (Or.inl rfl) _ canvas canvasW canvasH srcW
    srcH offsetX offsetY _ hX hbody
  refine ⟨out, hout, hl, ?_, hrest⟩
  intro x y k hx hy hk
  rw [hin x y k hx hy hk]
  have e : y * srcW * 3 + (((offsetY + y) * canvasW + offsetX + x) * 3 + k -
      ((offsetY + y) * canvasW + offsetX) * 3) = (y * srcW + x) * 3 + k := by omega
  show some (src.getD (y * srcW * 3 + (((offsetY + y) * canvasW + offsetX + x) * 3 + k -
      ((offsetY + y) * canvasW + offsetX) * 3)) 0) = _
  rw [e]

theorem src_index_lt {srcW srcH x y k : Nat} (hx : x < srcW) (hy : y < srcH) (hk : k < 4) :
    (y * srcW + x) * 4 + k < srcW * srcH * 4 := by
  have := succ_row_le (W := srcW) hy
  have hcomm : srcH * srcW = srcW * srcH := Nat.mul_comm _ _
  omega

theorem blendByte_solid (canvas src : List Nat) (di si k : Nat)
    (ha : src[si + 3]? = some 255) :
    blendByte canvas src di si k = if k = 3 then 255 else src.getD (si + k) 0 := by
  unfold blendByte
  simp [List.getD_eq_getElem?_getD, ha]

theorem blendByte_transparent (canvas src : List Nat) (di si k : Nat)
    (ha : src[si + 3]? = some 0) :
    blendByte canvas src di si k = canvas.getD (di + k) 0 := by
  unfold blendByte
  simp [List.getD_eq_getElem?_getD, ha]

theorem blendByte_mixed (canvas src : List Nat) (di si k a : Nat)
    (ha : src[si + 3]? = some a) (h0 : 0 < a) (h255 : a ≠ 255) :
    blendByte canvas src di si k =
      if k = 3 then (if canvas.getD (di + 3) 0 < a then a else canvas.getD (di + 3) 0)
      else blendChannel (canvas.getD (di + k) 0) (src.getD (si + k) 0) a := by
  unfold blendByte
  have e : src.getD (si + 3) 0 = a := by simp [List.getD_eq_getElem?_getD, ha]
  simp only [e, if_neg h255, gt_iff_lt, if_pos h0]

/-- C6.  `blend_alpha` with source alpha 255: whatever the destination pixel
holds, after the call its R, G and B bytes are the source's R, G and B bytes
and its alpha byte is 255. -/
theorem blend_alpha_alpha255 (canvas src : List Nat)
    (canvasW canvasH srcW srcH offsetX offsetY : Nat)
    (hX : offsetX + srcW ≤ canvasW) (hY : offsetY + srcH ≤ canvasH)
    (hlen : canvas.length = canvasW * canvasH * 4) (hsz : canvasW * canvasH * 4 < 2 ^ 31)
    (hH : canvasH < 2 ^ 31) (hsrc : src.length = srcW * srcH * 4)
    (x y : Nat) (hx : x < srcW) (hy : y < srcH)
    (ha : src[(y * srcW + x) * 4 + 3]? = some 255) :
    ∃ out, blend_alpha canvas src canvasW canvasH srcW srcH offsetX offsetY = some out ∧
      out[((offsetY + y) * canvasW + offsetX + x) * 4 + 0]? = src[(y * srcW + x) * 4 + 0]? ∧
      out[((offsetY + y) * canvasW + offsetX + x) * 4 + 1]? = src[(y * srcW + x) * 4 + 1]? ∧
      out[((offsetY + y) * canvasW + offsetX + x) * 4 + 2]? = src[(y * srcW + x) * 4 + 2]? ∧
      out[((offsetY + y) * canvasW + offsetX + x) * 4 + 3]? = some 255 := by
  obtain ⟨out, hout, _, hin, _⟩ := blend_alpha_spec canvas src canvasW canvasH srcW srcH
    offsetX offsetY hX hY hlen hsz hH hsrc
  have hs : ∀ k, k < 4 → src[(y * srcW + x) * 4 + k]? =
      some (src.getD ((y * srcW + x) * 4 + k) 0) := fun k hk =>
    getElem?_eq_some_getD (by rw [hsrc]; exact src_index_lt hx hy hk)
  refine ⟨out, hout, ?_, ?_, ?_, ?_⟩
  · rw [hin x y 0 hx hy (by omega), blendByte_solid _ _ _ _ _ ha, hs 0 (by omega)]; simp
  · rw [hin x y 1 hx hy (by omega), blendByte_solid _ _ _ _ _ ha, hs 1 (by omega)]; simp
  · rw [hin x y 2 hx hy (by omega), blendByte_solid _ _ _ _ _ ha, hs 2 (by omega)]; simp
  · rw [hin x y 3 hx hy (by omega), blendByte_solid _ _ _ _ _ ha]; simp

theorem blend_alpha_alpha255_witness :
    ∃ out, blend_alpha [1, 2, 3, 4] [10, 20, 30, 255] 1 1 1 1 0 0 = some out ∧
      out[((0 + 0) * 1 + 0 + 0) * 4 + 0]? = [10, 20, 30, 255][(0 * 1 + 0) * 4 + 0]? ∧
      out[((0 + 0) * 1 + 0 + 0) * 4 + 1]? = [10, 20, 30, 255][(0 * 1 + 0) * 4 + 1]? ∧
      out[((0 + 0) * 1 + 0 + 0) * 4 + 2]? = [10, 20, 30, 255][(0 * 1 + 0) * 4 + 2]? ∧
      out[((0 + 0) * 1 + 0 + 0) * 4 + 3]? = some 255 :=
  blend_alpha_alpha255 [1, 2, 3, 4] [10, 20, 30, 255] 1 1 1 1 0 0 (by decide) (by decide)
    (by decide) (by decide) (by decide) (by decide) 0 0 (by decide) (by decide) (by decide)

/-- C7.  `blend_alpha` with source alpha 0: whatever the source's R, G, B, all
four bytes of the destination pixel are the same after the call as before. -/
theorem blend_alpha_alpha0 (canvas src : List Nat)
    (canvasW canvasH srcW srcH offsetX offsetY : Nat)
    (hX : offsetX + srcW ≤ canvasW) (hY : offsetY + srcH ≤ canvasH)
    (hlen : canvas.length = canvasW * canvasH * 4) (hsz : canvasW * canvasH * 4 < 2 ^ 31)
    (hH : canvasH < 2 ^ 31) (hsrc : src.length = srcW * srcH * 4)
    (x y : Nat) (hx : x < srcW) (hy : y < srcH)
    (ha : src[(y * srcW + x) * 4 + 3]? = some 0) :
    ∃ out, blend_alpha canvas src canvasW canvasH srcW srcH offsetX offsetY = some out ∧
      ∀ k, k < 4 →
        out[((offsetY + y) * canvasW + offsetX + x) * 4 + k]? =
          canvas[((offsetY + y) * canvasW + offsetX + x) * 4 + k]? := by
  obtain ⟨out, hout, _, hin, _⟩ := blend_alpha_spec canvas src canvasW canvasH srcW srcH
    offsetX offsetY hX hY hlen hsz hH hsrc
  refine ⟨out, hout, ?_⟩
  intro k hk
  have hidx := rect_index_le (W := canvasW) (w := srcW) (show offsetY + y < canvasH by omega) hX
  rw [hin x y k hx hy hk, blendByte_transparent _ _ _ _ _ ha]
  exact (getElem?_eq_some_getD (by omega)).symm

theorem blend_alpha_alpha0_witness :
    ∃ out, blend_alpha [1, 2, 3, 4] [10, 20, 30, 0] 1 1 1 1 0 0 = some out ∧
      ∀ k, k < 4 →
        out[((0 + 0) * 1 + 0 + 0) * 4 + k]? = [1, 2, 3, 4][((0 + 0) * 1 + 0 + 0) * 4 + k]? :=
  blend_alpha_alpha0 [1, 2, 3, 4] [10, 20, 30, 0] 1 1 1 1 0 0 (by decide) (by decide)
    (by decide) (by decide) (by decide) (by decide) 0 0 (by decide) (by decide) (by decide)

/-- C8.  The alpha rule of `blend_alpha`: for a destination alpha byte `d` and
a source alpha byte `a` (both at most 255, in particular for `0 < a < 255`),
the destination alpha after the call is `max d a`, which is never below `d`. -/
theorem blend_alpha_alpha_max (canvas src : List Nat)
    (canvasW canvasH srcW srcH offsetX offsetY : Nat)
    (hX : offsetX + srcW ≤ canvasW) (hY : offsetY + srcH ≤ canvasH)
    (hlen : canvas.length = canvasW * canvasH * 4) (hsz : canvasW * canvasH * 4 < 2 ^ 31)
    (hH : canvasH < 2 ^ 31) (hsrc : src.length = srcW * srcH * 4)
    (x y : Nat) (hx : x < srcW) (hy : y < srcH) (a d : Nat)
    (ha : src[(y * srcW + x) * 4 + 3]? = some a)
    (hd : canvas[((offsetY + y) * canvasW + offsetX + x) * 4 + 3]? = some d)
    (ha255 : a ≤ 255) (hd255 : d ≤ 255) :
    ∃ out, blend_alpha canvas src canvasW canvasH srcW srcH offsetX offsetY = some out ∧
      out[((offsetY + y) * canvasW + offsetX + x) * 4 + 3]? = some (max d a) ∧
      d ≤ max d a := by
  obtain ⟨out, hout, _, hin, _⟩ := blend_alpha_spec canvas src canvasW canvasH srcW srcH
    offsetX offsetY hX hY hlen hsz hH hsrc
  refine ⟨out, hout, ?_, Nat.le_max_left d a⟩
  have hd' : canvas.getD (((offsetY + y) * canvasW + offsetX + x) * 4 + 3) 0 = d := by
    simp [List.getD_eq_getElem?_getD, hd]
  rw [hin x y 3 hx hy (by omega)]
  congr 1
  by_cases h255 : a = 255
  · subst h255
    rw [blendByte_solid _ _ _ _ _ ha, if_pos rfl]
    omega
  · by_cases h0 : a = 0
    · subst h0
      rw [blendByte_transparent _ _ _ _ _ ha, hd']
      omega
    · rw [blendByte_mixed _ _ _ _ _ _ ha (by omega) h255, if_pos rfl, hd']
      split <;> omega

theorem blend_alpha_alpha_max_witness :
    ∃ out, blend_alpha [1, 2, 3, 4] [10, 20, 30, 128] 1 1 1 1 0 0 = some out ∧
      out[((0 + 0) * 1 + 0 + 0) * 4 + 3]? = some (max 4 128) ∧ 4 ≤ max 4 128 :=
  blend_alpha_alpha_max [1, 2, 3, 4] [10, 20, 30, 128] 1 1 1 1 0 0 (by decide) (by decide)
    (by decide) (by decide) (by decide) (by decide) 0 0 (by decide) (by decide) 128 4
    (by decide) (by decide) (by decide) (by decide)

namespace F32

theorem ilog2Aux_spec : ∀ (fuel n : Nat), 0 < n → n ≤ fuel →
    2 ^ ilog2Aux fuel n ≤ n ∧ n < 2 ^ (ilog2Aux fuel n + 1) := by
  intro fuel
  induction fuel with
  | zero => intro n h1 h2; omega
  | succ fuel ih =>
    intro n h1 h2
    unfold ilog2Aux
    by_cases h : n < 2
    · rw [if_pos h]
      have : n = 1 := by omega
      subst this
      simp
    · rw [if_neg h]
      obtain ⟨ih1, ih2⟩ := ih (n / 2) (by omega) (by omega)
      have e1 : 2 ^ (ilog2Aux fuel (n / 2) + 1) = 2 * 2 ^ ilog2Aux fuel (n / 2) := by
        rw [Nat.pow_succ]; omega
      have e2 : 2 ^ (ilog2Aux fuel (n / 2) + 1 + 1) = 2 * 2 ^ (ilog2Aux fuel (n / 2) + 1) := by
        rw [Nat.pow_succ]; omega
      constructor
      · rw [e1]; omega
      · rw [e2]; omega

theorem ilog2_spec (n : Nat) (h : 0 < n) : 2 ^ ilog2 n ≤ n ∧ n < 2 ^ (ilog2 n + 1) :=
  ilog2Aux_spec n n h (Nat.le_refl n)

theorem rne_spec (x y : Nat) (hy : 0 < y) :
    2 * (rne x y * y) ≤ 2 * x + y ∧ 2 * x ≤ 2 * (rne x y * y) + y := by
  have hdm : y * (x / y) + x % y = x := Nat.div_add_mod x y
  have hr : x % y < y := Nat.mod_lt x hy
  have hc : x / y * y = y * (x / y) := Nat.mul_comm _ _
  have hs : (x / y + 1) * y = y * (x / y) + y := by rw [Nat.add_mul, hc]; omega
  unfold rne
  simp only
  split
  · rw [hc]; omega
  · split
    · rw [hs]; omega
    · split
      · rw [hc]; omega
      · rw [hs]; omega

theorem round_den_pos (n d : Nat) : 0 < (round n d).den := by
  unfold round
  simp only
  split
  · exact Nat.one_pos
  · split <;> exact Nat.two_pow_pos _

/-- Rounding core: if the integer `m` is within half a unit of `x / y` and
`x / y` is at least `2 ^ 23`, then `m * p / q` is within the relative error
`2 ^ -24` of `n / d`, where `x = n * q` and `y = d * p`. -/
theorem scaled_bounds (n d m x y p q : ℚ) (hd : 0 < d) (hq : 0 < q)
    (hx : x = n * q) (hy : y = d * p)
    (h1 : 2 * (m * y) ≤ 2 * x + y) (h2 : 2 * x ≤ 2 * (m * y) + y)
    (h3 : y * 2 ^ 23 ≤ x) :
    n / d * (1 - 1 / 2 ^ 24) ≤ m * p / q ∧ m * p / q ≤ n / d * (1 + 1 / 2 ^ 24) := by
  subst hx hy
  constructor
  · rw [div_mul_eq_mul_div, div_le_div_iff₀ hd hq]
    linarith
  · rw [div_mul_eq_mul_div, div_le_div_iff₀ hq hd]
    linarith

theorem round_bounds (n d : Nat) (hd : 0 < d) :
    (n : ℚ) / d * (1 - 1 / 2 ^ 24) ≤ toRat (round n d) ∧
      toRat (round n d) ≤ (n : ℚ) / d * (1 + 1 / 2 ^ 24) := by
  by_cases hn : n = 0
  · subst hn
    simp [round, toRat]
  · obtain ⟨t1, t2⟩ := ilog2_spec n (Nat.pos_of_ne_zero hn)
    obtain ⟨u1, u2⟩ := ilog2_spec d hd
    have hlow : d * 2 ^ ilog2 n * 2 ^ 23 ≤ n * 2 ^ (ilog2 d + 24) := by
      have e1 : 2 ^ (ilog2 d + 24) = 2 ^ (ilog2 d + 1) * 2 ^ 23 := by
        rw [← Nat.pow_add]
      rw [e1]
      have := Nat.mul_le_mul (Nat.le_of_lt u2) t1
      calc d * 2 ^ ilog2 n * 2 ^ 23 ≤ 2 ^ (ilog2 d + 1) * n * 2 ^ 23 :=
            Nat.mul_le_mul_right _ this
        _ = n * (2 ^ (ilog2 d + 1) * 2 ^ 23) := by ring
    have hdq : (0 : ℚ) < (d : ℚ) := by exact_mod_cast hd
    have hqq : (0 : ℚ) < ((2 ^ (ilog2 d + 24) : Nat) : ℚ) := by
      exact_mod_cast Nat.two_pow_pos _
    unfold round
    rw [if_neg hn]
    simp only
    split
    · have hy : 0 < d * 2 ^ ilog2 n := Nat.mul_pos hd (Nat.two_pow_pos _)
      obtain ⟨r1, r2⟩ := rne_spec (n * 2 ^ (ilog2 d + 24)) (d * 2 ^ ilog2 n) hy
      have := scaled_bounds (n : ℚ) (d : ℚ)
        ((rne (n * 2 ^ (ilog2 d + 24)) (d * 2 ^ ilog2 n) : Nat) : ℚ)
        ((n * 2 ^ (ilog2 d + 24) : Nat) : ℚ) ((d * 2 ^ ilog2 n : Nat) : ℚ)
        ((2 ^ ilog2 n : Nat) : ℚ) ((2 ^ (ilog2 d + 24) : Nat) : ℚ) hdq hqq
        (by push_cast; ring) (by push_cast; ring)
        (by exact_mod_cast r1) (by exact_mod_cast r2) (by exact_mod_cast hlow)
      unfold toRat
      simp only
      push_cast at this ⊢
      exact this
    · rename_i hbr
      have hbr' : d * 2 ^ ilog2 n * 2 ^ 24 ≤ n * 2 ^ (ilog2 d + 24) := Nat.le_of_not_lt hbr
      have hy : 0 < 2 * (d * 2 ^ ilog2 n) :=
        Nat.mul_pos (by decide) (Nat.mul_pos hd (Nat.two_pow_pos _))
      obtain ⟨r1, r2⟩ := rne_spec (n * 2 ^ (ilog2 d + 24)) (2 * (d * 2 ^ ilog2 n)) hy
      have hlow2 : 2 * (d * 2 ^ ilog2 n) * 2 ^ 23 ≤ n * 2 ^ (ilog2 d + 24) := by
        have e : 2 * (d * 2 ^ ilog2 n) * 2 ^ 23 = d * 2 ^ ilog2 n * 2 ^ 24 := by ring
        rw [e]; exact hbr'
      have := scaled_bounds (n : ℚ) (d : ℚ)
        ((rne (n * 2 ^ (ilog2 d + 24)) (2 * (d * 2 ^ ilog2 n)) : Nat) : ℚ)
        ((n * 2 ^ (ilog2 d + 24) : Nat) : ℚ) ((2 * (d * 2 ^ ilog2 n) : Nat) : ℚ)
        ((2 ^ (ilog2 n + 1) : Nat) : ℚ) ((2 ^ (ilog2 d + 24) : Nat) : ℚ) hdq hqq
        (by push_cast; ring) (by push_cast; ring)
        (by exact_mod_cast r1) (by exact_mod_cast r2) (by exact_mod_cast hlow2)
      unfold toRat
      simp only
      push_cast at this ⊢
      exact this

end F32

namespace F32

theorem rne_of_dvd (x y : Nat) (hy : 0 < y) (h : x % y = 0) : rne x y * y = x := by
  unfold rne
  simp only [h]
  rw [if_pos (by omega)]
  exact Nat.div_mul_cancel (Nat.dvd_of_mod_eq_zero h)

/-- Integers below `2 ^ 24` convert to `float` exactly. -/
theorem toRat_ofNat (n : Nat) (h : n < 2 ^ 24) : toRat (ofNat n) = n := by
  by_cases hn : n = 0
  · subst hn
    simp [ofNat, round, toRat]
  · obtain ⟨t1, t2⟩ := ilog2_spec n (Nat.pos_of_ne_zero hn)
    have hu : ilog2 1 = 0 := by decide
    have ht : ilog2 n + 1 ≤ 24 := by
      by_contra hc
      have : 2 ^ 24 ≤ 2 ^ ilog2 n := Nat.pow_le_pow_right (by decide) (by omega)
      omega
    have hdiv : (n * 2 ^ 24) % (2 * (1 * 2 ^ ilog2 n)) = 0 := by
      have e1 : 2 * (1 * 2 ^ ilog2 n) = 2 ^ (ilog2 n + 1) := by
        rw [Nat.pow_succ]; omega
      have e2 : (2 : Nat) ^ 24 = 2 ^ (24 - (ilog2 n + 1)) * 2 ^ (ilog2 n + 1) := by
        rw [← Nat.pow_add]; congr 1; omega
      rw [e1, e2, ← Nat.mul_assoc]
      exact Nat.mul_mod_left _ _
    have hbr : ¬ n * 2 ^ (0 + 24) < 1 * 2 ^ ilog2 n * 2 ^ 24 := by
      simp only [Nat.zero_add, Nat.one_mul]
      intro hlt
      have := Nat.lt_of_mul_lt_mul_right hlt
      omega
    unfold ofNat round
    rw [if_neg hn]
    simp only [hu]
    rw [if_neg hbr]
    unfold toRat
    simp only [Nat.zero_add]
    have e3 : 2 ^ (ilog2 n + 1) = 2 * (1 * 2 ^ ilog2 n) := by rw [Nat.pow_succ]; omega
    rw [e3, rne_of_dvd _ _ (by have := Nat.two_pow_pos (ilog2 n); omega) hdiv]
    push_cast
    field_simp

theorem ofNat_den_pos (n : Nat) : 0 < (ofNat n).den := round_den_pos n 1

theorem div_bounds (a b : F32) (ha : 0 < a.den) (hb : 0 < b.den) (hbn : 0 < b.num) :
    toRat a / toRat b * (1 - 1 / 2 ^ 24) ≤ toRat (div a b) ∧
      toRat (div a b) ≤ toRat a / toRat b * (1 + 1 / 2 ^ 24) := by
  have h := round_bounds (a.num * b.den) (a.den * b.num) (Nat.mul_pos ha hbn)
  have ha' : (a.den : ℚ) ≠ 0 := by exact_mod_cast (Nat.pos_iff_ne_zero.mp ha)
  have hb' : (b.den : ℚ) ≠ 0 := by exact_mod_cast (Nat.pos_iff_ne_zero.mp hb)
  have hbn' : (b.num : ℚ) ≠ 0 := by exact_mod_cast (Nat.pos_iff_ne_zero.mp hbn)
  have e : ((a.num * b.den : Nat) : ℚ) / ((a.den * b.num : Nat) : ℚ) = toRat a / toRat b := by
    unfold toRat; push_cast; field_simp
  rw [e] at h
  exact h

theorem mul_bounds (a b : F32) (ha : 0 < a.den) (hb : 0 < b.den) :
    toRat a * toRat b * (1 - 1 / 2 ^ 24) ≤ toRat (mul a b) ∧
      toRat (mul a b) ≤ toRat a * toRat b * (1 + 1 / 2 ^ 24) := by
  have h := round_bounds (a.num * b.num) (a.den * b.den) (Nat.mul_pos ha hb)
  have ha' : (a.den : ℚ) ≠ 0 := by exact_mod_cast (Nat.pos_iff_ne_zero.mp ha)
  have hb' : (b.den : ℚ) ≠ 0 := by exact_mod_cast (Nat.pos_iff_ne_zero.mp hb)
  have e : ((a.num * b.num : Nat) : ℚ) / ((a.den * b.den : Nat) : ℚ) = toRat a * toRat b := by
    unfold toRat; push_cast; field_simp
  rw [e] at h
  exact h

theorem add_bounds (a b : F32) (ha : 0 < a.den) (hb : 0 < b.den) :
    (toRat a + toRat b) * (1 - 1 / 2 ^ 24) ≤ toRat (add a b) ∧
      toRat (add a b) ≤ (toRat a + toRat b) * (1 + 1 / 2 ^ 24) := by
  have h := round_bounds (a.num * b.den + b.num * a.den) (a.den * b.den) (Nat.mul_pos ha hb)
  have ha' : (a.den : ℚ) ≠ 0 := by exact_mod_cast (Nat.pos_iff_ne_zero.mp ha)
  have hb' : (b.den : ℚ) ≠ 0 := by exact_mod_cast (Nat.pos_iff_ne_zero.mp hb)
  have e : ((a.num * b.den + b.num * a.den : Nat) : ℚ) / ((a.den * b.den : Nat) : ℚ) =
      toRat a + toRat b := by
    unfold toRat; push_cast; field_simp
  rw [e] at h
  exact h

theorem sub_bounds (a b : F32) (ha : 0 < a.den) (hb : 0 < b.den) (hle : toRat b ≤ toRat a) :
    (toRat a - toRat b) * (1 - 1 / 2 ^ 24) ≤ toRat (sub a b) ∧
      toRat (sub a b) ≤ (toRat a - toRat b) * (1 + 1 / 2 ^ 24) := by
  have h := round_bounds (a.num * b.den - b.num * a.den) (a.den * b.den) (Nat.mul_pos ha hb)
  have ha' : (0 : ℚ) < (a.den : ℚ) := by exact_mod_cast ha
  have hb' : (0 : ℚ) < (b.den : ℚ) := by exact_mod_cast hb
  have hnat : b.num * a.den ≤ a.num * b.den := by
    unfold toRat at hle
    rw [div_le_div_iff₀ hb' ha'] at hle
    exact_mod_cast hle
  have e : ((a.num * b.den - b.num * a.den : Nat) : ℚ) / ((a.den * b.den : Nat) : ℚ) =
      toRat a - toRat b := by
    unfold toRat
    rw [Nat.cast_sub hnat]
    push_cast
    field_simp
    ring
  rw [e] at h
  exact h

end F32

namespace F32

/-- A relative rounding error of `2 ^ -24` on a value of at most `B` is an
absolute error of at most `B * 2 ^ -24`. -/
theorem abs_of_rel (x r B : ℚ) (hxB : x ≤ B)
    (h1 : x * (1 - 1 / 2 ^ 24) ≤ r) (h2 : r ≤ x * (1 + 1 / 2 ^ 24)) :
    x - B * (1 / 2 ^ 24) ≤ r ∧ r ≤ x + B * (1 / 2 ^ 24) := by
  have hu : (0 : ℚ) ≤ 1 / 2 ^ 24 := by positivity
  have := mul_le_mul_of_nonneg_right hxB hu
  constructor <;> linarith

/-- Error analysis of `D * (1 - al) + S * al` evaluated with five roundings:
the result stays within `1 / 255` of the exact interpolation. -/
theorem interp_error (D S A al ga P Q Sv : ℚ)
    (hD0 : 0 ≤ D) (hD1 : D ≤ 255) (hS0 : 0 ≤ S) (hS1 : S ≤ 255) (hA0 : 0 < A) (hA1 : A ≤ 254)
    (al1 : A / 255 * (1 - 1 / 2 ^ 24) ≤ al) (al2 : al ≤ A / 255 * (1 + 1 / 2 ^ 24))
    (g1 : (1 - al) * (1 - 1 / 2 ^ 24) ≤ ga) (g2 : ga ≤ (1 - al) * (1 + 1 / 2 ^ 24))
    (p1 : D * ga * (1 - 1 / 2 ^ 24) ≤ P) (p2 : P ≤ D * ga * (1 + 1 / 2 ^ 24))
    (q1 : S * al * (1 - 1 / 2 ^ 24) ≤ Q) (q2 : Q ≤ S * al * (1 + 1 / 2 ^ 24))
    (t1 : (P + Q) * (1 - 1 / 2 ^ 24) ≤ Sv) (t2 : Sv ≤ (P + Q) * (1 + 1 / 2 ^ 24)) :
    al ≤ 1 ∧ D * (1 - A / 255) + S * (A / 255) - 1 / 255 < Sv ∧
      Sv < D * (1 - A / 255) + S * (A / 255) + 1 / 255 := by
  have hu : (0 : ℚ) < 1 / 2 ^ 24 := by positivity
  generalize hue : (1 : ℚ) / 2 ^ 24 = u at *
  have hu' : u ≤ 1 / 16777216 := by rw [← hue]; norm_num
  have hAq0 : 0 ≤ A / 255 := by positivity
  have hAq1 : A / 255 ≤ 254 / 255 := by
    apply div_le_div_of_nonneg_right hA1; norm_num
  obtain ⟨al3, al4⟩ : A / 255 - u ≤ al ∧ al ≤ A / 255 + u := by
    have := mul_le_mul_of_nonneg_right (show A / 255 ≤ 1 by linarith) hu.le
    constructor <;> linarith
  have hal1 : al ≤ 1 := by linarith
  have hal0 : 0 ≤ al := by
    have : 0 ≤ A / 255 * (1 - u) := mul_nonneg hAq0 (by linarith)
    linarith
  obtain ⟨g3, g4⟩ : 1 - al - u ≤ ga ∧ ga ≤ 1 - al + u := by
    have := mul_le_mul_of_nonneg_right (show 1 - al ≤ 1 by linarith) hu.le
    constructor <;> linarith
  have hga0 : 0 ≤ ga := by
    have : 0 ≤ (1 - al) * (1 - u) := mul_nonneg (by linarith) (by linarith)
    linarith
  have hga2 : ga ≤ 2 := by linarith
  have hdg : D * ga ≤ 510 := by
    have h1 := mul_le_mul_of_nonneg_right hD1 hga0
    linarith
  have hsa : S * al ≤ 255 := by
    have h1 := mul_le_mul_of_nonneg_right hS1 hal0
    linarith
  obtain ⟨p3, p4⟩ : D * ga - 510 * u ≤ P ∧ P ≤ D * ga + 510 * u := by
    have := mul_le_mul_of_nonneg_right hdg hu.le
    constructor <;> linarith
  obtain ⟨q3, q4⟩ : S * al - 255 * u ≤ Q ∧ Q ≤ S * al + 255 * u := by
    have := mul_le_mul_of_nonneg_right hsa hu.le
    constructor <;> linarith
  have hdg1 : D * (1 - A / 255 - 2 * u) ≤ D * ga :=
    mul_le_mul_of_nonneg_left (by linarith) hD0
  have hdg2 : D * ga ≤ D * (1 - A / 255 + 2 * u) :=
    mul_le_mul_of_nonneg_left (by linarith) hD0
  have hsa1 : S * (A / 255 - u) ≤ S * al := mul_le_mul_of_nonneg_left (by linarith) hS0
  have hsa2 : S * al ≤ S * (A / 255 + u) := mul_le_mul_of_nonneg_left (by linarith) hS0
  have hDu : D * u ≤ 255 * u := mul_le_mul_of_nonneg_right hD1 hu.le
  have hSu : S * u ≤ 255 * u := mul_le_mul_of_nonneg_right hS1 hu.le
  have hDu0 : 0 ≤ D * u := mul_nonneg hD0 hu.le
  have hSu0 : 0 ≤ S * u := mul_nonneg hS0 hu.le
  have hDA0 : 0 ≤ D * (A / 255) := mul_nonneg hD0 hAq0
  have hDA1 : D * (A / 255) ≤ D := by
    have := mul_le_mul_of_nonneg_left (show A / 255 ≤ 1 by linarith) hD0
    linarith
  have hSA1 : S * (A / 255) ≤ S := by
    have := mul_le_mul_of_nonneg_left (show A / 255 ≤ 1 by linarith) hS0
    linarith
  have hP0 : 0 ≤ D * ga := mul_nonneg hD0 hga0
  have hQ0 : 0 ≤ S * al := mul_nonneg hS0 hal0
  -- P + Q is within 1785 u of the exact value V, and at most 256
  have e1 : D * (1 - A / 255 - 2 * u) = D * (1 - A / 255) - 2 * (D * u) := by ring
  have e2 : D * (1 - A / 255 + 2 * u) = D * (1 - A / 255) + 2 * (D * u) := by ring
  have e3 : S * (A / 255 - u) = S * (A / 255) - S * u := by ring
  have e4 : S * (A / 255 + u) = S * (A / 255) + S * u := by ring
  have hPQ1 : D * (1 - A / 255) + S * (A / 255) - 1785 * u ≤ P + Q := by linarith
  have hPQ2 : P + Q ≤ D * (1 - A / 255) + S * (A / 255) + 1785 * u := by linarith
  have hV1 : D * (1 - A / 255) + S * (A / 255) ≤ 255 := by
    have h1 := mul_le_mul_of_nonneg_right hD1 (show (0 : ℚ) ≤ 1 - A / 255 by linarith)
    have h2 := mul_le_mul_of_nonneg_right hS1 hAq0
    linarith
  have hPQ256 : P + Q ≤ 256 := by linarith
  have hPQu := mul_le_mul_of_nonneg_right hPQ256 hu.le
  refine ⟨hal1, ?_, ?_⟩
  · have : (P + Q) * (1 - u) = P + Q - (P + Q) * u := by ring
    linarith
  · have : (P + Q) * (1 + u) = P + Q + (P + Q) * u := by ring
    linarith

end F32

/-- The colour value computed by the partial-alpha branch lies within one unit
below the exact integer interpolation `(d * (255 - a) + s * a) / 255`, and never
above it. -/
theorem blendChannel_bounds (d s a : Nat) (hd : d ≤ 255) (hs : s ≤ 255) (ha0 : 0 < a)
    (ha : a < 255) :
    (d * (255 - a) + s * a) / 255 ≤ blendChannel d s a + 1 ∧
      blendChannel d s a ≤ (d * (255 - a) + s * a) / 255 := by
  -- the operands
  have ea : F32.toRat (F32.ofNat a) = a := F32.toRat_ofNat a (by omega)
  have e255 : F32.toRat (F32.ofNat 255) = 255 := by
    rw [F32.toRat_ofNat 255 (by decide)]; norm_num
  have e1 : F32.toRat (F32.ofNat 1) = 1 := by
    rw [F32.toRat_ofNat 1 (by decide)]; norm_num
  have ed : F32.toRat (F32.ofNat d) = d := F32.toRat_ofNat d (by omega)
  have es : F32.toRat (F32.ofNat s) = s := F32.toRat_ofNat s (by omega)
  have h255num : 0 < (F32.ofNat 255).num := by
    rcases Nat.eq_zero_or_pos (F32.ofNat 255).num with h | h
    · exfalso
      have e0 : F32.toRat (F32.ofNat 255) = 0 := by
        unfold F32.toRat; rw [h]; simp
      rw [e0] at e255
      norm_num at e255
    · exact h
  have hA0 : (0 : ℚ) < (a : ℚ) := by exact_mod_cast ha0
  have hA1 : (a : ℚ) ≤ 254 := by exact_mod_cast (show a ≤ 254 by omega)
  have hD0 : (0 : ℚ) ≤ (d : ℚ) := by exact_mod_cast Nat.zero_le d
  have hD1 : (d : ℚ) ≤ 255 := by exact_mod_cast hd
  have hS0 : (0 : ℚ) ≤ (s : ℚ) := by exact_mod_cast Nat.zero_le s
  have hS1 : (s : ℚ) ≤ 255 := by exact_mod_cast hs
  generalize hfa : F32.ofNat a = fa at *
  generalize hf255 : F32.ofNat 255 = f255 at *
  generalize hf1 : F32.ofNat 1 = f1 at *
  generalize hfd : F32.ofNat d = fd at *
  generalize hfs : F32.ofNat s = fs at *
  have dfa : 0 < fa.den := by rw [← hfa]; exact F32.ofNat_den_pos a
  have df255 : 0 < f255.den := by rw [← hf255]; exact F32.ofNat_den_pos 255
  have df1 : 0 < f1.den := by rw [← hf1]; exact F32.ofNat_den_pos 1
  have dfd : 0 < fd.den := by rw [← hfd]; exact F32.ofNat_den_pos d
  have dfs : 0 < fs.den := by rw [← hfs]; exact F32.ofNat_den_pos s
  -- alpha
  obtain ⟨al1, al2⟩ := F32.div_bounds fa f255 dfa df255 h255num
  rw [ea, e255] at al1 al2
  have halden : 0 < (F32.div fa f255).den := F32.round_den_pos _ _
  have hal1 : F32.toRat (F32.div fa f255) ≤ 1 := by
    have hu : (0 : ℚ) ≤ 1 / 2 ^ 24 := by positivity
    have hq : (a : ℚ) / 255 ≤ 254 / 255 := by
      apply div_le_div_of_nonneg_right hA1; norm_num
    have h3 : (a : ℚ) / 255 * (1 / 2 ^ 24) ≤ 1 * (1 / 2 ^ 24) :=
      mul_le_mul_of_nonneg_right (by linarith) hu
    have h4 : (1 : ℚ) / 2 ^ 24 ≤ 1 / 255 := by norm_num
    linarith
  -- 1 - alpha
  obtain ⟨g1, g2⟩ := F32.sub_bounds f1 (F32.div fa f255) df1 halden (by rw [e1]; exact hal1)
  rw [e1] at g1 g2
  have hgden : 0 < (F32.sub f1 (F32.div fa f255)).den := F32.round_den_pos _ _
  -- the two products and the sum
  obtain ⟨p1, p2⟩ := F32.mul_bounds fd (F32.sub f1 (F32.div fa f255)) dfd hgden
  obtain ⟨q1, q2⟩ := F32.mul_bounds fs (F32.div fa f255) dfs halden
  rw [ed] at p1 p2
  rw [es] at q1 q2
  obtain ⟨t1, t2⟩ := F32.add_bounds (F32.mul fd (F32.sub f1 (F32.div fa f255)))
    (F32.mul fs (F32.div fa f255)) (F32.round_den_pos _ _) (F32.round_den_pos _ _)
  have hv0 : blendChannel d s a = F32.toUInt8 (F32.add (F32.mul fd (F32.sub f1 (F32.div fa f255)))
      (F32.mul fs (F32.div fa f255))) := by
    unfold blendChannel
    simp only [hfa, hf255, hf1, hfd, hfs]
  have hSden : 0 < (F32.add (F32.mul fd (F32.sub f1 (F32.div fa f255)))
      (F32.mul fs (F32.div fa f255))).den := F32.round_den_pos _ _
  generalize F32.add (F32.mul fd (F32.sub f1 (F32.div fa f255)))
      (F32.mul fs (F32.div fa f255)) = Sf at *
  obtain ⟨_, hlo, hhi⟩ := F32.interp_error (d : ℚ) (s : ℚ) (a : ℚ) _ _ _ _ _ hD0 hD1 hS0 hS1
    hA0 hA1 al1 al2 g1 g2 p1 p2 q1 q2 t1 t2
  -- the exact value
  obtain ⟨N, r, hM, hr⟩ : ∃ N r, d * (255 - a) + s * a = 255 * N + r ∧ r < 255 :=
    ⟨(d * (255 - a) + s * a) / 255, (d * (255 - a) + s * a) % 255,
      (Nat.div_add_mod _ 255).symm, Nat.mod_lt _ (by decide)⟩
  have hN : (d * (255 - a) + s * a) / 255 = N := by omega
  have hMq : (d : ℚ) * (255 - (a : ℚ)) + (s : ℚ) * (a : ℚ) = 255 * (N : ℚ) + (r : ℚ) := by
    have := congrArg (fun z : Nat => (z : ℚ)) hM
    simp only at this
    rw [Nat.cast_add, Nat.cast_mul, Nat.cast_mul, Nat.cast_sub (by omega)] at this
    push_cast at this
    linarith
  have hr0 : (0 : ℚ) ≤ (r : ℚ) := by exact_mod_cast Nat.zero_le r
  have hr1 : (r : ℚ) ≤ 254 := by exact_mod_cast (show r ≤ 254 by omega)
  have hV : (d : ℚ) * (1 - (a : ℚ) / 255) + (s : ℚ) * ((a : ℚ) / 255) =
      (N : ℚ) + (r : ℚ) / 255 := by
    field_simp
    linarith
  rw [hV] at hlo hhi
  have hr2 : (r : ℚ) / 255 ≤ 254 / 255 := by
    apply div_le_div_of_nonneg_right hr1; norm_num
  have hr3 : (0 : ℚ) ≤ (r : ℚ) / 255 := by positivity
  have hlow : (N : ℚ) - 1 ≤ F32.toRat Sf := by linarith
  have hupp : F32.toRat Sf < (N : ℚ) + 1 := by linarith
  have hSq : (0 : ℚ) < (Sf.den : ℚ) := by exact_mod_cast hSden
  have hfloor_le : Sf.num / Sf.den ≤ N := by
    have h1 : Sf.num < (N + 1) * Sf.den := by
      unfold F32.toRat at hupp
      rw [div_lt_iff₀ hSq] at hupp
      exact_mod_cast hupp
    exact Nat.le_of_lt_succ ((Nat.div_lt_iff_lt_mul hSden).mpr h1)
  have hfloor_ge : N ≤ Sf.num / Sf.den + 1 := by
    rcases Nat.eq_zero_or_pos N with h0 | hpos
    · rw [h0]; exact Nat.zero_le _
    · have h1 : (N - 1) * Sf.den ≤ Sf.num := by
        unfold F32.toRat at hlow
        rw [le_div_iff₀ hSq] at hlow
        have hc : ((N - 1 : Nat) : ℚ) = (N : ℚ) - 1 := by
          rw [Nat.cast_sub hpos]; simp
        have h2 : ((N - 1 : Nat) : ℚ) * (Sf.den : ℚ) ≤ (Sf.num : ℚ) := by rw [hc]; exact hlow
        exact_mod_cast h2
      have := (Nat.le_div_iff_mul_le hSden).mpr h1
      omega
  have hN255 : N ≤ 255 := by
    have hd' : d * (255 - a) ≤ 255 * (255 - a) := Nat.mul_le_mul_right _ hd
    have hs' : s * a ≤ 255 * a := Nat.mul_le_mul_right _ hs
    generalize d * (255 - a) = X at hd' hM
    generalize s * a = Y at hs' hM
    omega
  have hv : blendChannel d s a = Sf.num / Sf.den := by
    rw [hv0]
    unfold F32.toUInt8
    exact Nat.mod_eq_of_lt (by omega)
  rw [hN, hv]
  exact ⟨hfloor_ge, hfloor_le⟩

/-! ## The frame loop -/

theorem channels_cases (hasAlpha : Bool) : channels hasAlpha = 3 ∨ channels hasAlpha = 4 := by
  cases hasAlpha
  · left; rfl
  · right; rfl

theorem snapshot_spec (canvasSize : Nat) (iter : WebPIterator) (canvas : List Nat)
    (hlen : canvas.length = canvasSize) (hdur : iter.duration < 2 ^ 31) :
    snapshot canvasSize iter canvas = some { data := canvas, delay := iter.duration } := by
  have hmod : iter.duration % 2 ^ 32 = iter.duration := Nat.mod_eq_of_lt (by omega)
  have hcopy : memcpy (List.replicate canvasSize 0) 0 canvas 0 canvasSize = some canvas := by
    unfold memcpy
    rw [if_pos (by simp [hlen])]
    simp [← hlen]
  unfold snapshot
  simp only [hcopy, hmod, Option.bind_eq_bind, Option.some_bind, bind, Option.bind]

/-- The drawing step with an alpha channel: the rectangle receives the blend
of the sub-frame over `base`, which is the canvas itself for `WEBP_MUX_BLEND`
and the canvas with the rectangle zeroed for `WEBP_MUX_NO_BLEND`. -/
theorem drawFrame_alpha_spec (canvasW canvasH : Nat) (iter : WebPIterator)
    (dec canvas : List Nat)
    (hW : canvasW < 2 ^ 31) (hH : canvasH < 2 ^ 31)
    (hX : iter.x_offset + iter.width ≤ canvasW) (hY : iter.y_offset + iter.height ≤ canvasH)
    (hlen : canvas.length = canvasW * canvasH * 4) (hsz : canvasW * canvasH * 4 < 2 ^ 31)
    (hdec : dec.length = iter.width * iter.height * 4) :
    ∃ base out, drawFrame true canvasW canvasH iter dec canvas = some out ∧
      out.length = canvas.length ∧ base.length = canvas.length ∧
      (iter.blend_method = WEBP_MUX_NO_BLEND →
        ∀ x y k, x < iter.width → y < iter.height → k < 4 →
          base[((iter.y_offset + y) * canvasW + iter.x_offset + x) * 4 + k]? = some 0) ∧
      (iter.blend_method = WEBP_MUX_BLEND → base = canvas) ∧
      (∀ x y k, x < iter.width → y < iter.height → k < 4 →
        out[((iter.y_offset + y) * canvasW + iter.x_offset + x) * 4 + k]? =
          some (blendByte base dec (((iter.y_offset + y) * canvasW + iter.x_offset + x) * 4)
            ((y * iter.width + x) * 4) k)) ∧
      (∀ X Y k, X < canvasW → Y < canvasH → k < 4 →
        ¬ (iter.x_offset ≤ X ∧ X < iter.x_offset + iter.width ∧
            iter.y_offset ≤ Y ∧ Y < iter.y_offset + iter.height) →
        out[(Y * canvasW + X) * 4 + k]? = canvas[(Y * canvasW + X) * 4 + k]?) := by
  unfold drawFrame
  simp only [int32_of_lt hW, int32_of_lt hH, Option.bind_eq_bind, Option.some_bind, bind,
    Option.bind, if_true]
  by_cases hb : iter.blend_method = WEBP_MUX_NO_BLEND
  · obtain ⟨base, hbase, hbl, hbin, hbout⟩ := clearRect_spec 4 (Or.inr rfl) canvasW canvasH iter
      canvas hX hY hlen hsz hH
    obtain ⟨out, hout, hol, hoin, hoout⟩ := blend_alpha_spec base dec canvasW canvasH
      iter.width iter.height iter.x_offset iter.y_offset hX hY (by omega) hsz hH hdec
    refine ⟨base, out, ?_, by omega, hbl, fun _ => hbin, ?_, hoin, ?_⟩
    · simp only [if_pos hb, hbase]
      exact hout
    · intro h; rw [h] at hb; exact absurd hb (by decide)
    · intro X Y k h1 h2 h3 h4
      rw [hoout X Y k h1 h2 h3 h4, hbout X Y k h1 h2 h3 h4]
  · obtain ⟨out, hout, hol, hoin, hoout⟩ := blend_alpha_spec canvas dec canvasW canvasH
      iter.width iter.height iter.x_offset iter.y_offset hX hY hlen hsz hH hdec
    refine ⟨canvas, out, ?_, hol, rfl, fun h => absurd h hb, fun _ => rfl, hoin, hoout⟩
    simp only [if_neg hb]
    exact hout

/-- The drawing step, with or without alpha: it succeeds on a sub-frame that
fits, keeps the canvas length and changes no pixel outside the rectangle. -/
theorem drawFrame_spec (hasAlpha : Bool) (canvasW canvasH : Nat) (iter : WebPIterator)
    (dec canvas : List Nat)
    (hW : canvasW < 2 ^ 31) (hH : canvasH < 2 ^ 31)
    (hX : iter.x_offset + iter.width ≤ canvasW) (hY : iter.y_offset + iter.height ≤ canvasH)
    (hlen : canvas.length = canvasW * canvasH * channels hasAlpha)
    (hsz : canvasW * canvasH * channels hasAlpha < 2 ^ 31)
    (hdec : dec.length = iter.width * iter.height * channels hasAlpha) :
    ∃ out, drawFrame hasAlpha canvasW canvasH iter dec canvas = some out ∧
      out.length = canvas.length ∧
      (∀ X Y k, X < canvasW → Y < canvasH → k < channels hasAlpha →
        ¬ (iter.x_offset ≤ X ∧ X < iter.x_offset + iter.width ∧
            iter.y_offset ≤ Y ∧ Y < iter.y_offset + iter.height) →
        out[(Y * canvasW + X) * channels hasAlpha + k]? =
          canvas[(Y * canvasW + X) * channels hasAlpha + k]?) := by
  cases hasAlpha
  · have e : channels false = 3 := rfl
    rw [e] at hlen hsz hdec ⊢
    obtain ⟨out, hout, hol, _, hoout⟩ := blend_noover_spec canvas dec canvasW canvasH
      iter.width iter.height iter.x_offset iter.y_offset hX hY hlen hsz hH hdec
    refine ⟨out, ?_, hol, hoout⟩
    unfold drawFrame
    simp only [int32_of_lt hW, int32_of_lt hH, Option.bind_eq_bind, Option.some_bind, bind,
      Option.bind]
    exact hout
  · have e : channels true = 4 := rfl
    rw [e] at hlen hsz hdec ⊢
    obtain ⟨_, out, hout, hol, _, _, _, _, hoout⟩ := drawFrame_alpha_spec canvasW canvasH iter
      dec canvas hW hH hX hY hlen hsz hdec
    exact ⟨out, hout, hol, hoout⟩

/-- The disposal step: nothing for `WEBP_MUX_DISPOSE_NONE`, the rectangle
zeroed for `WEBP_MUX_DISPOSE_BACKGROUND`. -/
theorem disposeFrame_spec (hasAlpha : Bool) (canvasW canvasH : Nat) (iter : WebPIterator)
    (canvas : List Nat) (hH : canvasH < 2 ^ 31)
    (hX : iter.x_offset + iter.width ≤ canvasW) (hY : iter.y_offset + iter.height ≤ canvasH)
    (hlen : canvas.length = canvasW * canvasH * channels hasAlpha)
    (hsz : canvasW * canvasH * channels hasAlpha < 2 ^ 31) :
    ∃ next, disposeFrame hasAlpha canvasW iter canvas = some next ∧
      next.length = canvas.length ∧
      (iter.dispose_method = WEBP_MUX_DISPOSE_NONE → next = canvas) ∧
      (iter.dispose_method = WEBP_MUX_DISPOSE_BACKGROUND →
        (∀ x y k, x < iter.width → y < iter.height → k < channels hasAlpha →
          next[((iter.y_offset + y) * canvasW + iter.x_offset + x) * channels hasAlpha + k]? =
            some 0)) ∧
      (∀ X Y k, X < canvasW → Y < canvasH → k < channels hasAlpha →
        ¬ (iter.x_offset ≤ X ∧ X < iter.x_offset + iter.width ∧
            iter.y_offset ≤ Y ∧ Y < iter.y_offset + iter.height) →
        next[(Y * canvasW + X) * channels hasAlpha + k]? =
          canvas[(Y * canvasW + X) * channels hasAlpha + k]?) := by
  unfold disposeFrame
  by_cases hd : iter.dispose_method = WEBP_MUX_DISPOSE_BACKGROUND
  · rw [if_pos hd]
    obtain ⟨next, hnext, hl, hin, hout⟩ := clearRect_spec (channels hasAlpha)
      (channels_cases hasAlpha) canvasW canvasH iter canvas hX hY hlen hsz hH
    refine ⟨next, hnext, hl, ?_, fun _ => hin, hout⟩
    intro h; rw [h] at hd; exact absurd hd (by decide)
  · rw [if_neg hd]
    exact ⟨canvas, rfl, rfl, fun _ => rfl, fun h => absurd h hd, fun _ _ _ _ _ _ _ => rfl⟩

theorem FrameFits.decoded {hasAlpha : Bool} {canvasW canvasH : Nat} {iter : WebPIterator}
    (h : FrameFits hasAlpha canvasW canvasH iter) :
    ∃ dec, frameDecoded hasAlpha iter = some dec ∧
      dec.length = iter.width * iter.height * channels hasAlpha := by
  obtain ⟨_, _, _, hd⟩ := h
  cases hfd : frameDecoded hasAlpha iter with
  | none => rw [hfd] at hd; simp at hd
  | some dec =>
    rw [hfd] at hd
    simp only [Option.map_some', Option.some.injEq] at hd
    exact ⟨dec, rfl, hd⟩

/-- One iteration of the frame loop on a sub-frame that fits. -/
theorem webpLoop_step (hasAlpha : Bool) (canvasW canvasH canvasSize : Nat)
    (hW : canvasW < 2 ^ 31) (hH : canvasH < 2 ^ 31)
    (hsize : canvasSize = canvasW * canvasH * channels hasAlpha) (hsz : canvasSize < 2 ^ 31)
    (iter : WebPIterator) (rest : List WebPIterator) (canvas : List Nat)
    (frames : List AnimationFrame) (hlen : canvas.length = canvasSize)
    (hfit : FrameFits hasAlpha canvasW canvasH iter) :
    ∃ dec drawn next, frameDecoded hasAlpha iter = some dec ∧
      drawFrame hasAlpha canvasW canvasH iter dec canvas = some drawn ∧
      drawn.length = canvas.length ∧
      disposeFrame hasAlpha canvasW iter drawn = some next ∧
      next.length = canvas.length ∧
      webpLoop hasAlpha canvasW canvasH canvasSize iter rest canvas frames =
        (match rest with
          | [] => some (.ok (frames ++ [{ data := drawn, delay := iter.duration }]))
          | nxt :: rest' => webpLoop hasAlpha canvasW canvasH canvasSize nxt rest' next
              (frames ++ [{ data := drawn, delay := iter.duration }])) := by
  obtain ⟨dec, hdec, hdl⟩ := hfit.decoded
  obtain ⟨hX, hY, hdur, _⟩ := hfit
  obtain ⟨drawn, hdraw, hdrl, _⟩ := drawFrame_spec hasAlpha canvasW canvasH iter dec canvas hW hH
    hX hY (by omega) (by omega) hdl
  obtain ⟨next, hdisp, hnl, _⟩ := disposeFrame_spec hasAlpha canvasW canvasH iter drawn hH hX hY
    (by omega) (by omega)
  have hsnap := snapshot_spec canvasSize iter drawn (by omega) hdur
  have hdec' : (if hasAlpha then iter.decodeRGBA else iter.decodeRGB) = some dec := hdec
  refine ⟨dec, drawn, next, hdec, hdraw, hdrl, hdisp, by omega, ?_⟩
  cases rest with
  | nil =>
    unfold webpLoop
    simp only [hdec', hdraw, hsnap, hdisp]
  | cons nxt rest' =>
    rw [webpLoop]
    simp only [hdec', hdraw, hsnap, hdisp]

/-- The frame loop on sub-frames that all fit: it returns `Ok`, appending one
output frame per sub-frame as described by `Trace`. -/
theorem webpLoop_trace (hasAlpha : Bool) (canvasW canvasH canvasSize : Nat)
    (hW : canvasW < 2 ^ 31) (hH : canvasH < 2 ^ 31)
    (hsize : canvasSize = canvasW * canvasH * channels hasAlpha) (hsz : canvasSize < 2 ^ 31) :
    ∀ (rest : List WebPIterator) (iter : WebPIterator) (canvas : List Nat)
      (frames : List AnimationFrame), canvas.length = canvasSize →
      FrameFits hasAlpha canvasW canvasH iter →
      (∀ f ∈ rest, FrameFits hasAlpha canvasW canvasH f) →
      ∃ out, webpLoop hasAlpha canvasW canvasH canvasSize iter rest canvas frames =
          some (.ok (frames ++ out)) ∧
        Trace hasAlpha canvasW canvasH canvas (iter :: rest) out := by
  intro rest
  induction rest with
  | nil =>
    intro iter canvas frames hlen hfit _
    obtain ⟨dec, drawn, next, hdec, hdraw, hdrl, hdisp, hnl, hloop⟩ := webpLoop_step hasAlpha
      canvasW canvasH canvasSize hW hH hsize hsz iter [] canvas frames hlen hfit
    refine ⟨[{ data := drawn, delay := iter.duration }], hloop, ?_⟩
    exact ⟨dec, drawn, next, hdec, hdraw, hdrl, rfl, hdisp, hnl, trivial⟩
  | cons nxt rest' ih =>
    intro iter canvas frames hlen hfit hrest
    obtain ⟨dec, drawn, next, hdec, hdraw, hdrl, hdisp, hnl, hloop⟩ := webpLoop_step hasAlpha
      canvasW canvasH canvasSize hW hH hsize hsz iter (nxt :: rest') canvas frames hlen hfit
    obtain ⟨out, hout, htr⟩ := ih nxt next (frames ++ [{ data := drawn, delay := iter.duration }])
      (by omega) (hrest nxt (List.mem_cons_self _ _))
      (fun f hf => hrest f (List.mem_cons_of_mem _ hf))
    refine ⟨{ data := drawn, delay := iter.duration } :: out, ?_, ?_⟩
    · rw [hloop]
      simp only
      rw [hout, List.append_assoc]
      rfl
    · refine ⟨dec, drawn, next, hdec, hdraw, hdrl, rfl, hdisp, hnl, ?_⟩
      have e : next.length = canvas.length := hnl
      exact htr

theorem trace_delays (hasAlpha : Bool) (canvasW canvasH : Nat) :
    ∀ (iters : List WebPIterator) (canvas : List Nat) (out : List AnimationFrame),
      Trace hasAlpha canvasW canvasH canvas iters out →
      out.map (fun f => f.delay) = iters.map (fun it => it.duration) := by
  intro iters
  induction iters with
  | nil =>
    intro canvas out h
    cases out with
    | nil => rfl
    | cons f fs => exact absurd h (by simp [Trace])
  | cons it its ih =>
    intro canvas out h
    cases out with
    | nil => exact absurd h (by simp [Trace])
    | cons f fs =>
      obtain ⟨dec, drawn, next, _, _, _, hf, _, _, htr⟩ := h
      simp only [List.map_cons, ih next fs htr, hf]

theorem trace_data_length (hasAlpha : Bool) (canvasW canvasH : Nat) :
    ∀ (iters : List WebPIterator) (canvas : List Nat) (out : List AnimationFrame),
      Trace hasAlpha canvasW canvasH canvas iters out →
      ∀ f ∈ out, f.data.length = canvas.length := by
  intro iters
  induction iters with
  | nil =>
    intro canvas out h
    cases out with
    | nil => intro f hf; exact absurd hf (List.not_mem_nil f)
    | cons f fs => exact absurd h (by simp [Trace])
  | cons it its ih =>
    intro canvas out h
    cases out with
    | nil => exact absurd h (by simp [Trace])
    | cons f fs =>
      obtain ⟨dec, drawn, next, _, _, hdl, hf, _, hnl, htr⟩ := h
      intro g hg
      rcases List.mem_cons.mp hg with rfl | hg'
      · rw [hf]; exact hdl
      · rw [ih next fs htr g hg']; exact hnl

/-- The output frame of sub-frame `k` is the canvas right after drawing it on
some canvas of the right length. -/
theorem trace_nth (hasAlpha : Bool) (canvasW canvasH : Nat) :
    ∀ (k : Nat) (iters : List WebPIterator) (canvas : List Nat) (out : List AnimationFrame)
      (it : WebPIterator), Trace hasAlpha canvasW canvasH canvas iters out →
      iters[k]? = some it →
      ∃ prev dec drawn, prev.length = canvas.length ∧ frameDecoded hasAlpha it = some dec ∧
        drawFrame hasAlpha canvasW canvasH it dec prev = some drawn ∧
        (k = 0 → prev = canvas) ∧
        out[k]? = some { data := drawn, delay := it.duration } := by
  intro k
  induction k with
  | zero =>
    intro iters canvas out it h hk
    cases iters with
    | nil => simp at hk
    | cons i its =>
      cases out with
      | nil => exact absurd h (by simp [Trace])
      | cons f fs =>
        obtain ⟨dec, drawn, next, hdec, hdraw, _, hf, _, _, _⟩ := h
        simp only [List.getElem?_cons_zero, Option.some.injEq] at hk
        subst hk
        exact ⟨canvas, dec, drawn, rfl, hdec, hdraw, fun _ => rfl, by simp [hf]⟩
  | succ k ih =>
    intro iters canvas out it h hk
    cases iters with
    | nil => simp at hk
    | cons i its =>
      cases out with
      | nil => exact absurd h (by simp [Trace])
      | cons f fs =>
        obtain ⟨_, _, next, _, _, _, _, _, hnl, htr⟩ := h
        simp only [List.getElem?_cons_succ] at hk
        obtain ⟨prev, dec, drawn, hpl, hdec, hdraw, _, hout⟩ := ih its next fs it htr hk
        exact ⟨prev, dec, drawn, by omega, hdec, hdraw, fun h => absurd h (Nat.succ_ne_zero k),
          by simpa using hout⟩

/-- Two consecutive sub-frames: the second is drawn on what the disposal of the
first leaves of the first output frame. -/
theorem trace_pair (hasAlpha : Bool) (canvasW canvasH : Nat) :
    ∀ (k : Nat) (iters : List WebPIterator) (canvas : List Nat) (out : List AnimationFrame)
      (a b : WebPIterator), Trace hasAlpha canvasW canvasH canvas iters out →
      iters[k]? = some a → iters[k + 1]? = some b →
      ∃ drawnA next decB drawnB, drawnA.length = canvas.length ∧
        out[k]? = some { data := drawnA, delay := a.duration } ∧
        disposeFrame hasAlpha canvasW a drawnA = some next ∧
        frameDecoded hasAlpha b = some decB ∧
        drawFrame hasAlpha canvasW canvasH b decB next = some drawnB ∧
        out[k + 1]? = some { data := drawnB, delay := b.duration } := by
  intro k
  induction k with
  | zero =>
    intro iters canvas out a b h ha hb
    cases iters with
    | nil => simp at ha
    | cons i its =>
      cases out with
      | nil => exact absurd h (by simp [Trace])
      | cons f fs =>
        obtain ⟨dec, drawn, next, hdec, hdraw, hdl, hf, hdisp, hnl, htr⟩ := h
        simp only [List.getElem?_cons_zero, Option.some.injEq] at ha
        subst ha
        simp only [Nat.zero_add, List.getElem?_cons_succ] at hb
        obtain ⟨prev, decB, drawnB, _, hdecB, hdrawB, hprev, houtB⟩ :=
          trace_nth hasAlpha canvasW canvasH 0 its next fs b htr hb
        rw [hprev rfl] at hdrawB
        exact ⟨drawn, next, decB, drawnB, hdl, by simp [hf], hdisp, hdecB, hdrawB,
          by simpa using houtB⟩
  | succ k ih =>
    intro iters canvas out a b h ha hb
    cases iters with
    | nil => simp at ha
    | cons i its =>
      cases out with
      | nil => exact absurd h (by simp [Trace])
      | cons f fs =>
        obtain ⟨_, _, next, _, _, _, _, _, hnl, htr⟩ := h
        simp only [List.getElem?_cons_succ] at ha hb
        obtain ⟨drawnA, nextA, decB, drawnB, hdl, hA, hdisp, hdecB, hdrawB, hB⟩ :=
          ih its next fs a b htr ha hb
        exact ⟨drawnA, nextA, decB, drawnB, by omega, by simpa using hA, hdisp, hdecB, hdrawB,
          by simpa using hB⟩

/-- Full decode of a well-formed multi-frame container: `decode::webp` returns
the animation whose header fields are the truncated container values and whose
frames are the run of the frame loop from the all-zero canvas. -/
theorem webp_animation (data : WebPData) (demux : WebPDemuxer)
    (hdm : data.demux = some demux) (hwf : WellFormed demux) (hne : demux.frames ≠ []) :
    ∃ frames, webp data = some (.ok (.animation
        { loopCount := demux.loopCount % 2 ^ 16
          hasAlpha := animHasAlpha demux
          width := demux.canvasWidth % 2 ^ 16
          height := demux.canvasHeight % 2 ^ 16
          frames := frames })) ∧
      Trace (animHasAlpha demux) demux.canvasWidth demux.canvasHeight
        (List.replicate
          (demux.canvasWidth * demux.canvasHeight * channels (animHasAlpha demux)) 0)
        demux.frames frames := by
  obtain ⟨hfc1, hfc2, hff, hlc, hW, hH, hsz, hfits⟩ := hwf
  have efc : WebPDemuxGetI demux .WEBP_FF_FRAME_COUNT = demux.frameCount :=
    Nat.mod_eq_of_lt hfc2
  have elc : WebPDemuxGetI demux .WEBP_FF_LOOP_COUNT = demux.loopCount := Nat.mod_eq_of_lt hlc
  have ecw : WebPDemuxGetI demux .WEBP_FF_CANVAS_WIDTH = demux.canvasWidth :=
    Nat.mod_eq_of_lt (by omega)
  have ech : WebPDemuxGetI demux .WEBP_FF_CANVAS_HEIGHT = demux.canvasHeight :=
    Nat.mod_eq_of_lt (by omega)
  have eha : ((WebPDemuxGetI demux .WEBP_FF_FORMAT_FLAGS &&& ANIMATION_FLAG) != 0) =
      animHasAlpha demux := rfl
  have esz : demux.canvasWidth * demux.canvasHeight * channels (animHasAlpha demux) % 2 ^ 32 =
      demux.canvasWidth * demux.canvasHeight * channels (animHasAlpha demux) :=
    Nat.mod_eq_of_lt (by omega)
  cases hfr : demux.frames with
  | nil => exact absurd hfr hne
  | cons iter rest =>
    rw [hfr] at hfits
    obtain ⟨out, hout, htr⟩ := webpLoop_trace (animHasAlpha demux) demux.canvasWidth
      demux.canvasHeight (demux.canvasWidth * demux.canvasHeight * channels (animHasAlpha demux))
      hW hH rfl hsz rest iter
      (List.replicate
        (demux.canvasWidth * demux.canvasHeight * channels (animHasAlpha demux)) 0) []
      (by simp) (hfits iter (List.mem_cons_self _ _))
      (fun f hf => hfits f (List.mem_cons_of_mem _ hf))
    refine ⟨out, ?_, htr⟩
    unfold webp webpInner
    simp only [hdm, efc, elc, ecw, ech, eha, esz, hfr, if_neg (Nat.not_le.mpr hfc1),
      Bool.false_eq_true, if_false, hout, List.nil_append]

theorem memcpy_length (dst : List Nat) (dstStart : Nat) (src : List Nat) (srcStart len : Nat)
    (out : List Nat) (h : memcpy dst dstStart src srcStart len = some out) :
    out.length = dst.length := by
  unfold memcpy at h
  split at h
  · rename_i hb
    obtain ⟨hd, hs⟩ := hb
    obtain ⟨o, ho, hl, _⟩ := memcpy_spec dst dstStart src srcStart len hd hs
    unfold memcpy at ho
    rw [if_pos ⟨hd, hs⟩] at ho
    rw [← Option.some.inj h, Option.some.inj ho]
    exact hl
  · exact absurd h (by simp)

theorem snapshot_result (canvasSize : Nat) (iter : WebPIterator) (canvas : List Nat)
    (frame : AnimationFrame) (h : snapshot canvasSize iter canvas = some frame) :
    frame.delay = iter.duration % 2 ^ 32 ∧ frame.data.length = canvasSize := by
  unfold snapshot at h
  cases hm : memcpy (List.replicate canvasSize 0) 0 canvas 0 canvasSize with
  | none => simp [hm] at h
  | some data =>
    simp only [hm, Option.bind_eq_bind, Option.some_bind, bind, Option.bind,
      Option.some.injEq] at h
    subst h
    exact ⟨rfl, by simpa using memcpy_length _ _ _ _ _ _ hm⟩

/-- Every defined run of the frame loop in which all sub-frames decode returns
`Ok` with one more frame per sub-frame, each of `canvasSize` bytes and with the
sub-frame's duration as delay. -/
theorem webpLoop_result (hasAlpha : Bool) (canvasW canvasH canvasSize : Nat) :
    ∀ (rest : List WebPIterator) (iter : WebPIterator) (canvas : List Nat)
      (frames : List AnimationFrame) (r : Except String (List AnimationFrame)),
      (∀ f ∈ iter :: rest, frameDecoded hasAlpha f ≠ none) →
      webpLoop hasAlpha canvasW canvasH canvasSize iter rest canvas frames = some r →
      ∃ out, r = .ok (frames ++ out) ∧
        out.map (fun f => f.delay) = (iter :: rest).map (fun it => it.duration % 2 ^ 32) ∧
        ∀ f ∈ out, f.data.length = canvasSize := by
  intro rest
  induction rest with
  | nil =>
    intro iter canvas frames r hdec h
    have hd := hdec iter (List.mem_cons_self _ _)
    cases hfd : frameDecoded hasAlpha iter with
    | none => exact absurd hfd hd
    | some dec =>
      have hfd' : (if hasAlpha then iter.decodeRGBA else iter.decodeRGB) = some dec := hfd
      unfold webpLoop at h
      simp only [hfd'] at h
      cases hdr : drawFrame hasAlpha canvasW canvasH iter dec canvas with
      | none => simp [hdr] at h
      | some drawn =>
        simp only [hdr] at h
        cases hsn : snapshot canvasSize iter drawn with
        | none => simp [hsn] at h
        | some frame =>
          simp only [hsn] at h
          cases hdi : disposeFrame hasAlpha canvasW iter drawn with
          | none => simp [hdi] at h
          | some next =>
            simp only [hdi, Option.some.injEq] at h
            obtain ⟨e1, e2⟩ := snapshot_result _ _ _ _ hsn
            refine ⟨[frame], h.symm, by simp [e1], ?_⟩
            intro f hf
            rw [List.mem_singleton.mp hf]; exact e2
  | cons nxt rest' ih =>
    intro iter canvas frames r hdec h
    have hd := hdec iter (List.mem_cons_self _ _)
    cases hfd : frameDecoded hasAlpha iter with
    | none => exact absurd hfd hd
    | some dec =>
      have hfd' : (if hasAlpha then iter.decodeRGBA else iter.decodeRGB) = some dec := hfd
      rw [webpLoop] at h
      simp only [hfd'] at h
      cases hdr : drawFrame hasAlpha canvasW canvasH iter dec canvas with
      | none => simp [hdr] at h
      | some drawn =>
        simp only [hdr] at h
        cases hsn : snapshot canvasSize iter drawn with
        | none => simp [hsn] at h
        | some frame =>
          simp only [hsn] at h
          cases hdi : disposeFrame hasAlpha canvasW iter drawn with
          | none => simp [hdi] at h
          | some next =>
            simp only [hdi] at h
            obtain ⟨e1, e2⟩ := snapshot_result _ _ _ _ hsn
            obtain ⟨out, hr, hdel, hlen⟩ := ih nxt next (frames ++ [frame]) r
              (fun f hf => hdec f (List.mem_cons_of_mem _ hf)) h
            refine ⟨frame :: out, ?_, ?_, ?_⟩
            · rw [hr, List.append_assoc]; rfl
            · simp only [List.map_cons, hdel, e1]
            · intro f hf
              rcases List.mem_cons.mp hf with rfl | hf'
              · exact e2
              · exact hlen f hf'

/-! ## The decoder: results -/

/-- Every defined full decode of a multi-frame container whose sub-frames all
decode returns `Ok` with an animation: the header fields are the truncated
container values, there is one frame per sub-frame with the sub-frame's
duration as delay, and every frame has `canvasSize` bytes. -/
theorem webp_animated_result (data : WebPData) (demux : WebPDemuxer)
    (r : Except String DecodedResult) (hdm : data.demux = some demux)
    (hcount : 1 < WebPDemuxGetI demux .WEBP_FF_FRAME_COUNT) (hne : demux.frames ≠ [])
    (hdec : ∀ f ∈ demux.frames, frameDecoded (animHasAlpha demux) f ≠ none)
    (h : webp data = some r) :
    ∃ frames, r = .ok (.animation
        { loopCount := WebPDemuxGetI demux .WEBP_FF_LOOP_COUNT % 2 ^ 16
          hasAlpha := animHasAlpha demux
          width := WebPDemuxGetI demux .WEBP_FF_CANVAS_WIDTH % 2 ^ 16
          height := WebPDemuxGetI demux .WEBP_FF_CANVAS_HEIGHT % 2 ^ 16
          frames := frames }) ∧
      frames.map (fun f => f.delay) = demux.frames.map (fun it => it.duration % 2 ^ 32) ∧
      ∀ f ∈ frames, f.data.length =
        (WebPDemuxGetI demux .WEBP_FF_CANVAS_WIDTH * WebPDemuxGetI demux .WEBP_FF_CANVAS_HEIGHT *
          channels (animHasAlpha demux)) % 2 ^ 32 := by
  have eha : ((WebPDemuxGetI demux .WEBP_FF_FORMAT_FLAGS &&& ANIMATION_FLAG) != 0) =
      animHasAlpha demux := rfl
  cases hfr : demux.frames with
  | nil => exact absurd hfr hne
  | cons iter rest =>
    rw [hfr] at hdec
    unfold webp webpInner at h
    simp only [hdm, if_neg (Nat.not_le.mpr hcount), eha, hfr, Bool.false_eq_true, if_false,
      -Nat.reducePow] at h
    split at h
    · exact absurd h (by simp)
    · rename_i e hl
      obtain ⟨out, hout, _, _⟩ := webpLoop_result _ _ _ _ rest iter _ [] _ hdec hl
      exact absurd hout (by simp)
    · rename_i frames hl
      obtain ⟨out, hout, hdel, hlen⟩ := webpLoop_result _ _ _ _ rest iter _ [] _ hdec hl
      simp only [List.nil_append, Except.ok.injEq] at hout
      subst hout
      simp only [Option.some.injEq] at h
      exact ⟨frames, h.symm, hdel, hlen⟩

/-- C2.  For a multi-frame container whose demuxer yields at least one
sub-frame and whose sub-frames all decode, every defined full `decode::webp`
returns an animation with exactly one frame per sub-frame, in file order (so
the frame list is not empty), the delay of frame `i` being the duration of
sub-frame `i`; and the decode is defined whenever the container is well formed
(sub-frames inside the canvas, canvas below `2 ^ 31` bytes). -/
theorem webp_frames_in_order (data : WebPData) (demux : WebPDemuxer)
    (hdm : data.demux = some demux)
    (hcount : 1 < WebPDemuxGetI demux .WEBP_FF_FRAME_COUNT) (hne : demux.frames ≠ [])
    (hdec : ∀ f ∈ demux.frames, frameDecoded (animHasAlpha demux) f ≠ none)
    (hdur : ∀ f ∈ demux.frames, f.duration < 2 ^ 31) :
    (∀ r, webp data = some r →
      ∃ anim, r = .ok (.animation anim) ∧ anim.frames.length = demux.frames.length ∧
        anim.frames ≠ [] ∧
        anim.frames.map (fun f => f.delay) = demux.frames.map (fun it => it.duration)) ∧
    (WellFormed demux → ∃ anim, webp data = some (.ok (.animation anim))) := by
  constructor
  · intro r h
    obtain ⟨frames, hr, hdel, _⟩ := webp_animated_result data demux r hdm hcount hne hdec h
    have hdel' : frames.map (fun f => f.delay) = demux.frames.map (fun it => it.duration) := by
      rw [hdel]
      apply List.map_congr_left
      intro f hf
      exact Nat.mod_eq_of_lt (by have := hdur f hf; omega)
    have hlen : frames.length = demux.frames.length := by
      have := congrArg List.length hdel'
      simpa using this
    refine ⟨_, hr, hlen, ?_, hdel'⟩
    intro hnil
    simp only at hnil
    rw [hnil] at hlen
    exact hne (List.length_eq_zero.mp hlen.symm)
  · intro hwf
    obtain ⟨frames, hw, _⟩ := webp_animation data demux hdm hwf hne
    exact ⟨_, hw⟩

theorem webp_frames_in_order_witness :
    ∃ anim, webp smallData = some (.ok (.animation anim)) ∧
      anim.frames.length = 2 ∧ anim.frames.map (fun f => f.delay) = [40, 70] := by
  obtain ⟨hall, hdef⟩ := webp_frames_in_order smallData smallDemux rfl (by decide) (by decide)
    (by decide) (by decide)
  obtain ⟨anim, hanim⟩ := hdef (by decide)
  obtain ⟨anim', hr, hlen, _, hdel⟩ := hall _ hanim
  have e : anim = anim' := by
    have := Except.ok.inj hr
    exact DecodedResult.animation.inj this
  subst e
  exact ⟨anim, hanim, hlen, hdel⟩

/-- C1, at the failing input.  A two-frame animation on a 65536 by 1 canvas
decodes successfully; the returned animation has width 0, height 1 and an alpha
channel, and each of its two frames has 262144 bytes, not
`width * height * 4 = 0`. -/
theorem webp_wide_canvas_frame_length :
    ∃ anim, webp wideData = some (.ok (.animation anim)) ∧
      anim.width = 0 ∧ anim.height = 1 ∧ anim.hasAlpha = true ∧ anim.frames.length = 2 ∧
      ∀ f ∈ anim.frames, f.data.length = 262144 ∧
        f.data.length ≠ anim.width * anim.height * (if anim.hasAlpha then 4 else 3) := by
  obtain ⟨frames, hw, htr⟩ := webp_animation wideData wideDemux rfl (by decide) (by decide)
  have hlen := trace_data_length _ _ _ _ _ _ htr
  have hdel := trace_delays _ _ _ _ _ _ htr
  refine ⟨_, hw, ?_, ?_, ?_, ?_, ?_⟩
  · show wideDemux.canvasWidth % 2 ^ 16 = 0
    decide
  · show wideDemux.canvasHeight % 2 ^ 16 = 1
    decide
  · show animHasAlpha wideDemux = true
    decide
  · have := congrArg List.length hdel
    simpa using this
  · intro f hf
    have h1 : f.data.length = 262144 := by
      rw [hlen f hf, List.length_replicate]
      decide
    refine ⟨h1, ?_⟩
    rw [h1]
    show 262144 ≠ wideDemux.canvasWidth % 2 ^ 16 * (wideDemux.canvasHeight % 2 ^ 16) *
      (if animHasAlpha wideDemux = true then 4 else 3)
    decide

/-- C10.  `decode::webp` chooses the variant of a successful result by the
frame count the demuxer reports: at most 1 gives a static image whose
`hasAlpha` is the alpha flag of the bitstream features, more than 1 gives an
animation. -/
theorem webp_variant_by_frame_count (data : WebPData) (demux : WebPDemuxer)
    (r : DecodedResult) (hdm : data.demux = some demux) (h : webp data = some (.ok r)) :
    (WebPDemuxGetI demux .WEBP_FF_FRAME_COUNT ≤ 1 →
      ∃ img feats, r = .image img ∧ data.features = some feats ∧
        img.hasAlpha = (feats.has_alpha != 0)) ∧
    (1 < WebPDemuxGetI demux .WEBP_FF_FRAME_COUNT → ∃ anim, r = .animation anim) := by
  unfold webp webpInner at h
  simp only [hdm] at h
  constructor
  · intro hc
    simp only [if_pos hc, Bool.false_eq_true, if_false] at h
    cases hf : data.features with
    | none => simp [hf] at h
    | some feats =>
      simp only [hf] at h
      split at h
      · exact absurd h (by simp)
      · simp only [Option.some.injEq, Except.ok.injEq] at h
        exact ⟨_, feats, h.symm, rfl, rfl⟩
  · intro hc
    simp only [if_neg (Nat.not_le.mpr hc), Bool.false_eq_true, if_false] at h
    cases hfr : demux.frames with
    | nil => simp [hfr] at h
    | cons iter rest =>
      simp only [hfr] at h
      split at h
      · simp at h
      · simp at h
      · simp only [Option.some.injEq, Except.ok.injEq] at h
        exact ⟨_, h.symm⟩

theorem webp_variant_by_frame_count_witness :
    ∃ img feats, DecodedResult.image
        { data := some [9, 8, 7, 6], width := 1, height := 1, bit_depth := none
          hasAlpha := true } = .image img ∧
      stillData.features = some feats ∧ img.hasAlpha = (feats.has_alpha != 0) :=
  (webp_variant_by_frame_count stillData _ _ rfl rfl).1 (by decide)

/-- C5.  Two consecutive sub-frames `k` and `k + 1` of a well-formed
container: if sub-frame `k` has dispose mode None, every pixel of output frame
`k + 1` outside the rectangle of sub-frame `k + 1` has the bytes of the same
pixel of output frame `k`. -/
theorem webp_dispose_none_carries_canvas (data : WebPData) (demux : WebPDemuxer)
    (hdm : data.demux = some demux) (hwf : WellFormed demux)
    (k : Nat) (a b : WebPIterator)
    (ha : demux.frames[k]? = some a) (hb : demux.frames[k + 1]? = some b)
    (hnone : a.dispose_method = WEBP_MUX_DISPOSE_NONE) :
    ∃ anim fa fb, webp data = some (.ok (.animation anim)) ∧
      anim.frames[k]? = some fa ∧ anim.frames[k + 1]? = some fb ∧
      ∀ X Y c, X < demux.canvasWidth → Y < demux.canvasHeight →
        c < channels (animHasAlpha demux) →
        ¬ (b.x_offset ≤ X ∧ X < b.x_offset + b.width ∧
            b.y_offset ≤ Y ∧ Y < b.y_offset + b.height) →
        fb.data[(Y * demux.canvasWidth + X) * channels (animHasAlpha demux) + c]? =
          fa.data[(Y * demux.canvasWidth + X) * channels (animHasAlpha demux) + c]? := by
  have hne : demux.frames ≠ [] := by
    intro h; rw [h] at ha; simp at ha
  obtain ⟨frames, hw, htr⟩ := webp_animation data demux hdm hwf hne
  obtain ⟨_, _, _, _, hW, hH, hsz, hfits⟩ := hwf
  obtain ⟨drawnA, next, decB, drawnB, hdl, hA, hdisp, hdecB, hdrawB, hB⟩ :=
    trace_pair _ _ _ k _ _ _ a b htr ha hb
  have hfa := hfits a (List.getElem?_mem ha)
  have hfb := hfits b (List.getElem?_mem hb)
  rw [List.length_replicate] at hdl
  obtain ⟨next', hdisp', _, hnone', _⟩ := disposeFrame_spec (animHasAlpha demux)
    demux.canvasWidth demux.canvasHeight a drawnA hH hfa.1 hfa.2.1 hdl hsz
  have hnext : next = drawnA := by
    rw [hdisp] at hdisp'
    rw [Option.some.inj hdisp']
    exact hnone' hnone
  subst hnext
  obtain ⟨dec, hdec, hdecl⟩ := hfb.decoded
  rw [hdecB] at hdec
  have hdeq : decB = dec := Option.some.inj hdec
  subst hdeq
  obtain ⟨out, hout, _, hkeep⟩ := drawFrame_spec (animHasAlpha demux) demux.canvasWidth
    demux.canvasHeight b decB next hW hH hfb.1 hfb.2.1 hdl hsz hdecl
  rw [hdrawB] at hout
  have hoeq : drawnB = out := Option.some.inj hout
  subst hoeq
  exact ⟨_, _, _, hw, hA, hB, hkeep⟩

theorem webp_dispose_none_carries_canvas_witness :
    ∃ anim fa fb, webp smallData = some (.ok (.animation anim)) ∧
      anim.frames[0]? = some fa ∧ anim.frames[0 + 1]? = some fb ∧
      ∀ X Y c, X < smallDemux.canvasWidth → Y < smallDemux.canvasHeight →
        c < channels (animHasAlpha smallDemux) →
        ¬ (1 ≤ X ∧ X < 1 + 1 ∧ 0 ≤ Y ∧ Y < 0 + 1) →
        fb.data[(Y * smallDemux.canvasWidth + X) * channels (animHasAlpha smallDemux) + c]? =
          fa.data[(Y * smallDemux.canvasWidth + X) * channels (animHasAlpha smallDemux) + c]? :=
  webp_dispose_none_carries_canvas smallData smallDemux rfl (by decide) 0 pixelFrame
    { pixelFrame with x_offset := 1, duration := 70 } rfl rfl rfl

/-- C4.  An alpha-enabled animation of two sub-frames, the first covering the
whole canvas with dispose mode ToBackground, the second covering a
sub-rectangle (with blend mode AlphaBlend or any other): the first output frame
is the canvas as drawn by sub-frame 1 on the all-zero canvas, and every byte of
the second output frame outside the rectangle of sub-frame 2 is zero. -/
theorem webp_dispose_background_clears (data : WebPData) (demux : WebPDemuxer)
    (f1 f2 : WebPIterator)
    (hdm : data.demux = some demux) (hwf : WellFormed demux)
    (hfr : demux.frames = [f1, f2]) (halpha : animHasAlpha demux = true)
    (hx : f1.x_offset = 0) (hy : f1.y_offset = 0)
    (hw : f1.width = demux.canvasWidth) (hh : f1.height = demux.canvasHeight)
    (hdisp : f1.dispose_method = WEBP_MUX_DISPOSE_BACKGROUND) :
    ∃ anim dec1 drawn1 frame2, webp data = some (.ok (.animation anim)) ∧
      f1.decodeRGBA = some dec1 ∧
      drawFrame true demux.canvasWidth demux.canvasHeight f1 dec1
        (List.replicate (demux.canvasWidth * demux.canvasHeight * 4) 0) = some drawn1 ∧
      anim.frames = [{ data := drawn1, delay := f1.duration }, frame2] ∧
      ∀ X Y c, X < demux.canvasWidth → Y < demux.canvasHeight → c < 4 →
        ¬ (f2.x_offset ≤ X ∧ X < f2.x_offset + f2.width ∧
            f2.y_offset ≤ Y ∧ Y < f2.y_offset + f2.height) →
        frame2.data[(Y * demux.canvasWidth + X) * 4 + c]? = some 0 := by
  have hne : demux.frames ≠ [] := by rw [hfr]; simp
  obtain ⟨frames, hwebp, htr⟩ := webp_animation data demux hdm hwf hne
  obtain ⟨_, _, _, _, hW, hH, hsz, hfits⟩ := hwf
  rw [hfr] at htr hfits
  rw [halpha] at htr hsz hfits
  have e4 : channels true = 4 := rfl
  rw [e4] at htr hsz
  have hf1 := hfits f1 (List.mem_cons_self _ _)
  have hf2 := hfits f2 (List.mem_cons_of_mem _ (List.mem_cons_self _ _))
  cases frames with
  | nil => exact absurd htr (by simp [Trace])
  | cons fr1 frs =>
    obtain ⟨dec1, drawn1, next1, hdec1, hdraw1, hdl1, hfr1, hdisp1, hnl1, htr2⟩ := htr
    cases frs with
    | nil => exact absurd htr2 (by simp [Trace])
    | cons fr2 frs' =>
      obtain ⟨dec2, drawn2, next2, hdec2, hdraw2, hdl2, hfr2, _, _, htr3⟩ := htr2
      cases frs' with
      | cons _ _ => exact absurd htr3 (by simp [Trace])
      | nil =>
        rw [List.length_replicate] at hdl1 hnl1
        -- after the disposal of sub-frame 1 the whole canvas is zero
        obtain ⟨n1, hn1, _, _, hzero, _⟩ := disposeFrame_spec true demux.canvasWidth
          demux.canvasHeight f1 drawn1 hH hf1.1 hf1.2.1 (by rw [e4]; omega) (by rw [e4]; omega)
        rw [hdisp1] at hn1
        have hn1' : next1 = n1 := Option.some.inj hn1
        subst hn1'
        have hz := hzero hdisp
        rw [e4, hx, hy, hw, hh] at hz
        -- sub-frame 2 changes nothing outside its rectangle
        obtain ⟨d2, hd2, hd2l⟩ := hf2.decoded
        rw [hdec2] at hd2
        have hd2' : dec2 = d2 := Option.some.inj hd2
        subst hd2'
        obtain ⟨out, hout, _, hkeep⟩ := drawFrame_spec true demux.canvasWidth
          demux.canvasHeight f2 dec2 next1 hW hH hf2.1 hf2.2.1 (by rw [e4]; omega)
          (by rw [e4]; omega) hd2l
        rw [hdraw2] at hout
        have ho : drawn2 = out := Option.some.inj hout
        subst ho
        rw [e4] at hkeep
        refine ⟨_, dec1, drawn1, fr2, hwebp, hdec1, hdraw1, ?_, ?_⟩
        · simp only [hfr1, halpha]
        · intro X Y c hX hY hc hnot
          rw [hfr2]
          simp only
          rw [hkeep X Y c hX hY hc hnot]
          have := hz X Y c hX hY hc
          simpa using this

theorem webp_dispose_background_clears_witness :
    ∃ anim dec1 drawn1 frame2, webp disposeData = some (.ok (.animation anim)) ∧
      coverFrame.decodeRGBA = some dec1 ∧
      drawFrame true disposeDemux.canvasWidth disposeDemux.canvasHeight coverFrame dec1
        (List.replicate (disposeDemux.canvasWidth * disposeDemux.canvasHeight * 4) 0) =
          some drawn1 ∧
      anim.frames = [{ data := drawn1, delay := coverFrame.duration }, frame2] ∧
      ∀ X Y c, X < disposeDemux.canvasWidth → Y < disposeDemux.canvasHeight → c < 4 →
        ¬ (cornerFrame.x_offset ≤ X ∧ X < cornerFrame.x_offset + cornerFrame.width ∧
            cornerFrame.y_offset ≤ Y ∧ Y < cornerFrame.y_offset + cornerFrame.height) →
        frame2.data[(Y * disposeDemux.canvasWidth + X) * 4 + c]? = some 0 :=
  webp_dispose_background_clears disposeData disposeDemux coverFrame cornerFrame rfl
    (by decide) rfl (by decide) rfl rfl rfl rfl rfl

set_option maxRecDepth 100000 in
/-- C3, counterexample.  On a canvas of one pixel, a sub-frame with blend mode
Overwrite whose decoded pixel is (10, 20, 30, 0) leaves (0, 0, 0, 0) in its
output frame, and one whose decoded pixel is (200, 100, 50, 128) leaves
(100, 50, 25, 128): neither is a copy of the sub-frame's bytes. -/
theorem webp_overwrite_not_a_copy :
    clearPixelFrame.blend_method = WEBP_MUX_NO_BLEND ∧
    clearPixelFrame.decodeRGBA = some [10, 20, 30, 0] ∧
    halfPixelFrame.blend_method = WEBP_MUX_NO_BLEND ∧
    halfPixelFrame.decodeRGBA = some [200, 100, 50, 128] ∧
    webp overwriteData = some (.ok (.animation
      { loopCount := 0, hasAlpha := true, width := 1, height := 1
        frames := [{ data := [0, 0, 0, 0], delay := 40 },
                   { data := [100, 50, 25, 128], delay := 40 }] })) ∧
    [0, 0, 0, 0] ≠ [10, 20, 30, 0] ∧ [100, 50, 25, 128] ≠ [200, 100, 50, 128] := by
  refine ⟨rfl, rfl, rfl, rfl, ?_, by decide, by decide⟩
  rfl

/-- C3, amended.  In an alpha-enabled animation, the output frame of a
sub-frame with blend mode Overwrite holds in the destination rectangle the
sub-frame's pixel blended over a zeroed pixel: a source pixel with alpha 255
is copied byte for byte; one with alpha 0 leaves four zero bytes; one with
alpha `a` strictly between 0 and 255 leaves alpha `a` and colour bytes
`blendChannel 0 s a` for the source colour bytes `s`. -/
theorem webp_overwrite_frame (data : WebPData) (demux : WebPDemuxer)
    (hdm : data.demux = some demux) (hwf : WellFormed demux)
    (halpha : animHasAlpha demux = true)
    (k : Nat) (iter : WebPIterator) (dec : List Nat)
    (hk : demux.frames[k]? = some iter) (hb : iter.blend_method = WEBP_MUX_NO_BLEND)
    (hdec : iter.decodeRGBA = some dec) :
    ∃ anim frame, webp data = some (.ok (.animation anim)) ∧ anim.frames[k]? = some frame ∧
      ∀ x y a, x < iter.width → y < iter.height →
        dec[(y * iter.width + x) * 4 + 3]? = some a →
        (a = 255 → ∀ c, c < 4 →
          frame.data[((iter.y_offset + y) * demux.canvasWidth + iter.x_offset + x) * 4 + c]? =
            dec[(y * iter.width + x) * 4 + c]?) ∧
        (a = 0 → ∀ c, c < 4 →
          frame.data[((iter.y_offset + y) * demux.canvasWidth + iter.x_offset + x) * 4 + c]? =
            some 0) ∧
        (0 < a → a ≠ 255 →
          frame.data[((iter.y_offset + y) * demux.canvasWidth + iter.x_offset + x) * 4 + 3]? =
            some a ∧
          ∀ c, c < 3 →
            frame.data[((iter.y_offset + y) * demux.canvasWidth + iter.x_offset + x) * 4 + c]? =
              some (blendChannel 0 (dec.getD ((y * iter.width + x) * 4 + c) 0) a)) := by
  have hne : demux.frames ≠ [] := by
    intro h; rw [h] at hk; simp at hk
  obtain ⟨frames, hw, htr⟩ := webp_animation data demux hdm hwf hne
  obtain ⟨_, _, _, _, hW, hH, hsz, hfits⟩ := hwf
  have hfit := hfits iter (List.getElem?_mem hk)
  rw [halpha] at htr hsz hfit
  have e4 : channels true = 4 := rfl
  rw [e4] at htr hsz
  obtain ⟨prev, dec', drawn, hpl, hdec', hdraw, _, hout⟩ := trace_nth _ _ _ k _ _ _ iter htr hk
  have hd : dec' = dec := by
    have h1 : frameDecoded true iter = iter.decodeRGBA := rfl
    rw [h1, hdec] at hdec'
    exact (Option.some.inj hdec').symm
  subst hd
  obtain ⟨d, hd1, hdl⟩ := hfit.decoded
  rw [hdec'] at hd1
  have hd2 : dec' = d := Option.some.inj hd1
  subst hd2
  rw [e4] at hdl
  rw [List.length_replicate] at hpl
  obtain ⟨base, out, ho, _, _, hzero, _, hin, _⟩ := drawFrame_alpha_spec demux.canvasWidth
    demux.canvasHeight iter dec' prev hW hH hfit.1 hfit.2.1 hpl hsz hdl
  rw [hdraw] at ho
  have hoe : drawn = out := Option.some.inj ho
  subst hoe
  refine ⟨_, _, hw, hout, ?_⟩
  intro x y a hx hy ha
  have hz : ∀ c, c < 4 →
      base.getD (((iter.y_offset + y) * demux.canvasWidth + iter.x_offset + x) * 4 + c) 0 = 0 := by
    intro c hc
    simp [List.getD_eq_getElem?_getD, hzero hb x y c hx hy hc]
  have hs : ∀ c, c < 4 → dec'[(y * iter.width + x) * 4 + c]? =
      some (dec'.getD ((y * iter.width + x) * 4 + c) 0) := fun c hc =>
    getElem?_eq_some_getD (by rw [hdl]; exact src_index_lt hx hy hc)
  refine ⟨?_, ?_, ?_⟩
  · intro h255 c hc
    subst h255
    show drawn[_]? = _
    rw [hin x y c hx hy hc, blendByte_solid _ _ _ _ _ ha]
    by_cases h3 : c = 3
    · subst h3; rw [if_pos rfl, ha]
    · rw [if_neg h3, hs c hc]
  · intro h0 c hc
    subst h0
    show drawn[_]? = _
    rw [hin x y c hx hy hc, blendByte_transparent _ _ _ _ _ ha, hz c hc]
  · intro h0 h255
    constructor
    · show drawn[_]? = _
      rw [hin x y 3 hx hy (by omega), blendByte_mixed _ _ _ _ _ _ ha h0 h255, if_pos rfl,
        hz 3 (by omega), if_pos h0]
    · intro c hc
      show drawn[_]? = _
      rw [hin x y c hx hy (by omega), blendByte_mixed _ _ _ _ _ _ ha h0 h255,
        if_neg (by omega), hz c (by omega)]

theorem webp_overwrite_frame_witness :
    ∃ anim frame, webp overwriteData = some (.ok (.animation anim)) ∧
      anim.frames[1]? = some frame ∧
      ∀ x y a, x < halfPixelFrame.width → y < halfPixelFrame.height →
        [200, 100, 50, 128][(y * halfPixelFrame.width + x) * 4 + 3]? = some a →
        (a = 255 → ∀ c, c < 4 →
          frame.data[((halfPixelFrame.y_offset + y) * overwriteDemux.canvasWidth +
              halfPixelFrame.x_offset + x) * 4 + c]? =
            [200, 100, 50, 128][(y * halfPixelFrame.width + x) * 4 + c]?) ∧
        (a = 0 → ∀ c, c < 4 →
          frame.data[((halfPixelFrame.y_offset + y) * overwriteDemux.canvasWidth +
              halfPixelFrame.x_offset + x) * 4 + c]? = some 0) ∧
        (0 < a → a ≠ 255 →
          frame.data[((halfPixelFrame.y_offset + y) * overwriteDemux.canvasWidth +
              halfPixelFrame.x_offset + x) * 4 + 3]? = some a ∧
          ∀ c, c < 3 →
            frame.data[((halfPixelFrame.y_offset + y) * overwriteDemux.canvasWidth +
                halfPixelFrame.x_offset + x) * 4 + c]? =
              some (blendChannel 0
                ([200, 100, 50, 128].getD ((y * halfPixelFrame.width + x) * 4 + c) 0) a)) :=
  webp_overwrite_frame overwriteData overwriteDemux rfl (by decide) (by decide) 1
    halfPixelFrame [200, 100, 50, 128] rfl rfl rfl

set_option maxRecDepth 100000 in
/-- C9, counterexample.  Destination colour 255, source colour 0, source alpha
128: `blend_alpha` leaves 126, while `(255 * (255 - 128) + 0 * 128) / 255` is
127.  Destination and source colour 3, source alpha 65: `blend_alpha` leaves 2,
below both. -/
theorem blend_alpha_not_floor_interpolation :
    blend_alpha [255, 255, 255, 255, 3, 3, 3, 9] [0, 0, 0, 128, 3, 3, 3, 65] 2 1 2 1 0 0 =
      some [126, 126, 126, 255, 2, 2, 2, 65] ∧
    (255 * (255 - 128) + 0 * 128) / 255 = 127 ∧
    (3 * (255 - 65) + 3 * 65) / 255 = 3 ∧ 2 < min 3 3 := by
  refine ⟨?_, by decide, by decide, by decide⟩
  rfl

/-- C9, amended.  The colour rule of `blend_alpha`: for a source alpha `a`
strictly between 0 and 255, a destination colour byte `d` and a source colour
byte `s`, the destination byte becomes `blendChannel d s a`, the binary32
evaluation of `d * (1 - a / 255) + s * (a / 255)` truncated to an integer; it is
`(d * (255 - a) + s * a) / 255` or one less, hence at least `min d s - 1` and at
most `max d s`. -/
theorem blend_alpha_colour (canvas src : List Nat)
    (canvasW canvasH srcW srcH offsetX offsetY : Nat)
    (hX : offsetX + srcW ≤ canvasW) (hY : offsetY + srcH ≤ canvasH)
    (hlen : canvas.length = canvasW * canvasH * 4) (hsz : canvasW * canvasH * 4 < 2 ^ 31)
    (hH : canvasH < 2 ^ 31) (hsrc : src.length = srcW * srcH * 4)
    (x y c : Nat) (hx : x < srcW) (hy : y < srcH) (hc : c < 3) (a d s : Nat)
    (ha : src[(y * srcW + x) * 4 + 3]? = some a)
    (hs : src[(y * srcW + x) * 4 + c]? = some s)
    (hd : canvas[((offsetY + y) * canvasW + offsetX + x) * 4 + c]? = some d)
    (ha0 : 0 < a) (ha255 : a < 255) (hd255 : d ≤ 255) (hs255 : s ≤ 255) :
    ∃ out, blend_alpha canvas src canvasW canvasH srcW srcH offsetX offsetY = some out ∧
      out[((offsetY + y) * canvasW + offsetX + x) * 4 + c]? = some (blendChannel d s a) ∧
      (d * (255 - a) + s * a) / 255 ≤ blendChannel d s a + 1 ∧
      blendChannel d s a ≤ (d * (255 - a) + s * a) / 255 ∧
      min d s ≤ blendChannel d s a + 1 ∧ blendChannel d s a ≤ max d s := by
  obtain ⟨out, hout, _, hin, _⟩ := blend_alpha_spec canvas src canvasW canvasH srcW srcH
    offsetX offsetY hX hY hlen hsz hH hsrc
  obtain ⟨b1, b2⟩ := blendChannel_bounds d s a hd255 hs255 ha0 ha255
  have hd' : canvas.getD (((offsetY + y) * canvasW + offsetX + x) * 4 + c) 0 = d := by
    simp [List.getD_eq_getElem?_getD, hd]
  have hs' : src.getD ((y * srcW + x) * 4 + c) 0 = s := by
    simp [List.getD_eq_getElem?_getD, hs]
  have hlo : min d s ≤ (d * (255 - a) + s * a) / 255 := by
    rw [Nat.le_div_iff_mul_le (by decide)]
    have h1 : min d s * (255 - a) ≤ d * (255 - a) :=
      Nat.mul_le_mul_right _ (Nat.min_le_left d s)
    have h2 : min d s * a ≤ s * a := Nat.mul_le_mul_right _ (Nat.min_le_right d s)
    have h3 : min d s * 255 = min d s * (255 - a) + min d s * a := by
      rw [← Nat.mul_add]; congr 1; omega
    omega
  have hhi : (d * (255 - a) + s * a) / 255 ≤ max d s := by
    apply Nat.le_of_lt_succ
    rw [Nat.div_lt_iff_lt_mul (by decide)]
    have h1 : d * (255 - a) ≤ max d s * (255 - a) :=
      Nat.mul_le_mul_right _ (Nat.le_max_left d s)
    have h2 : s * a ≤ max d s * a := Nat.mul_le_mul_right _ (Nat.le_max_right d s)
    have h3 : max d s * 255 = max d s * (255 - a) + max d s * a := by
      rw [← Nat.mul_add]; congr 1; omega
    have h4 : (max d s).succ * 255 = max d s * 255 + 255 := by
      rw [Nat.succ_mul]
    omega
  refine ⟨out, hout, ?_, b1, b2, by omega, by omega⟩
  rw [hin x y c hx hy (by omega), blendByte_mixed _ _ _ _ _ _ ha ha0 (by omega),
    if_neg (by omega), hd', hs']

theorem blend_alpha_colour_witness :
    ∃ out, blend_alpha [255, 255, 255, 255] [0, 0, 0, 128] 1 1 1 1 0 0 = some out ∧
      out[((0 + 0) * 1 + 0 + 0) * 4 + 0]? = some (blendChannel 255 0 128) ∧
      (255 * (255 - 128) + 0 * 128) / 255 ≤ blendChannel 255 0 128 + 1 ∧
      blendChannel 255 0 128 ≤ (255 * (255 - 128) + 0 * 128) / 255 ∧
      min 255 0 ≤ blendChannel 255 0 128 + 1 ∧ blendChannel 255 0 128 ≤ max 255 0 :=
  blend_alpha_colour [255, 255, 255, 255] [0, 0, 0, 128] 1 1 1 1 0 0 (by decide) (by decide)
    (by decide) (by decide) (by decide) (by decide) 0 0 0 (by decide) (by decide) (by decide)
    128 255 0 (by decide) (by decide) (by decide) (by decide) (by decide) (by decide)
    (by decide)

/-! ## The decoder: flags, header requests, guards and failures -/

/-- The static path of `webpInner` on a full decode: the features' dimensions
go through the 16-bit cast and nothing else looks at them. -/
theorem webp_still (data : WebPData) (demux : WebPDemuxer) (feats : WebPBitstreamFeatures)
    (decoded : List Nat) (hdm : data.demux = some demux)
    (hcount : WebPDemuxGetI demux .WEBP_FF_FRAME_COUNT ≤ 1)
    (hfeats : data.features = some feats)
    (hdec : (if feats.has_alpha != 0 then data.decodeRGBA else data.decodeRGB) = some decoded) :
    webp data = some (.ok (.image
      { data := some decoded
        width := feats.width % 2 ^ 16
        height := feats.height % 2 ^ 16
        bit_depth := none
        hasAlpha := feats.has_alpha != 0 })) := by
  unfold webp webpInner
  simp only [hdm, hfeats, if_pos hcount, Bool.false_eq_true, if_false, hdec]

/-- A run of the frame loop over a list that holds a sub-frame which does not
decode never returns `Ok`: if it returns, it returns the decode error. -/
theorem webpLoop_abort (hasAlpha : Bool) (canvasW canvasH canvasSize : Nat) :
    ∀ (rest : List WebPIterator) (iter : WebPIterator) (canvas : List Nat)
      (frames : List AnimationFrame) (r : Except String (List AnimationFrame)),
      (∃ f ∈ iter :: rest, frameDecoded hasAlpha f = none) →
      webpLoop hasAlpha canvasW canvasH canvasSize iter rest canvas frames = some r →
      r = .error "Failed to decode animation frame" := by
  intro rest
  induction rest with
  | nil =>
    intro iter canvas frames r hbad h
    obtain ⟨f, hf, hnone⟩ := hbad
    rw [List.mem_singleton] at hf
    subst hf
    unfold frameDecoded at hnone
    unfold webpLoop at h
    rw [hnone] at h
    simp only [Option.some.injEq] at h
    exact h.symm
  | cons nxt rest ih =>
    intro iter canvas frames r hbad h
    unfold webpLoop at h
    split at h
    · simp only [Option.some.injEq] at h
      exact h.symm
    · rename_i dec hdec
      split at h
      · exact absurd h (by simp)
      · split at h
        · exact absurd h (by simp)
        · split at h
          · exact absurd h (by simp)
          · rename_i next _
            obtain ⟨f, hf, hnone⟩ := hbad
            rcases List.mem_cons.mp hf with hf | hf
            · subst hf
              unfold frameDecoded at hnone
              rw [hnone] at hdec
              exact absurd hdec (by simp)
            · exact ih nxt next _ r ⟨f, hf, hnone⟩ h

/-- The frame loop reaches a sub-frame that does not decode, and returns the
decode error there, when the sub-frames before it fit the canvas. -/
theorem webpLoop_abort_defined (hasAlpha : Bool) (canvasW canvasH canvasSize : Nat)
    (hW : canvasW < 2 ^ 31) (hH : canvasH < 2 ^ 31)
    (hsize : canvasSize = canvasW * canvasH * channels hasAlpha) (hsz : canvasSize < 2 ^ 31)
    (bad : WebPIterator) (post : List WebPIterator)
    (hbad : frameDecoded hasAlpha bad = none) :
    ∀ (pre : List WebPIterator) (iter : WebPIterator) (rest : List WebPIterator)
      (canvas : List Nat) (frames : List AnimationFrame),
      iter :: rest = pre ++ bad :: post → canvas.length = canvasSize →
      (∀ f ∈ pre, FrameFits hasAlpha canvasW canvasH f) →
      webpLoop hasAlpha canvasW canvasH canvasSize iter rest canvas frames =
        some (.error "Failed to decode animation frame") := by
  intro pre
  induction pre with
  | nil =>
    intro iter rest canvas frames hsplit _ _
    simp only [List.nil_append, List.cons.injEq] at hsplit
    obtain ⟨hi, _⟩ := hsplit
    subst hi
    unfold frameDecoded at hbad
    unfold webpLoop
    rw [hbad]
  | cons p pre ih =>
    intro iter rest canvas frames hsplit hlen hfit
    simp only [List.cons_append, List.cons.injEq] at hsplit
    obtain ⟨hi, hrest⟩ := hsplit
    subst hi
    obtain ⟨dec, drawn, next, _, _, _, _, hnl, hloop⟩ := webpLoop_step hasAlpha canvasW canvasH
      canvasSize hW hH hsize hsz iter rest canvas frames hlen (hfit iter (List.mem_cons_self _ _))
    rw [hloop]
    cases rest with
    | nil => cases pre <;> simp at hrest
    | cons nxt rest' =>
      exact ih nxt rest' next _ hrest (by rw [hnl, hlen])
        (fun f hf => hfit f (List.mem_cons_of_mem _ hf))

/-- C19.  If the container announces more than one frame and the demuxer
delivers no sub-frame, the full `decode::webp` returns the error
"Failed to get initial frame", not an animation with an empty frame list. -/
theorem webp_no_first_frame (data : WebPData) (demux : WebPDemuxer)
    (hdm : data.demux = some demux)
    (hcount : 1 < WebPDemuxGetI demux .WEBP_FF_FRAME_COUNT) (hnone : demux.frames = []) :
    webp data = some (.error "Failed to get initial frame") := by
  unfold webp webpInner
  simp only [hdm, if_neg (Nat.not_le.mpr hcount), Bool.false_eq_true, if_false, hnone]

theorem webp_no_first_frame_witness :
    webp emptyData = some (.error "Failed to get initial frame") :=
  webp_no_first_frame emptyData emptyDemux rfl (by decide) rfl

/-- C18.  In a multi-frame container in which some sub-frame, the first or a
later one, does not decode: every full `decode::webp` that returns a value
returns the error "Failed to decode animation frame", never an animation; and
it does return that error when the canvas takes less than `2 ^ 31` bytes and
the sub-frames before the failing one fit the canvas, however many they are. -/
theorem webp_frame_failure_aborts (data : WebPData) (demux : WebPDemuxer)
    (pre post : List WebPIterator) (bad : WebPIterator)
    (hdm : data.demux = some demux)
    (hcount : 1 < WebPDemuxGetI demux .WEBP_FF_FRAME_COUNT)
    (hframes : demux.frames = pre ++ bad :: post)
    (hbad : frameDecoded (animHasAlpha demux) bad = none) :
    (∀ r, webp data = some r → r = .error "Failed to decode animation frame") ∧
    (demux.canvasWidth < 2 ^ 31 → demux.canvasHeight < 2 ^ 31 →
      demux.canvasWidth * demux.canvasHeight * channels (animHasAlpha demux) < 2 ^ 31 →
      (∀ f ∈ pre, FrameFits (animHasAlpha demux) demux.canvasWidth demux.canvasHeight f) →
      webp data = some (.error "Failed to decode animation frame")) := by
  have eha : ((WebPDemuxGetI demux .WEBP_FF_FORMAT_FLAGS &&& ANIMATION_FLAG) != 0) =
      animHasAlpha demux := rfl
  cases hfr : demux.frames with
  | nil =>
    rw [hfr] at hframes
    cases pre <;> simp at hframes
  | cons iter rest =>
    rw [hfr] at hframes
    constructor
    · intro r h
      unfold webp webpInner at h
      simp only [hdm, if_neg (Nat.not_le.mpr hcount), eha, hfr, Bool.false_eq_true, if_false,
        -Nat.reducePow] at h
      have hmem : ∃ f ∈ iter :: rest, frameDecoded (animHasAlpha demux) f = none :=
        ⟨bad, by rw [hframes]; simp, hbad⟩
      split at h
      · exact absurd h (by simp)
      · rename_i e hl
        have he := webpLoop_abort _ _ _ _ rest iter _ [] _ hmem hl
        simp only [Except.error.injEq] at he
        subst he
        simp only [Option.some.injEq] at h
        exact h.symm
      · rename_i frames hl
        have he := webpLoop_abort _ _ _ _ rest iter _ [] _ hmem hl
        exact absurd he (by simp)
    · intro hW hH hsz hfit
      have ecw : WebPDemuxGetI demux .WEBP_FF_CANVAS_WIDTH = demux.canvasWidth :=
        Nat.mod_eq_of_lt (by omega)
      have ech : WebPDemuxGetI demux .WEBP_FF_CANVAS_HEIGHT = demux.canvasHeight :=
        Nat.mod_eq_of_lt (by omega)
      have esz : demux.canvasWidth * demux.canvasHeight * channels (animHasAlpha demux) % 2 ^ 32 =
          demux.canvasWidth * demux.canvasHeight * channels (animHasAlpha demux) :=
        Nat.mod_eq_of_lt (by omega)
      have hl := webpLoop_abort_defined (animHasAlpha demux) demux.canvasWidth
        demux.canvasHeight (demux.canvasWidth * demux.canvasHeight * channels (animHasAlpha demux))
        hW hH rfl hsz bad post hbad pre iter rest
        (List.replicate
          (demux.canvasWidth * demux.canvasHeight * channels (animHasAlpha demux)) 0) []
        hframes (by simp) hfit
      unfold webp webpInner
      simp only [hdm, ecw, ech, eha, esz, hfr, if_neg (Nat.not_le.mpr hcount),
        Bool.false_eq_true, if_false, hl]

set_option maxRecDepth 100000 in
theorem webp_frame_failure_aborts_witness :
    (∀ r, webp brokenData = some r → r = .error "Failed to decode animation frame") ∧
    webp brokenData = some (.error "Failed to decode animation frame") :=
  have h := webp_frame_failure_aborts brokenData brokenDemux [pixelFrame] [pixelFrame]
    brokenFrame rfl (by decide) rfl rfl
  ⟨h.1, h.2 (by decide) (by decide) (by decide) (by decide)⟩

/-- An animation that `decode::webp` returns carries as `hasAlpha` the test of
the format flags against `ANIMATION_FLAG`. -/
theorem webp_animation_hasAlpha (data : WebPData) (demux : WebPDemuxer) (anim : DecodedAnimation)
    (hdm : data.demux = some demux) (h : webp data = some (.ok (.animation anim))) :
    anim.hasAlpha = animHasAlpha demux := by
  have eha : ((WebPDemuxGetI demux .WEBP_FF_FORMAT_FLAGS &&& ANIMATION_FLAG) != 0) =
      animHasAlpha demux := rfl
  unfold webp webpInner at h
  simp only [hdm, eha, Bool.false_eq_true, if_false, -Nat.reducePow] at h
  split at h
  · split at h
    · exact absurd h (by simp)
    · split at h
      · exact absurd h (by simp)
      · exact absurd h (by simp)
  · split at h
    · exact absurd h (by simp)
    · split at h
      · exact absurd h (by simp)
      · exact absurd h (by simp)
      · simp only [Option.some.injEq, Except.ok.injEq, DecodedResult.animation.injEq] at h
        rw [← h]

set_option maxRecDepth 100000 in
/-- C11, at the failing input.  The animation `animOnlyData` has the animation
flag set and the alpha flag clear in its format flags; `decode::webp` returns
it with `hasAlpha = true` and frames of 4 bytes per pixel.  In general the
`hasAlpha` of a returned animation is the test of the format flags against
`ANIMATION_FLAG`, not against `ALPHA_FLAG`. -/
theorem webp_animation_flag_as_alpha :
    animOnlyDemux.formatFlags &&& ALPHA_FLAG = 0 ∧
    animOnlyDemux.formatFlags &&& ANIMATION_FLAG ≠ 0 ∧
    webp animOnlyData = some (.ok (.animation
      { loopCount := 0
        hasAlpha := true
        width := 1
        height := 1
        frames := [{ data := [1, 2, 3, 255], delay := 40 },
                   { data := [1, 2, 3, 255], delay := 40 }] })) ∧
    ∀ (data : WebPData) (demux : WebPDemuxer) (anim : DecodedAnimation),
      data.demux = some demux → webp data = some (.ok (.animation anim)) →
      anim.hasAlpha = ((WebPDemuxGetI demux .WEBP_FF_FORMAT_FLAGS &&& ANIMATION_FLAG) != 0) :=
  ⟨by decide, by decide, rfl, fun data demux anim hdm h =>
    webp_animation_hasAlpha data demux anim hdm h⟩

set_option maxRecDepth 100000 in
/-- C12, at the failing inputs.  `decode::webpHeader` is the same function as
the full `decode::webp`: on the still image `stillData` it returns the decoded
pixels, and on the animation `smallData` it returns both composited frames. -/
theorem webpHeader_decodes_pixels :
    (∀ data, webpHeader data = webp data) ∧
    webpHeader stillData = some (.ok (.image
      { data := some [9, 8, 7, 6]
        width := 1
        height := 1
        bit_depth := none
        hasAlpha := true })) ∧
    webpHeader smallData = some (.ok (.animation
      { loopCount := 3
        hasAlpha := true
        width := 2
        height := 2
        frames := [{ data := [1, 2, 3, 255, 0, 0, 0, 0, 0, 0, 0, 0, 0, 0, 0, 0], delay := 40 },
                   { data := [1, 2, 3, 255, 1, 2, 3, 255, 0, 0, 0, 0, 0, 0, 0, 0],
                     delay := 70 }] })) :=
  ⟨fun _ => rfl, rfl, rfl⟩

/-- C13, at the failing input.  The animation `wideData`, whose container
reports a canvas of 65536 by 1 pixels, is not rejected: `decode::webp` returns
an animation of width 0 and height 1.  The static path has no check either:
whenever the features are read and the pixels decode, the result is `Ok` with
the reported dimensions reduced modulo `2 ^ 16`. -/
theorem webp_no_dimension_guard :
    wideDemux.canvasWidth = 65536 ∧
    (∃ frames, webp wideData = some (.ok (.animation
      { loopCount := 0
        hasAlpha := true
        width := 0
        height := 1
        frames := frames }))) ∧
    ∀ (data : WebPData) (demux : WebPDemuxer) (feats : WebPBitstreamFeatures)
      (decoded : List Nat), data.demux = some demux →
      WebPDemuxGetI demux .WEBP_FF_FRAME_COUNT ≤ 1 → data.features = some feats →
      (if feats.has_alpha != 0 then data.decodeRGBA else data.decodeRGB) = some decoded →
      webp data = some (.ok (.image
        { data := some decoded
          width := feats.width % 2 ^ 16
          height := feats.height % 2 ^ 16
          bit_depth := none
          hasAlpha := feats.has_alpha != 0 })) := by
  refine ⟨rfl, ?_, fun data demux feats decoded hdm hc hf hd =>
    webp_still data demux feats decoded hdm hc hf hd⟩
  obtain ⟨frames, hw, _⟩ := webp_animation wideData wideDemux rfl (by decide) (by decide)
  exact ⟨frames, hw⟩

/-! ## The PNG adapter: header validation, buffer check and round trip -/

/-- When `parseHeader` succeeds: the context exists, the buffer is set, the
header is read and both dimensions are at most 65535. -/
theorem parseHeader_ok (src : PngSource) (ihdr : spng_ihdr) :
    decode.parseHeader src = .ok ihdr ↔
      src.spng_ctx_new = true ∧ src.spng_set_png_buffer = true ∧
        src.spng_get_ihdr = some ihdr ∧ ihdr.width ≤ 65535 ∧ ihdr.height ≤ 65535 := by
  unfold decode.parseHeader
  cases hc : src.spng_ctx_new <;> cases hb : src.spng_set_png_buffer <;>
    cases hi : src.spng_get_ihdr with
    | none => simp
    | some hdr =>
      by_cases hd : hdr.width > 65535 ∨ hdr.height > 65535
      · have hd' : (decide (hdr.width > 65535) || decide (hdr.height > 65535)) = true := by
          simpa using hd
        simp only [hd', Bool.not_true, Bool.not_false, Bool.or_self, Bool.or_true, Bool.or_false,
          Bool.false_eq_true, if_true, if_false, true_and, false_and, and_true,
          Option.some.injEq, reduceCtorEq, false_iff, not_and, not_le]
        first
          | done
          | (intro h; subst h; omega)
      · have hd' : (decide (hdr.width > 65535) || decide (hdr.height > 65535)) = false := by
          simpa using hd
        simp only [hd', Bool.not_true, Bool.not_false, Bool.or_self, Bool.or_true, Bool.or_false,
          Bool.false_eq_true, if_true, if_false, true_and, false_and, and_true,
          Option.some.injEq, reduceCtorEq, Except.ok.injEq]
        first
          | done
          | (constructor
             · intro h; subst h; exact ⟨rfl, by omega⟩
             · intro h; exact h.1)

/-- A header with a dimension above 65535 makes `parseHeader` fail, with the
dimension error when the context exists and the buffer is set. -/
theorem parseHeader_too_large (src : PngSource) (ihdr : spng_ihdr)
    (hi : src.spng_get_ihdr = some ihdr) (hbig : 65535 < ihdr.width ∨ 65535 < ihdr.height) :
    ∃ e, decode.parseHeader src = .error e ∧
      (src.spng_ctx_new = true → src.spng_set_png_buffer = true →
        e = "PNG image dimensions exceed 65535 pixels") := by
  have hd : (decide (ihdr.width > 65535) || decide (ihdr.height > 65535)) = true := by
    simpa using hbig
  unfold decode.parseHeader
  by_cases hc : (!src.spng_ctx_new || !src.spng_set_png_buffer) = true
  · refine ⟨_, by rw [if_pos hc], ?_⟩
    intro h1 h2
    rw [h1, h2] at hc
    exact absurd hc (by decide)
  · refine ⟨"PNG image dimensions exceed 65535 pixels", ?_, fun _ _ => rfl⟩
    rw [if_neg hc]
    simp only [hi, hd, if_true]

theorem png_of_parse_error (src : PngSource) (e : String)
    (h : decode.parseHeader src = .error e) : decode.png src = .error e := by
  unfold decode.png
  rw [h]

theorem pngHeader_of_parse_error (src : PngSource) (e : String)
    (h : decode.parseHeader src = .error e) : decode.pngHeader src = .error e := by
  unfold decode.pngHeader
  rw [h]

theorem pngInto_of_parse_error (src : PngSource) (e : String) (buf : List Nat) (bufSize : Nat)
    (h : decode.parseHeader src = .error e) :
    decode.pngInto src buf bufSize = (.error e, buf) := by
  unfold decode.pngInto
  rw [h]

/-- A successful `decode::png` went through a successful `parseHeader`, and
its metadata are those of the header. -/
theorem png_ok (src : PngSource) (img : DecodedImage) (h : decode.png src = .ok img) :
    ∃ ihdr, decode.parseHeader src = .ok ihdr ∧ img.width = ihdr.width % 2 ^ 16 ∧
      img.height = ihdr.height % 2 ^ 16 ∧ img.bit_depth = some ihdr.bit_depth ∧
      img.hasAlpha = decode.hasAlpha := by
  unfold decode.png at h
  split at h
  · exact absurd h (by simp)
  · rename_i ihdr hp
    refine ⟨ihdr, hp, ?_⟩
    simp only [decode.hasAlpha, if_true] at h
    split at h
    · exact absurd h (by simp)
    · split at h
      · exact absurd h (by simp)
      · simp only [Except.ok.injEq] at h
        rw [← h]
        exact ⟨rfl, rfl, rfl, rfl⟩

/-- The value of `decode::pngHeader` after a successful `parseHeader`. -/
theorem pngHeader_of_parse_ok (src : PngSource) (ihdr : spng_ihdr)
    (h : decode.parseHeader src = .ok ihdr) :
    decode.pngHeader src = .ok
      { data := none
        width := ihdr.width % 2 ^ 16
        height := ihdr.height % 2 ^ 16
        bit_depth := some ihdr.bit_depth
        hasAlpha := decode.hasAlpha } := by
  unfold decode.pngHeader
  rw [h]

/-- A successful `decode::pngInto` went through a successful `parseHeader` and
returns the size libspng asks for the RGBA8 format. -/
theorem pngInto_ok (src : PngSource) (buf : List Nat) (bufSize n : Nat) (out : List Nat)
    (h : decode.pngInto src buf bufSize = (.ok n, out)) :
    ∃ ihdr, decode.parseHeader src = .ok ihdr ∧
      src.spng_decoded_image_size SPNG_FMT_RGBA8 = some n ∧ n ≤ bufSize := by
  unfold decode.pngInto at h
  split at h
  · exact absurd h (by simp)
  · rename_i ihdr hp
    refine ⟨ihdr, hp, ?_⟩
    simp only [decode.hasAlpha, if_true] at h
    split at h
    · exact absurd h (by simp)
    · rename_i totalSize hs
      split at h
      · exact absurd h (by simp)
      · rename_i hlt
        split at h
        · exact absurd h (by simp)
        · simp only [Prod.mk.injEq, Except.ok.injEq] at h
          rw [← h.1]
          exact ⟨hs, Nat.le_of_not_lt hlt⟩

/-- C14.  For a PNG whose IHDR is read: if its width or height exceeds 65535,
`decode::png`, `decode::pngHeader` and `decode::pngInto` all fail with the same
error, which is the dimension error when the context exists and the buffer is
set; this holds whatever `spng_decoded_image_size` and `spng_decode_image`
would do, and `pngInto` leaves the caller's buffer as it was.  Whenever `png`
or `pngHeader` succeeds, the returned width and height are the IHDR's width and
height, and whenever `pngInto` succeeds both are at most 65535. -/
theorem png_dimension_guard (src : PngSource) (ihdr : spng_ihdr)
    (hi : src.spng_get_ihdr = some ihdr) :
    (65535 < ihdr.width ∨ 65535 < ihdr.height →
      ∃ e, (src.spng_ctx_new = true → src.spng_set_png_buffer = true →
            e = "PNG image dimensions exceed 65535 pixels") ∧
        ∀ (g : spng_format → Option Nat) (f : spng_format → Nat → List Nat → Nat → Bool × List Nat)
          (buf : List Nat) (bufSize : Nat),
          decode.png { src with spng_decoded_image_size := g, spng_decode_image := f } =
            .error e ∧
          decode.pngHeader { src with spng_decoded_image_size := g, spng_decode_image := f } =
            .error e ∧
          decode.pngInto { src with spng_decoded_image_size := g, spng_decode_image := f }
            buf bufSize = (.error e, buf)) ∧
    (∀ img, decode.png src = .ok img → img.width = ihdr.width ∧ img.height = ihdr.height) ∧
    (∀ img, decode.pngHeader src = .ok img →
      img.width = ihdr.width ∧ img.height = ihdr.height) ∧
    (∀ buf bufSize n out, decode.pngInto src buf bufSize = (.ok n, out) →
      ihdr.width ≤ 65535 ∧ ihdr.height ≤ 65535) := by
  have key : ∀ hdr, decode.parseHeader src = .ok hdr →
      hdr = ihdr ∧ ihdr.width ≤ 65535 ∧ ihdr.height ≤ 65535 := by
    intro hdr hp
    obtain ⟨_, _, hi', hw, hh⟩ := (parseHeader_ok src hdr).mp hp
    rw [hi] at hi'
    have e : ihdr = hdr := Option.some.inj hi'
    subst e
    exact ⟨rfl, hw, hh⟩
  refine ⟨?_, ?_, ?_, ?_⟩
  · intro hbig
    obtain ⟨e, he, hmsg⟩ := parseHeader_too_large src ihdr hi hbig
    refine ⟨e, hmsg, fun g f buf bufSize => ?_⟩
    have he' : decode.parseHeader
        { src with spng_decoded_image_size := g, spng_decode_image := f } = .error e := he
    exact ⟨png_of_parse_error _ e he', pngHeader_of_parse_error _ e he',
      pngInto_of_parse_error _ e buf bufSize he'⟩
  · intro img h
    obtain ⟨hdr, hp, hw, hh, _, _⟩ := png_ok src img h
    obtain ⟨e, h1, h2⟩ := key hdr hp
    subst e
    rw [hw, hh]
    exact ⟨Nat.mod_eq_of_lt (by omega), Nat.mod_eq_of_lt (by omega)⟩
  · intro img h
    cases hp : decode.parseHeader src with
    | error e =>
      rw [pngHeader_of_parse_error src e hp] at h
      exact absurd h (by simp)
    | ok hdr =>
      rw [pngHeader_of_parse_ok src hdr hp] at h
      obtain ⟨e, h1, h2⟩ := key hdr hp
      subst e
      simp only [Except.ok.injEq] at h
      rw [← h]
      exact ⟨Nat.mod_eq_of_lt (by omega), Nat.mod_eq_of_lt (by omega)⟩
  · intro buf bufSize n out h
    obtain ⟨hdr, hp, _, _⟩ := pngInto_ok src buf bufSize n out h
    exact (key hdr hp).2

theorem png_dimension_guard_witness :
    (∃ e, e = "PNG image dimensions exceed 65535 pixels" ∧
      decode.png (rawView wideRaw) = .error e ∧ decode.pngHeader (rawView wideRaw) = .error e ∧
      decode.pngInto (rawView wideRaw) [7, 7] 2 = (.error e, [7, 7])) ∧
    (∀ img, decode.png (rawView raw2x2) = .ok img → img.width = 2 ∧ img.height = 2) ∧
    ∃ img, decode.png (rawView raw2x2) = .ok img :=
  ⟨by
    obtain ⟨e, he, h⟩ := (png_dimension_guard (rawView wideRaw)
      { width := 65536, height := 1, bit_depth := 8, color_type := SPNG_COLOR_TYPE_TRUECOLOR }
      rfl).1 (Or.inl (by decide))
    exact ⟨e, he rfl rfl, h (rawView wideRaw).spng_decoded_image_size
      (rawView wideRaw).spng_decode_image [7, 7] 2⟩,
   (png_dimension_guard (rawView raw2x2)
      { width := 2, height := 2, bit_depth := 8, color_type := SPNG_COLOR_TYPE_TRUECOLOR }
      rfl).2.1,
   ⟨_, rfl⟩⟩

/-- C16.  `decode::pngHeader` succeeds exactly when `parseHeader` does, that
is when the context exists, the buffer is set, the IHDR is read and both
dimensions are at most 65535; its result has no pixel buffer and does not
depend on what libspng would say about the image data; a header error is the
result of `pngHeader` and of `png` alike; and whenever `decode::png` succeeds,
`pngHeader` succeeds with the same width, height, bit depth and `hasAlpha`. -/
theorem pngHeader_validates_like_png (src : PngSource) :
    ((∃ img, decode.pngHeader src = .ok img) ↔
      src.spng_ctx_new = true ∧ src.spng_set_png_buffer = true ∧
        ∃ ihdr, src.spng_get_ihdr = some ihdr ∧ ihdr.width ≤ 65535 ∧ ihdr.height ≤ 65535) ∧
    (∀ img, decode.pngHeader src = .ok img → img.data = none) ∧
    (∀ e, decode.parseHeader src = .error e →
      decode.pngHeader src = .error e ∧ decode.png src = .error e) ∧
    (∀ img, decode.png src = .ok img →
      decode.pngHeader src = .ok { img with data := none }) ∧
    (∀ (g : spng_format → Option Nat) (f : spng_format → Nat → List Nat → Nat → Bool × List Nat),
      decode.pngHeader { src with spng_decoded_image_size := g, spng_decode_image := f } =
        decode.pngHeader src) := by
  refine ⟨⟨?_, ?_⟩, ?_, ?_, ?_, fun _ _ => rfl⟩
  · rintro ⟨img, h⟩
    cases hp : decode.parseHeader src with
    | error e =>
      rw [pngHeader_of_parse_error src e hp] at h
      exact absurd h (by simp)
    | ok ihdr =>
      obtain ⟨hc, hb, hi, hw, hh⟩ := (parseHeader_ok src ihdr).mp hp
      exact ⟨hc, hb, ihdr, hi, hw, hh⟩
  · rintro ⟨hc, hb, ihdr, hi, hw, hh⟩
    exact ⟨_, pngHeader_of_parse_ok src ihdr ((parseHeader_ok src ihdr).mpr ⟨hc, hb, hi, hw, hh⟩)⟩
  · intro img h
    cases hp : decode.parseHeader src with
    | error e =>
      rw [pngHeader_of_parse_error src e hp] at h
      exact absurd h (by simp)
    | ok ihdr =>
      rw [pngHeader_of_parse_ok src ihdr hp] at h
      simp only [Except.ok.injEq] at h
      rw [← h]
  · intro e hp
    exact ⟨pngHeader_of_parse_error src e hp, png_of_parse_error src e hp⟩
  · intro img h
    obtain ⟨ihdr, hp, hw, hh, hb, ha⟩ := png_ok src img h
    rw [pngHeader_of_parse_ok src ihdr hp, ← hw, ← hh, ← hb, ← ha]

/-- C17.  For a PNG whose header parses (context, buffer and IHDR fine, both
dimensions at most 65535) and for which libspng asks `N` bytes for the decoded
image: with `bufSize < N`, `decode::pngInto` returns the error
"Output buffer is too small for decoded PNG image" and the caller's buffer is
as it was, whatever `spng_decode_image` would do; with `N ≤ bufSize`, every
successful call returns `N`, and the call is successful, with the buffer as
`spng_decode_image` left it, when `spng_decode_image` succeeds. -/
theorem pngInto_checks_buffer_first (src : PngSource) (ihdr : spng_ihdr) (N : Nat)
    (buf : List Nat) (bufSize : Nat)
    (hctx : src.spng_ctx_new = true) (hbuf : src.spng_set_png_buffer = true)
    (hi : src.spng_get_ihdr = some ihdr) (hw : ihdr.width ≤ 65535) (hh : ihdr.height ≤ 65535)
    (hN : src.spng_decoded_image_size SPNG_FMT_RGBA8 = some N) :
    (bufSize < N →
      ∀ f : spng_format → Nat → List Nat → Nat → Bool × List Nat,
        decode.pngInto { src with spng_decode_image := f } buf bufSize =
          (.error "Output buffer is too small for decoded PNG image", buf)) ∧
    (N ≤ bufSize →
      (∀ n out, decode.pngInto src buf bufSize = (.ok n, out) → n = N) ∧
      ((src.spng_decode_image SPNG_FMT_RGBA8 SPNG_DECODE_TRNS buf bufSize).1 = true →
        decode.pngInto src buf bufSize =
          (.ok N, (src.spng_decode_image SPNG_FMT_RGBA8 SPNG_DECODE_TRNS buf bufSize).2))) := by
  have hp : decode.parseHeader src = .ok ihdr :=
    (parseHeader_ok src ihdr).mpr ⟨hctx, hbuf, hi, hw, hh⟩
  refine ⟨?_, ?_⟩
  · intro hlt f
    have hp' : decode.parseHeader { src with spng_decode_image := f } = .ok ihdr := hp
    unfold decode.pngInto
    rw [hp']
    simp only [decode.hasAlpha, if_true, hN, if_pos hlt]
  · intro hle
    refine ⟨?_, ?_⟩
    · intro n out h
      obtain ⟨_, _, hs, _⟩ := pngInto_ok src buf bufSize n out h
      rw [hN] at hs
      exact (Option.some.inj hs).symm
    · intro hd
      unfold decode.pngInto
      rw [hp]
      simp only [decode.hasAlpha, if_true, hN, if_neg (Nat.not_lt.mpr hle), hd, Bool.not_true,
        Bool.false_eq_true, if_false]

theorem pngInto_checks_buffer_first_witness :
    decode.pngInto (rawView raw2x2) (List.replicate 15 0) 15 =
      (.error "Output buffer is too small for decoded PNG image", List.replicate 15 0) ∧
    decode.pngInto (rawView raw2x2) (List.replicate 16 0) 16 =
      (.ok 16, [10, 20, 30, 255, 40, 50, 60, 255, 70, 80, 90, 255, 100, 110, 120, 255]) :=
  ⟨(pngInto_checks_buffer_first (rawView raw2x2)
      { width := 2, height := 2, bit_depth := 8, color_type := SPNG_COLOR_TYPE_TRUECOLOR } 16
      (List.replicate 15 0) 15 rfl rfl rfl (by decide) (by decide) rfl).1 (by decide)
      (rawView raw2x2).spng_decode_image,
   ((pngInto_checks_buffer_first (rawView raw2x2)
      { width := 2, height := 2, bit_depth := 8, color_type := SPNG_COLOR_TYPE_TRUECOLOR } 16
      (List.replicate 16 0) 16 rfl rfl rfl (by decide) (by decide) rfl).2 (by decide)).2 rfl⟩

/-- C15, the claim as written fails.  No successful `decode::png` reports
`hasAlpha = false`; the stand-in codec shows the round trip of the 2 by 2 RGB
image `rgb2x2`: the decoder returns `hasAlpha = true` and 16 bytes, not the 12
bytes that went in. -/
theorem png_decode_reports_alpha :
    (∀ src img, decode.png src = .ok img → img.hasAlpha = true) ∧
    encode.png rawEncoder (some rgb2x2) 2 2 false = some (.ok raw2x2) ∧
    decode.png (rawView raw2x2) = .ok
      { data := some [10, 20, 30, 255, 40, 50, 60, 255, 70, 80, 90, 255, 100, 110, 120, 255]
        width := 2
        height := 2
        bit_depth := some 8
        hasAlpha := true } ∧
    rgb2x2.length = 12 :=
  ⟨fun src img h => by
    obtain ⟨_, _, _, _, _, ha⟩ := png_ok src img h
    exact ha, rfl, rfl, rfl⟩

/-- C15, amended.  Under the round-trip behaviour `SpngRoundTrip` of libspng
for an RGB8 image of `w` by `h` pixels, both at most 65535: `encode::png` with
`hasAlpha = false` returns a buffer, and `decode::png` on that buffer returns
width `w`, height `h`, bit depth 8, `hasAlpha = true` and the RGBA8 pixels, each
original pixel followed by the alpha byte 255. -/
theorem png_round_trip (lib : SpngEncoder) (view : List Nat → PngSource) (w h : Nat)
    (image : List Nat) (hw : w ≤ 65535) (hh : h ≤ 65535) (hlen : image.length = w * h * 3)
    (hlib : SpngRoundTrip lib view w h image) :
    ∃ bytes, encode.png lib (some image) w h false = some (.ok bytes) ∧
      decode.png (view bytes) = .ok
        { data := some (addAlpha image)
          width := w
          height := h
          bit_depth := some 8
          hasAlpha := true } := by
  obtain ⟨hc, ho, hs, he, bytes, hb, vc, vb, vi, vs, vd⟩ := hlib
  refine ⟨bytes, ?_, ?_⟩
  · unfold encode.png
    simp only [hc, ho, Bool.not_true, Bool.false_eq_true, if_false, hs, hlen, lt_irrefl, he, hb]
  · have hp : decode.parseHeader (view bytes) = .ok
        { width := w, height := h, bit_depth := 8, color_type := SPNG_COLOR_TYPE_TRUECOLOR } :=
      (parseHeader_ok _ _).mpr ⟨vc, vb, vi, hw, hh⟩
    unfold decode.png
    rw [hp]
    simp only [decode.hasAlpha, if_true, vs, vd _ (List.length_replicate _ _), Bool.not_true,
      Bool.false_eq_true, if_false, Nat.mod_eq_of_lt (show w < 2 ^ 16 by omega),
      Nat.mod_eq_of_lt (show h < 2 ^ 16 by omega)]

theorem png_round_trip_witness :
    ∃ bytes, encode.png rawEncoder (some rgb2x2) 2 2 false = some (.ok bytes) ∧
      decode.png (rawView bytes) = .ok
        { data := some [10, 20, 30, 255, 40, 50, 60, 255, 70, 80, 90, 255, 100, 110, 120, 255]
          width := 2
          height := 2
          bit_depth := some 8
          hasAlpha := true } :=
  png_round_trip rawEncoder rawView 2 2 rgb2x2 (by decide) (by decide) rfl
    ⟨rfl, rfl, rfl, rfl, raw2x2, rfl, rfl, rfl, rfl, rfl, fun out hout => by
      have e : out.drop 16 = [] := List.drop_of_length_le (by rw [hout])
      show (if 16 < 16 then (false, out) else (true, addAlpha rgb2x2 ++ out.drop 16)) =
        (true, addAlpha rgb2x2)
      rw [if_neg (by decide), e, List.append_nil]⟩

/-! ## The animation encoder: empty animations -/

/-- C20.  For every animation whose frame list is empty, whatever its width,
height, `hasAlpha`, loop count and the quality, and whatever libwebp would do
(no call to it is made), `encode::webp` returns the error
"Animation has no frames". -/
theorem webpAnim_no_frames {Enc Pic : Type} (lib : AnimEncoderLib Enc Pic)
    (anim : DecodedAnimation) (quality : ℚ) (h : anim.frames = []) :
    encode.webpAnim lib anim quality = some (.error "Animation has no frames") := by
  unfold encode.webpAnim
  rw [h]
  rfl

theorem webpAnim_no_frames_witness :
    encode.webpAnim recordingLib emptyAnim 75 = some (.error "Animation has no frames") :=
  webpAnim_no_frames recordingLib emptyAnim 75 rfl

/-! ## The animation encoder: timestamps -/

theorem toInt32_of_lt (n : Nat) (h : n < 2 ^ 31) : toInt32 n = n := by
  unfold toInt32
  omega

theorem toInt32_emod (n : Int) : toInt32 n % 2 ^ 32 = n % 2 ^ 32 := by
  unfold toInt32
  omega

theorem toInt32_range (n : Int) : -2 ^ 31 ≤ toInt32 n ∧ toInt32 n < 2 ^ 31 := by
  unfold toInt32
  omega

theorem toInt32_add (a b : Int) : toInt32 (toInt32 a + b) = toInt32 (a + b) := by
  unfold toInt32
  omega

theorem delaySum_append (pre : List AnimationFrame) (frame : AnimationFrame) :
    delaySum (pre ++ [frame]) = delaySum pre + frame.delay := by
  unfold delaySum
  simp

theorem delaySum_take_le (frames : List AnimationFrame) (i : Nat) :
    delaySum (frames.take i) ≤ delaySum frames := by
  induction frames generalizing i with
  | nil => simp
  | cons f fs ih =>
    cases i with
    | zero => simp [delaySum]
    | succ i =>
      have := ih i
      unfold delaySum at this ⊢
      simp only [List.take_succ_cons, List.map_cons, List.sum_cons]
      omega

/-- The frame loop of the source, started after the frames `pre` with their
delays summed up, is the loop of the specification from index `pre.length`. -/
theorem webpAnimLoop_summed {Enc Pic : Type} (lib : AnimEncoderLib Enc Pic)
    (anim : DecodedAnimation) (quality : ℚ) :
    ∀ (rest pre : List AnimationFrame) (enc : Enc),
      encode.webpAnimLoop lib anim quality rest enc (toInt32 (delaySum pre)) =
        (encode.webpAnimLoopSummed lib anim quality (pre ++ rest) pre.length rest enc).map
          (fun r => r.map (fun e => (e, toInt32 (delaySum (pre ++ rest))))) := by
  intro rest
  induction rest with
  | nil =>
    intro pre enc
    simp [encode.webpAnimLoop, encode.webpAnimLoopSummed, Except.map]
  | cons frame frames ih =>
    intro pre enc
    have hts : frameTimestamp (pre ++ frame :: frames) pre.length = toInt32 (delaySum pre) := by
      unfold frameTimestamp
      rw [List.take_left]
    have hnext : toInt32 (toInt32 (delaySum pre) + frame.delay) =
        toInt32 (delaySum (pre ++ [frame])) := by
      rw [toInt32_add, delaySum_append]
      push_cast
      rfl
    have happ : pre ++ frame :: frames = (pre ++ [frame]) ++ frames := by simp
    have hlen : (pre ++ [frame]).length = pre.length + 1 := by simp
    unfold encode.webpAnimLoop encode.webpAnimLoopSummed
    simp only [hts]
    by_cases h1 : (!lib.WebPConfigInit) = true
    · simp only [h1, if_true, Option.map_some', Except.map]
    · by_cases h2 : (!lib.WebPValidateConfig
          { quality := quality, method := 4, lossless := decide (quality ≥ 99) }) = true
      · simp only [h1, h2, if_true, if_false, Bool.false_eq_true, Option.map_some', Except.map]
      · by_cases h3 : (!lib.WebPPictureInit) = true
        · simp only [h1, h2, h3, if_true, if_false, Bool.false_eq_true, Option.map_some',
            Except.map]
        · by_cases h4 : frame.data.length < anim.width * anim.height * channels anim.hasAlpha
          · simp only [h1, h2, h3, h4, if_true, if_false, Bool.false_eq_true, Option.map_none']
          · simp only [h1, h2, h3, h4, if_true, if_false, Bool.false_eq_true]
            split
            · rename_i hs
              simp only [hs, Option.map_some', Except.map]
            · rename_i picture hs
              try simp only [hs]
              split
              · rename_i ha
                simp only [ha, Option.map_some', Except.map]
              · rename_i enc2 ha
                try simp only [ha]
                rw [hnext, ih (pre ++ [frame]) enc2, happ, hlen]

/-- C21.  The animation encoder of the source is the encoder of the
specification, for every behaviour of libwebp: frame `i` is added with the
timestamp `frameTimestamp anim.frames i`, the sum of the delays of the frames
before it (0 for the first frame) as a 32-bit `int`, and the finalising call is
made with the sum of all delays.  When the total of the delays is below
`2 ^ 31` every timestamp is that sum itself; in general it is the `int`
congruent to the sum modulo `2 ^ 32`. -/
theorem webpAnim_timestamps {Enc Pic : Type} (lib : AnimEncoderLib Enc Pic)
    (anim : DecodedAnimation) (quality : ℚ) :
    encode.webpAnim lib anim quality = encode.webpAnimSummed lib anim quality ∧
    frameTimestamp anim.frames 0 = 0 ∧
    delaySum (anim.frames.take anim.frames.length) = delaySum anim.frames ∧
    (delaySum anim.frames < 2 ^ 31 →
      ∀ i, frameTimestamp anim.frames i = delaySum (anim.frames.take i)) ∧
    (∀ i, frameTimestamp anim.frames i % 2 ^ 32 = delaySum (anim.frames.take i) % 2 ^ 32 ∧
      -2 ^ 31 ≤ frameTimestamp anim.frames i ∧ frameTimestamp anim.frames i < 2 ^ 31) := by
  refine ⟨?_, ?_, ?_, ?_, ?_⟩
  · have h0 : (0 : Int) = toInt32 (delaySum ([] : List AnimationFrame)) := by
      unfold toInt32 delaySum
      simp
    have hloop := fun enc => webpAnimLoop_summed lib anim quality anim.frames [] enc
    simp only [List.nil_append, List.length_nil] at hloop
    have hfin : frameTimestamp anim.frames anim.frames.length = toInt32 (delaySum anim.frames) := by
      unfold frameTimestamp
      rw [List.take_length]
    unfold encode.webpAnim encode.webpAnimSummed
    split
    · rfl
    · split
      · rfl
      · cases lib.WebPAnimEncoderNew anim.width anim.height 1 9 with
        | none => rfl
        | some enc =>
          simp only []
          rw [h0, hloop enc, hfin]
          cases encode.webpAnimLoopSummed lib anim quality anim.frames 0 anim.frames enc with
          | none => rfl
          | some r =>
            cases r with
            | error e => rfl
            | ok e => rfl
  · unfold frameTimestamp toInt32 delaySum
    simp
  · rw [List.take_length]
  · intro htot i
    unfold frameTimestamp
    exact toInt32_of_lt _ (lt_of_le_of_lt (delaySum_take_le anim.frames i) htot)
  · intro i
    unfold frameTimestamp
    exact ⟨toInt32_emod _, toInt32_range _⟩

set_option maxRecDepth 100000 in
/-- The timestamps on two examples: with delays 40, 70 and 100 the frames are
added at 0, 40 and 110 and the animation is finalised at 210; with delays
`2 ^ 31 - 1` and 6 the finalising timestamp is `2 ^ 31 + 5 - 2 ^ 32`. -/
theorem webpAnim_timestamps_example :
    encode.webpAnim recordingLib threeFrames 75 = some (.ok [0, 40, 110, 210]) ∧
    frameTimestamp longFrames.frames 1 = 2147483647 ∧
    frameTimestamp longFrames.frames 2 = -2147483643 :=
  ⟨by rfl, by decide, by decide⟩

/-! ## The static WebP encoder: choice of the codec -/

/-- C22.  For an image that is not null (and holds the `width * height`
pixels the encoder reads): with `quality ≥ 99` the static `encode::webp`
returns what the lossless encoder gives, `WebPEncodeLosslessRGBA` with stride
`width * 4` when `hasAlpha` and `WebPEncodeLosslessRGB` with stride `width * 3`
otherwise, whatever the lossy encoders would do; with `quality < 99` it returns
what the lossy encoder gives at that quality, `WebPEncodeRGBA` with stride
`width * 4` or `WebPEncodeRGB` with stride `width * 3`, whatever the lossless
encoders would do.  A null image gives the error "Invalid image data" for every
behaviour of the four encoders. -/
theorem webp_codec_by_quality (lib : WebPEncoderLib) (image : List Nat) (width height : Nat)
    (hasAlpha : Bool) (quality : ℚ)
    (hlen : width * height * (if hasAlpha then 4 else 3) ≤ image.length) :
    (99 ≤ quality →
      encode.webp lib (some image) width height hasAlpha quality =
        some (encode.webpResult
          (if hasAlpha then lib.WebPEncodeLosslessRGBA image width height (width * 4)
           else lib.WebPEncodeLosslessRGB image width height (width * 3))) ∧
      ∀ f g, encode.webp { lib with WebPEncodeRGBA := f, WebPEncodeRGB := g } (some image)
          width height hasAlpha quality =
        encode.webp lib (some image) width height hasAlpha quality) ∧
    (quality < 99 →
      encode.webp lib (some image) width height hasAlpha quality =
        some (encode.webpResult
          (if hasAlpha then lib.WebPEncodeRGBA image width height (width * 4) quality
           else lib.WebPEncodeRGB image width height (width * 3) quality)) ∧
      ∀ f g, encode.webp { lib with WebPEncodeLosslessRGBA := f, WebPEncodeLosslessRGB := g }
          (some image) width height hasAlpha quality =
        encode.webp lib (some image) width height hasAlpha quality) ∧
    (∀ (other : WebPEncoderLib) (w h : Nat) (a : Bool) (q : ℚ),
      encode.webp other none w h a q = some (.error "Invalid image data")) := by
  have hnl : ¬ image.length < width * height * (if hasAlpha then 4 else 3) := Nat.not_lt.mpr hlen
  refine ⟨?_, ?_, fun _ _ _ _ _ => rfl⟩
  · intro hq
    have hq' : quality ≥ 99 := hq
    refine ⟨?_, fun f g => ?_⟩
    · unfold encode.webp
      simp only [if_neg hnl, if_pos hq']
    · unfold encode.webp
      simp only [if_neg hnl, if_pos hq']
  · intro hq
    have hq' : ¬ quality ≥ 99 := not_le.mpr hq
    refine ⟨?_, fun f g => ?_⟩
    · unfold encode.webp
      simp only [if_neg hnl, if_neg hq']
    · unfold encode.webp
      simp only [if_neg hnl, if_neg hq']

theorem webp_codec_by_quality_witness :
    encode.webp tagEncoders (some [1, 2, 3, 4]) 1 1 true 99 = some (.ok [1, 4]) ∧
    encode.webp tagEncoders (some [1, 2, 3, 4]) 1 1 false 75 = some (.ok [4, 3]) :=
  ⟨((webp_codec_by_quality tagEncoders [1, 2, 3, 4] 1 1 true 99 (by decide)).1
      (by norm_num)).1,
   ((webp_codec_by_quality tagEncoders [1, 2, 3, 4] 1 1 false 75 (by decide)).2.1
      (by norm_num)).1⟩

/-! ## The event-based API: guards of the wrappers -/

theorem isAvailable_false (r : Resolver) :
    (events.isAvailable r).1 = false ↔ (events.getFunctionTable r).1 = none := by
  unfold events.isAvailable
  cases (events.getFunctionTable r).1 <;> simp

/-- The pointer `getFunctionTable` returns: the cached table if there is one,
what the event delivers otherwise. -/
theorem getFunctionTable_fst (r : Resolver) :
    (events.getFunctionTable r).1 = match r.table with
      | none => r.event
      | some table => some table := by
  unfold events.getFunctionTable
  cases r.table <;> rfl

/-- The three cases of `IMAGE_PLUS_GEN_CHECK_FUNC`. -/
theorem check_cases (func : FunctionTable → Option (List Nat → Bool))
    (r : Resolver) (data : List Nat) :
    ((events.getFunctionTable r).1 = none → (events.IMAGE_PLUS_GEN_CHECK_FUNC func r data).1 = false) ∧
    (∀ table, (events.getFunctionTable r).1 = some table →
      (func table = none → (events.IMAGE_PLUS_GEN_CHECK_FUNC func r data).1 = false) ∧
      (∀ f, func table = some f → (events.IMAGE_PLUS_GEN_CHECK_FUNC func r data).1 = f data)) := by
  refine ⟨fun h => ?_, fun table h => ⟨fun hf => ?_, fun f hf => ?_⟩⟩
  · unfold events.IMAGE_PLUS_GEN_CHECK_FUNC
    simp only [h]
  · unfold events.IMAGE_PLUS_GEN_CHECK_FUNC
    simp only [h, hf]
  · unfold events.IMAGE_PLUS_GEN_CHECK_FUNC
    simp only [h, hf]

/-- The three cases of `IMAGE_PLUS_GEN_DECODE_FUNC1`. -/
theorem decode1_cases (func : FunctionTable → Option (List Nat → Except String DecodedImage))
    (r : Resolver) (data : List Nat) :
    ((events.getFunctionTable r).1 = none → (events.IMAGE_PLUS_GEN_DECODE_FUNC1 func r data).1 = .error "ImagePlus is not available") ∧
    (∀ table, (events.getFunctionTable r).1 = some table →
      (func table = none → (events.IMAGE_PLUS_GEN_DECODE_FUNC1 func r data).1 = .error "ImagePlus is not available") ∧
      (∀ f, func table = some f → (events.IMAGE_PLUS_GEN_DECODE_FUNC1 func r data).1 = f data)) := by
  refine ⟨fun h => ?_, fun table h => ⟨fun hf => ?_, fun f hf => ?_⟩⟩
  · unfold events.IMAGE_PLUS_GEN_DECODE_FUNC1
    simp only [h]
  · unfold events.IMAGE_PLUS_GEN_DECODE_FUNC1
    simp only [h, hf]
  · unfold events.IMAGE_PLUS_GEN_DECODE_FUNC1
    simp only [h, hf]

/-- The three cases of `IMAGE_PLUS_GEN_DECODE_FUNC2`. -/
theorem decode2_cases (func : FunctionTable → Option (List Nat → Except String DecodedResult))
    (r : Resolver) (data : List Nat) :
    ((events.getFunctionTable r).1 = none → (events.IMAGE_PLUS_GEN_DECODE_FUNC2 func r data).1 = .error "ImagePlus is not available") ∧
    (∀ table, (events.getFunctionTable r).1 = some table →
      (func table = none → (events.IMAGE_PLUS_GEN_DECODE_FUNC2 func r data).1 = .error "ImagePlus is not available") ∧
      (∀ f, func table = some f → (events.IMAGE_PLUS_GEN_DECODE_FUNC2 func r data).1 = f data)) := by
  refine ⟨fun h => ?_, fun table h => ⟨fun hf => ?_, fun f hf => ?_⟩⟩
  · unfold events.IMAGE_PLUS_GEN_DECODE_FUNC2
    simp only [h]
  · unfold events.IMAGE_PLUS_GEN_DECODE_FUNC2
    simp only [h, hf]
  · unfold events.IMAGE_PLUS_GEN_DECODE_FUNC2
    simp only [h, hf]

/-- The three cases of `IMAGE_PLUS_GEN_ENCODE_FUNC1`. -/
theorem encode1_cases (func : FunctionTable → Option (Option (List Nat) → Nat → Nat → Bool → Except String (List Nat)))
    (r : Resolver) (image : Option (List Nat)) (width height : Nat) (hasAlpha : Bool) :
    ((events.getFunctionTable r).1 = none → (events.IMAGE_PLUS_GEN_ENCODE_FUNC1 func r image width height hasAlpha).1 = .error "ImagePlus is not available") ∧
    (∀ table, (events.getFunctionTable r).1 = some table →
      (func table = none → (events.IMAGE_PLUS_GEN_ENCODE_FUNC1 func r image width height hasAlpha).1 = .error "ImagePlus is not available") ∧
      (∀ f, func table = some f → (events.IMAGE_PLUS_GEN_ENCODE_FUNC1 func r image width height hasAlpha).1 = f image width height hasAlpha)) := by
  refine ⟨fun h => ?_, fun table h => ⟨fun hf => ?_, fun f hf => ?_⟩⟩
  · unfold events.IMAGE_PLUS_GEN_ENCODE_FUNC1
    simp only [h]
  · unfold events.IMAGE_PLUS_GEN_ENCODE_FUNC1
    simp only [h, hf]
  · unfold events.IMAGE_PLUS_GEN_ENCODE_FUNC1
    simp only [h, hf]

/-- The three cases of `IMAGE_PLUS_GEN_ENCODE_FUNC2`. -/
theorem encode2_cases (func : FunctionTable → Option (Option (List Nat) → Nat → Nat → Bool → ℚ → Except String (List Nat)))
    (r : Resolver) (image : Option (List Nat)) (width height : Nat) (hasAlpha : Bool) (quality : ℚ) :
    ((events.getFunctionTable r).1 = none → (events.IMAGE_PLUS_GEN_ENCODE_FUNC2 func r image width height hasAlpha quality).1 = .error "ImagePlus is not available") ∧
    (∀ table, (events.getFunctionTable r).1 = some table →
      (func table = none → (events.IMAGE_PLUS_GEN_ENCODE_FUNC2 func r image width height hasAlpha quality).1 = .error "ImagePlus is not available") ∧
      (∀ f, func table = some f → (events.IMAGE_PLUS_GEN_ENCODE_FUNC2 func r image width height hasAlpha quality).1 = f image width height hasAlpha quality)) := by
  refine ⟨fun h => ?_, fun table h => ⟨fun hf => ?_, fun f hf => ?_⟩⟩
  · unfold events.IMAGE_PLUS_GEN_ENCODE_FUNC2
    simp only [h]
  · unfold events.IMAGE_PLUS_GEN_ENCODE_FUNC2
    simp only [h, hf]
  · unfold events.IMAGE_PLUS_GEN_ENCODE_FUNC2
    simp only [h, hf]

/-- The three cases of `IMAGE_PLUS_GEN_ENCODE_FUNC3`. -/
theorem encode3_cases (func : FunctionTable → Option (DecodedAnimation → ℚ → Except String (List Nat)))
    (r : Resolver) (anim : DecodedAnimation) (quality : ℚ) :
    ((events.getFunctionTable r).1 = none → (events.IMAGE_PLUS_GEN_ENCODE_FUNC3 func r anim quality).1 = .error "ImagePlus is not available") ∧
    (∀ table, (events.getFunctionTable r).1 = some table →
      (func table = none → (events.IMAGE_PLUS_GEN_ENCODE_FUNC3 func r anim quality).1 = .error "ImagePlus is not available") ∧
      (∀ f, func table = some f → (events.IMAGE_PLUS_GEN_ENCODE_FUNC3 func r anim quality).1 = f anim quality)) := by
  refine ⟨fun h => ?_, fun table h => ⟨fun hf => ?_, fun f hf => ?_⟩⟩
  · unfold events.IMAGE_PLUS_GEN_ENCODE_FUNC3
    simp only [h]
  · unfold events.IMAGE_PLUS_GEN_ENCODE_FUNC3
    simp only [h, hf]
  · unfold events.IMAGE_PLUS_GEN_ENCODE_FUNC3
    simp only [h, hf]

/-- The three cases of `IMAGE_PLUS_GEN_DECODE_FUNC1_HDR`. -/
theorem header1_cases (func : FunctionTable → Option (List Nat → Except String DecodedImage))
    (r : Resolver) (data : List Nat) :
    ((events.getFunctionTable r).1 = none →
      (events.IMAGE_PLUS_GEN_DECODE_FUNC1_HDR func r data).1 = .error "ImagePlus is not available") ∧
    (∀ table, (events.getFunctionTable r).1 = some table →
      (table.version < 2 ∨ func table = none →
        (events.IMAGE_PLUS_GEN_DECODE_FUNC1_HDR func r data).1 =
          .error "Installed ImagePlus version does not support header decoding") ∧
      (2 ≤ table.version → ∀ f, func table = some f →
        (events.IMAGE_PLUS_GEN_DECODE_FUNC1_HDR func r data).1 = f data)) := by
  refine ⟨fun h => ?_, fun table h => ⟨fun hf => ?_, fun hv f hf => ?_⟩⟩
  · unfold events.IMAGE_PLUS_GEN_DECODE_FUNC1_HDR
    simp only [h]
  · unfold events.IMAGE_PLUS_GEN_DECODE_FUNC1_HDR
    simp only [h]
    by_cases hv : table.version < 2
    · rw [if_pos hv]
    · rw [if_neg hv]
      rcases hf with hf | hf
      · exact absurd hf hv
      · simp only [hf]
  · unfold events.IMAGE_PLUS_GEN_DECODE_FUNC1_HDR
    simp only [h, if_neg (Nat.not_lt.mpr hv), hf]

/-- The three cases of `IMAGE_PLUS_GEN_DECODE_FUNC2_HDR`. -/
theorem header2_cases (func : FunctionTable → Option (List Nat → Except String DecodedResult))
    (r : Resolver) (data : List Nat) :
    ((events.getFunctionTable r).1 = none →
      (events.IMAGE_PLUS_GEN_DECODE_FUNC2_HDR func r data).1 = .error "ImagePlus is not available") ∧
    (∀ table, (events.getFunctionTable r).1 = some table →
      (table.version < 2 ∨ func table = none →
        (events.IMAGE_PLUS_GEN_DECODE_FUNC2_HDR func r data).1 =
          .error "Installed ImagePlus version does not support header decoding") ∧
      (2 ≤ table.version → ∀ f, func table = some f →
        (events.IMAGE_PLUS_GEN_DECODE_FUNC2_HDR func r data).1 = f data)) := by
  refine ⟨fun h => ?_, fun table h => ⟨fun hf => ?_, fun hv f hf => ?_⟩⟩
  · unfold events.IMAGE_PLUS_GEN_DECODE_FUNC2_HDR
    simp only [h]
  · unfold events.IMAGE_PLUS_GEN_DECODE_FUNC2_HDR
    simp only [h]
    by_cases hv : table.version < 2
    · rw [if_pos hv]
    · rw [if_neg hv]
      rcases hf with hf | hf
      · exact absurd hf hv
      · simp only [hf]
  · unfold events.IMAGE_PLUS_GEN_DECODE_FUNC2_HDR
    simp only [h, if_neg (Nat.not_lt.mpr hv), hf]

/-- The three cases of `guessFormat`. -/
theorem guessFormat_cases (r : Resolver) (data : List Nat) :
    ((events.getFunctionTable r).1 = none → (events.guessFormat r data).1 = .Unknown) ∧
    (∀ table, (events.getFunctionTable r).1 = some table →
      (table.guessFormat = none → (events.guessFormat r data).1 = .Unknown) ∧
      (∀ f, table.guessFormat = some f → (events.guessFormat r data).1 = f data)) := by
  refine ⟨fun h => ?_, fun table h => ⟨fun hf => ?_, fun f hf => ?_⟩⟩
  · unfold events.guessFormat
    simp only [h]
  · unfold events.guessFormat
    simp only [h, hf]
  · unfold events.guessFormat
    simp only [h, hf]

/-- The three cases of `tryDecode`. -/
theorem tryDecode_cases (r : Resolver) (data : List Nat) (format : ImageFormat) :
    ((events.getFunctionTable r).1 = none →
      (events.tryDecode r data format).1 = .error "ImagePlus is not available") ∧
    (∀ table, (events.getFunctionTable r).1 = some table →
      (table.tryDecode = none →
        (events.tryDecode r data format).1 = .error "ImagePlus is not available") ∧
      (∀ f, table.tryDecode = some f → (events.tryDecode r data format).1 = f data format)) := by
  refine ⟨fun h => ?_, fun table h => ⟨fun hf => ?_, fun f hf => ?_⟩⟩
  · unfold events.tryDecode
    simp only [h]
  · unfold events.tryDecode
    simp only [h, hf]
  · unfold events.tryDecode
    simp only [h, hf]

/-- C23.  The header-only wrappers `pngHeader` and `webpHeader` of
`events.hpp`: when no table is resolved they return the error
"ImagePlus is not available"; when the resolved table has a version below 2 or
a null entry they return the error
"Installed ImagePlus version does not support header decoding"; and when the
version is at least 2 and the entry is not null they return what the entry
returns for the same buffer.  A null entry is never called. -/
theorem header_wrappers_guarded (r : Resolver) (data : List Nat) :
    ((events.getFunctionTable r).1 = none →
      (events.decode.pngHeader r data).1 = .error "ImagePlus is not available" ∧
      (events.decode.webpHeader r data).1 = .error "ImagePlus is not available") ∧
    (∀ table, (events.getFunctionTable r).1 = some table →
      (table.version < 2 ∨ table.decodePngHeader = none →
        (events.decode.pngHeader r data).1 =
          .error "Installed ImagePlus version does not support header decoding") ∧
      (table.version < 2 ∨ table.decodeWebpHeader = none →
        (events.decode.webpHeader r data).1 =
          .error "Installed ImagePlus version does not support header decoding") ∧
      (2 ≤ table.version → ∀ f, table.decodePngHeader = some f →
        (events.decode.pngHeader r data).1 = f data) ∧
      (2 ≤ table.version → ∀ f, table.decodeWebpHeader = some f →
        (events.decode.webpHeader r data).1 = f data)) :=
  ⟨fun h => ⟨(header1_cases (fun table => table.decodePngHeader) r data).1 h,
      (header2_cases (fun table => table.decodeWebpHeader) r data).1 h⟩,
   fun table h =>
    ⟨((header1_cases (fun table => table.decodePngHeader) r data).2 table h).1,
     ((header2_cases (fun table => table.decodeWebpHeader) r data).2 table h).1,
     ((header1_cases (fun table => table.decodePngHeader) r data).2 table h).2,
     ((header2_cases (fun table => table.decodeWebpHeader) r data).2 table h).2⟩⟩

/-- The header-only wrappers on examples: nothing resolved, a table of
version 2 with both entries, and the same table with the PNG entry null. -/
theorem header_wrappers_example :
    (events.decode.pngHeader unresolved raw2x2).1 = .error "ImagePlus is not available" ∧
    (events.decode.pngHeader { table := some headerTable, event := none } raw2x2).1 =
      .ok { data := none, width := 2, height := 2, bit_depth := some 8, hasAlpha := true } ∧
    (events.decode.pngHeader
      { table := some { headerTable with decodePngHeader := none }, event := none } raw2x2).1 =
      .error "Installed ImagePlus version does not support header decoding" :=
  ⟨rfl, rfl, rfl⟩

/-- C24, the claim as written fails for the header-only decode wrappers.  With
a resolved table whose `decodePngHeader` entry is null, `pngHeader` returns the
version error, not "ImagePlus is not available"; and with the table of
`Events.cpp`, in which the entry is present, `pngHeader` does not return what
the entry returns. -/
theorem header_wrappers_differ :
    (events.getFunctionTable
      { table := some { headerTable with decodePngHeader := none }, event := none }).1 =
      some { headerTable with decodePngHeader := none } ∧
    (events.decode.pngHeader
      { table := some { headerTable with decodePngHeader := none }, event := none } raw2x2).1 =
      .error "Installed ImagePlus version does not support header decoding" ∧
    (events.getFunctionTable publishedResolver).1 = some (functionTable sampleApi) ∧
    (functionTable sampleApi).decodePngHeader = some sampleApi.decodePngHeader ∧
    sampleApi.decodePngHeader raw2x2 =
      .ok { data := none, width := 2, height := 2, bit_depth := some 8, hasAlpha := true } ∧
    (events.decode.pngHeader publishedResolver raw2x2).1 =
      .error "Installed ImagePlus version does not support header decoding" ∧
    (events.decode.pngHeader publishedResolver raw2x2).1 ≠ sampleApi.decodePngHeader raw2x2 :=
  ⟨rfl, rfl, rfl, rfl, rfl, rfl, fun h => by cases h⟩

/-- C26.  When the table that resolves is the one `Events.cpp` publishes,
whose version is 1 and whose `decodePngHeader` and `decodeWebpHeader` entries
are not null, `pngHeader` and `webpHeader` of `events.hpp` return the error
"Installed ImagePlus version does not support header decoding" for every
buffer, whatever the functions behind the entries are. -/
theorem published_table_refuses_headers (api : Api) (r : Resolver) (data : List Nat)
    (h : (events.getFunctionTable r).1 = some (functionTable api)) :
    (functionTable api).version = 1 ∧
    (functionTable api).decodePngHeader = some api.decodePngHeader ∧
    (functionTable api).decodeWebpHeader = some api.decodeWebpHeader ∧
    (events.decode.pngHeader r data).1 =
      .error "Installed ImagePlus version does not support header decoding" ∧
    (events.decode.webpHeader r data).1 =
      .error "Installed ImagePlus version does not support header decoding" :=
  ⟨rfl, rfl, rfl,
    ((header1_cases (fun table => table.decodePngHeader) r data).2 _ h).1
      (Or.inl (show (1 : Nat) < 2 by decide)),
    ((header2_cases (fun table => table.decodeWebpHeader) r data).2 _ h).1
      (Or.inl (show (1 : Nat) < 2 by decide))⟩

theorem published_table_refuses_headers_witness :
    (events.decode.pngHeader publishedResolver raw2x2).1 =
      .error "Installed ImagePlus version does not support header decoding" ∧
    (events.decode.webpHeader publishedResolver raw2x2).1 =
      .error "Installed ImagePlus version does not support header decoding" :=
  (published_table_refuses_headers sampleApi publishedResolver raw2x2 rfl).2.2.2

/-- C24, amended.  When the table is not resolved (`isAvailable` is false),
`guessFormat` returns `Unknown`, every `is...` predicate returns false, and
`tryDecode` and every decode and encode wrapper, the two header-only ones
included, return the error "ImagePlus is not available".  When a table is
resolved, every wrapper other than the two header-only ones returns the same
default if its entry is null and otherwise exactly what the entry returns for
the same arguments; the header-only wrappers `pngHeader` and `webpHeader`
return the error "Installed ImagePlus version does not support header decoding"
if the table's version is below 2 or the entry is null, and what the entry
returns only when the version is at least 2. -/
theorem events_wrappers_guarded (r : Resolver) (data : List Nat) (format : ImageFormat)
    (image : Option (List Nat)) (width height : Nat) (hasAlpha : Bool) (quality : ℚ)
    (anim : DecodedAnimation) :
    ((events.isAvailable r).1 = false →
      (events.guessFormat r data).1 = .Unknown ∧
      (events.tryDecode r data format).1 = .error "ImagePlus is not available" ∧
      (events.formats.isJpeg r data).1 = false ∧
      (events.formats.isAPng r data).1 = false ∧
      (events.formats.isPng r data).1 = false ∧
      (events.formats.isGif r data).1 = false ∧
      (events.formats.isWebp r data).1 = false ∧
      (events.formats.isTiff r data).1 = false ∧
      (events.formats.isQoi r data).1 = false ∧
      (events.formats.isJpegXL r data).1 = false ∧
      (events.decode.png r data).1 = .error "ImagePlus is not available" ∧
      (events.decode.qoi r data).1 = .error "ImagePlus is not available" ∧
      (events.decode.jpegxl r data).1 = .error "ImagePlus is not available" ∧
      (events.decode.webp r data).1 = .error "ImagePlus is not available" ∧
      (events.decode.gif r data).1 = .error "ImagePlus is not available" ∧
      (events.encode.png r image width height hasAlpha).1 = .error "ImagePlus is not available" ∧
      (events.encode.qoi r image width height hasAlpha).1 = .error "ImagePlus is not available" ∧
      (events.encode.webp r image width height hasAlpha quality).1 = .error "ImagePlus is not available" ∧
      (events.encode.jpegxl r image width height hasAlpha quality).1 = .error "ImagePlus is not available" ∧
      (events.encode.webpAnim r anim quality).1 = .error "ImagePlus is not available" ∧
      (events.encode.jpegxlAnim r anim quality).1 = .error "ImagePlus is not available" ∧
      (events.decode.pngHeader r data).1 = .error "ImagePlus is not available" ∧
      (events.decode.webpHeader r data).1 = .error "ImagePlus is not available") ∧
    (∀ table, (events.getFunctionTable r).1 = some table →
      (table.guessFormat = none → (events.guessFormat r data).1 = .Unknown) ∧
      (∀ f, table.guessFormat = some f → (events.guessFormat r data).1 = f data) ∧
      (table.tryDecode = none →
        (events.tryDecode r data format).1 = .error "ImagePlus is not available") ∧
      (∀ f, table.tryDecode = some f → (events.tryDecode r data format).1 = f data format) ∧
      (table.isJpeg = none →
        (events.formats.isJpeg r data).1 = false) ∧
      (∀ f, table.isJpeg = some f →
        (events.formats.isJpeg r data).1 = f data) ∧
      (table.isAPng = none →
        (events.formats.isAPng r data).1 = false) ∧
      (∀ f, table.isAPng = some f →
        (events.formats.isAPng r data).1 = f data) ∧
      (table.isPng = none →
        (events.formats.isPng r data).1 = false) ∧
      (∀ f, table.isPng = some f →
        (events.formats.isPng r data).1 = f data) ∧
      (table.isGif = none →
        (events.formats.isGif r data).1 = false) ∧
      (∀ f, table.isGif = some f →
        (events.formats.isGif r data).1 = f data) ∧
      (table.isWebp = none →
        (events.formats.isWebp r data).1 = false) ∧
      (∀ f, table.isWebp = some f →
        (events.formats.isWebp r data).1 = f data) ∧
      (table.isTiff = none →
        (events.formats.isTiff r data).1 = false) ∧
      (∀ f, table.isTiff = some f →
        (events.formats.isTiff r data).1 = f data) ∧
      (table.isQoi = none →
        (events.formats.isQoi r data).1 = false) ∧
      (∀ f, table.isQoi = some f →
        (events.formats.isQoi r data).1 = f data) ∧
      (table.isJpegXL = none →
        (events.formats.isJpegXL r data).1 = false) ∧
      (∀ f, table.isJpegXL = some f →
        (events.formats.isJpegXL r data).1 = f data) ∧
      (table.decodePng = none →
        (events.decode.png r data).1 = .error "ImagePlus is not available") ∧
      (∀ f, table.decodePng = some f →
        (events.decode.png r data).1 = f data) ∧
      (table.decodeQoi = none →
        (events.decode.qoi r data).1 = .error "ImagePlus is not available") ∧
      (∀ f, table.decodeQoi = some f →
        (events.decode.qoi r data).1 = f data) ∧
      (table.decodeJpegXL = none →
        (events.decode.jpegxl r data).1 = .error "ImagePlus is not available") ∧
      (∀ f, table.decodeJpegXL = some f →
        (events.decode.jpegxl r data).1 = f data) ∧
      (table.decodeWebp = none →
        (events.decode.webp r data).1 = .error "ImagePlus is not available") ∧
      (∀ f, table.decodeWebp = some f →
        (events.decode.webp r data).1 = f data) ∧
      (table.decodeGif = none →
        (events.decode.gif r data).1 = .error "ImagePlus is not available") ∧
      (∀ f, table.decodeGif = some f →
        (events.decode.gif r data).1 = f data) ∧
      (table.encodePng = none →
        (events.encode.png r image width height hasAlpha).1 = .error "ImagePlus is not available") ∧
      (∀ f, table.encodePng = some f →
        (events.encode.png r image width height hasAlpha).1 = f image width height hasAlpha) ∧
      (table.encodeQoi = none →
        (events.encode.qoi r image width height hasAlpha).1 = .error "ImagePlus is not available") ∧
      (∀ f, table.encodeQoi = some f →
        (events.encode.qoi r image width height hasAlpha).1 = f image width height hasAlpha) ∧
      (table.encodeWebp = none →
        (events.encode.webp r image width height hasAlpha quality).1 = .error "ImagePlus is not available") ∧
      (∀ f, table.encodeWebp = some f →
        (events.encode.webp r image width height hasAlpha quality).1 = f image width height hasAlpha quality) ∧
      (table.encodeJpegXL = none →
        (events.encode.jpegxl r image width height hasAlpha quality).1 = .error "ImagePlus is not available") ∧
      (∀ f, table.encodeJpegXL = some f →
        (events.encode.jpegxl r image width height hasAlpha quality).1 = f image width height hasAlpha quality) ∧
      (table.encodeWebpAnim = none →
        (events.encode.webpAnim r anim quality).1 = .error "ImagePlus is not available") ∧
      (∀ f, table.encodeWebpAnim = some f →
        (events.encode.webpAnim r anim quality).1 = f anim quality) ∧
      (table.encodeJpegXLAnim = none →
        (events.encode.jpegxlAnim r anim quality).1 = .error "ImagePlus is not available") ∧
      (∀ f, table.encodeJpegXLAnim = some f →
        (events.encode.jpegxlAnim r anim quality).1 = f anim quality) ∧
      (table.version < 2 ∨ table.decodePngHeader = none →
        (events.decode.pngHeader r data).1 =
          .error "Installed ImagePlus version does not support header decoding") ∧
      (2 ≤ table.version → ∀ f, table.decodePngHeader = some f →
        (events.decode.pngHeader r data).1 = f data) ∧
      (table.version < 2 ∨ table.decodeWebpHeader = none →
        (events.decode.webpHeader r data).1 =
          .error "Installed ImagePlus version does not support header decoding") ∧
      (2 ≤ table.version → ∀ f, table.decodeWebpHeader = some f →
        (events.decode.webpHeader r data).1 = f data)) := by
  refine ⟨fun hna => ?_, fun table h => ?_⟩
  · have hn := (isAvailable_false r).mp hna
    exact ⟨(guessFormat_cases r data).1 hn,
      (tryDecode_cases r data format).1 hn,
      (check_cases (fun table => table.isJpeg) r data).1 hn,
      (check_cases (fun table => table.isAPng) r data).1 hn,
      (check_cases (fun table => table.isPng) r data).1 hn,
      (check_cases (fun table => table.isGif) r data).1 hn,
      (check_cases (fun table => table.isWebp) r data).1 hn,
      (check_cases (fun table => table.isTiff) r data).1 hn,
      (check_cases (fun table => table.isQoi) r data).1 hn,
      (check_cases (fun table => table.isJpegXL) r data).1 hn,
      (decode1_cases (fun table => table.decodePng) r data).1 hn,
      (decode1_cases (fun table => table.decodeQoi) r data).1 hn,
      (decode2_cases (fun table => table.decodeJpegXL) r data).1 hn,
      (decode2_cases (fun table => table.decodeWebp) r data).1 hn,
      (decode2_cases (fun table => table.decodeGif) r data).1 hn,
      (encode1_cases (fun table => table.encodePng) r image width height hasAlpha).1 hn,
      (encode1_cases (fun table => table.encodeQoi) r image width height hasAlpha).1 hn,
      (encode2_cases (fun table => table.encodeWebp) r image width height hasAlpha quality).1 hn,
      (encode2_cases (fun table => table.encodeJpegXL) r image width height hasAlpha quality).1 hn,
      (encode3_cases (fun table => table.encodeWebpAnim) r anim quality).1 hn,
      (encode3_cases (fun table => table.encodeJpegXLAnim) r anim quality).1 hn,
      (header1_cases (fun table => table.decodePngHeader) r data).1 hn,
      (header2_cases (fun table => table.decodeWebpHeader) r data).1 hn⟩
  · exact ⟨((guessFormat_cases r data).2 table h).1,
      ((guessFormat_cases r data).2 table h).2,
      ((tryDecode_cases r data format).2 table h).1,
      ((tryDecode_cases r data format).2 table h).2,
      ((check_cases (fun table => table.isJpeg) r data).2 table h).1,
      ((check_cases (fun table => table.isJpeg) r data).2 table h).2,
      ((check_cases (fun table => table.isAPng) r data).2 table h).1,
      ((check_cases (fun table => table.isAPng) r data).2 table h).2,
      ((check_cases (fun table => table.isPng) r data).2 table h).1,
      ((check_cases (fun table => table.isPng) r data).2 table h).2,
      ((check_cases (fun table => table.isGif) r data).2 table h).1,
      ((check_cases (fun table => table.isGif) r data).2 table h).2,
      ((check_cases (fun table => table.isWebp) r data).2 table h).1,
      ((check_cases (fun table => table.isWebp) r data).2 table h).2,
      ((check_cases (fun table => table.isTiff) r data).2 table h).1,
      ((check_cases (fun table => table.isTiff) r data).2 table h).2,
      ((check_cases (fun table => table.isQoi) r data).2 table h).1,
      ((check_cases (fun table => table.isQoi) r data).2 table h).2,
      ((check_cases (fun table => table.isJpegXL) r data).2 table h).1,
      ((check_cases (fun table => table.isJpegXL) r data).2 table h).2,
      ((decode1_cases (fun table => table.decodePng) r data).2 table h).1,
      ((decode1_cases (fun table => table.decodePng) r data).2 table h).2,
      ((decode1_cases (fun table => table.decodeQoi) r data).2 table h).1,
      ((decode1_cases (fun table => table.decodeQoi) r data).2 table h).2,
      ((decode2_cases (fun table => table.decodeJpegXL) r data).2 table h).1,
      ((decode2_cases (fun table => table.decodeJpegXL) r data).2 table h).2,
      ((decode2_cases (fun table => table.decodeWebp) r data).2 table h).1,
      ((decode2_cases (fun table => table.decodeWebp) r data).2 table h).2,
      ((decode2_cases (fun table => table.decodeGif) r data).2 table h).1,
      ((decode2_cases (fun table => table.decodeGif) r data).2 table h).2,
      ((encode1_cases (fun table => table.encodePng) r image width height hasAlpha).2 table h).1,
      ((encode1_cases (fun table => table.encodePng) r image width height hasAlpha).2 table h).2,
      ((encode1_cases (fun table => table.encodeQoi) r image width height hasAlpha).2 table h).1,
      ((encode1_cases (fun table => table.encodeQoi) r image width height hasAlpha).2 table h).2,
      ((encode2_cases (fun table => table.encodeWebp) r image width height hasAlpha quality).2 table h).1,
      ((encode2_cases (fun table => table.encodeWebp) r image width height hasAlpha quality).2 table h).2,
      ((encode2_cases (fun table => table.encodeJpegXL) r image width height hasAlpha quality).2 table h).1,
      ((encode2_cases (fun table => table.encodeJpegXL) r image width height hasAlpha quality).2 table h).2,
      ((encode3_cases (fun table => table.encodeWebpAnim) r anim quality).2 table h).1,
      ((encode3_cases (fun table => table.encodeWebpAnim) r anim quality).2 table h).2,
      ((encode3_cases (fun table => table.encodeJpegXLAnim) r anim quality).2 table h).1,
      ((encode3_cases (fun table => table.encodeJpegXLAnim) r anim quality).2 table h).2,
      ((header1_cases (fun table => table.decodePngHeader) r data).2 table h).1,
      ((header1_cases (fun table => table.decodePngHeader) r data).2 table h).2,
      ((header2_cases (fun table => table.decodeWebpHeader) r data).2 table h).1,
      ((header2_cases (fun table => table.decodeWebpHeader) r data).2 table h).2⟩

theorem events_wrappers_guarded_witness :
    (events.guessFormat unresolved raw2x2).1 = .Unknown ∧
    (events.formats.isPng unresolved raw2x2).1 = false ∧
    (events.decode.png unresolved raw2x2).1 = .error "ImagePlus is not available" ∧
    (events.decode.webp { table := some headerTable, event := none } raw2x2).1 =
      .error "ImagePlus is not available" ∧
    (events.decode.png { table := some headerTable, event := none } raw2x2).1 =
      decode.png (rawView raw2x2) :=
  have hu := (events_wrappers_guarded unresolved raw2x2 .Unknown none 0 0 true 75 emptyAnim).1 rfl
  have ht := (events_wrappers_guarded { table := some headerTable, event := none } raw2x2
    .Unknown none 0 0 true 75 emptyAnim).2 headerTable rfl
  ⟨hu.1, hu.2.2.2.2.1, hu.2.2.2.2.2.2.2.2.2.2.1,
    ht.2.2.2.2.2.2.2.2.2.2.2.2.2.2.2.2.2.2.2.2.2.2.2.2.2.2.1 rfl,
    ht.2.2.2.2.2.2.2.2.2.2.2.2.2.2.2.2.2.2.2.2.2.1 _ rfl⟩

/-! ## The blenders: bounds -/

theorem src_index_lt3 {srcW srcH x y k : Nat} (hx : x < srcW) (hy : y < srcH) (hk : k < 3) :
    (y * srcW + x) * 3 + k < srcW * srcH * 3 := by
  have := succ_row_le (W := srcW) hy
  have hcomm : srcH * srcW = srcW * srcH := Nat.mul_comm _ _
  omega

/-- Where the row offsets fit an `int`, `blend_noover` is a row-wise copy: for
an RGB canvas of `canvasW` by `canvasH` pixels that takes less than `2 ^ 31`
bytes and a sub-frame that lies inside it, `blend_noover` runs to the end on buffers of exactly `canvasW * canvasH * 3` and
`srcW * srcH * 3` bytes, so that no access leaves them; every byte of the
canvas pixel `(offsetX + x, offsetY + y)` is then the byte of the source pixel
`(x, y)`, at an index below `canvasW * canvasH * 3`, and every byte of a pixel
outside the rectangle is as it was. -/
theorem blend_noover_row_copy (canvas src : List Nat)
    (canvasW canvasH srcW srcH offsetX offsetY : Nat)
    (hX : offsetX + srcW ≤ canvasW) (hY : offsetY + srcH ≤ canvasH)
    (hlen : canvas.length = canvasW * canvasH * 3) (hsz : canvasW * canvasH * 3 < 2 ^ 31)
    (hH : canvasH < 2 ^ 31) (hsrc : src.length = srcW * srcH * 3) :
    ∃ out, blend_noover canvas src canvasW canvasH srcW srcH offsetX offsetY = some out ∧
      out.length = canvasW * canvasH * 3 ∧
      (∀ x y k, x < srcW → y < srcH → k < 3 →
        ((offsetY + y) * canvasW + offsetX + x) * 3 + k < canvasW * canvasH * 3 ∧
        (y * srcW + x) * 3 + k < srcW * srcH * 3 ∧
        out[((offsetY + y) * canvasW + offsetX + x) * 3 + k]? =
          src[(y * srcW + x) * 3 + k]?) ∧
      (∀ X Y k, X < canvasW → Y < canvasH → k < 3 →
        ¬ (offsetX ≤ X ∧ X < offsetX + srcW ∧ offsetY ≤ Y ∧ Y < offsetY + srcH) →
        out[(Y * canvasW + X) * 3 + k]? = canvas[(Y * canvasW + X) * 3 + k]?) := by
  obtain ⟨out, hout, hl, hin, hrest⟩ := blend_noover_spec canvas src canvasW canvasH srcW srcH
    offsetX offsetY hX hY hlen hsz hH hsrc
  refine ⟨out, hout, by rw [hl, hlen], ?_, hrest⟩
  intro x y k hx hy hk
  have hs := src_index_lt3 hx hy hk
  have hidx := rect_index_le (W := canvasW) (w := srcW) (show offsetY + y < canvasH by omega) hX
  refine ⟨by omega, hs, ?_⟩
  rw [hin x y k hx hy hk]
  exact (getElem?_eq_some_getD (by rw [hsrc]; exact hs)).symm

theorem blend_noover_row_copy_witness :
    ∃ out, blend_noover [0, 0, 0, 1, 1, 1, 2, 2, 2, 3, 3, 3] [7, 8, 9] 2 2 1 1 1 1 = some out ∧
      out.length = 2 * 2 * 3 ∧
      (∀ x y k, x < 1 → y < 1 → k < 3 →
        ((1 + y) * 2 + 1 + x) * 3 + k < 2 * 2 * 3 ∧
        (y * 1 + x) * 3 + k < 1 * 1 * 3 ∧
        out[((1 + y) * 2 + 1 + x) * 3 + k]? = [7, 8, 9][(y * 1 + x) * 3 + k]?) ∧
      (∀ X Y k, X < 2 → Y < 2 → k < 3 →
        ¬ (1 ≤ X ∧ X < 1 + 1 ∧ 1 ≤ Y ∧ Y < 1 + 1) →
        out[(Y * 2 + X) * 3 + k]? =
          [0, 0, 0, 1, 1, 1, 2, 2, 2, 3, 3, 3][(Y * 2 + X) * 3 + k]?) :=
  blend_noover_row_copy [0, 0, 0, 1, 1, 1, 2, 2, 2, 3, 3, 3] [7, 8, 9] 2 2 1 1 1 1
    (by decide) (by decide) (by decide) (by decide) (by decide) (by decide)

/-- The clearing loop of `webpInner`, which computes the row offset in
`uint32_t`, runs on the RGBA canvas of 16777216 by 33 pixels at the sub-frame
`tallFrame`. -/
theorem clearRect_tallFrame (canvas : List Nat) (hlen : canvas.length = 16777216 * 33 * 4) :
    ∃ out, clearRect 16777216 4 tallFrame canvas = some out := by
  have h : 2147483648 + 4 ≤ canvas.length := by rw [hlen]; decide
  have e : clearRect 16777216 4 tallFrame canvas =
      (memset canvas 2147483648 0 4).bind (loopFrom _ 0 1) := rfl
  unfold memset at e
  rw [if_pos h] at e
  exact ⟨_, e⟩

set_option maxRecDepth 100000 in
/-- C27, at the failing input.  On an RGBA canvas of 16777216 by 33 pixels
(fewer than `2 ^ 32` bytes) a sub-frame of one pixel at (0, 32) lies inside the
canvas, but the offset of its row, `((32 + 0) * 16777216 + 0) * 4 = 2 ^ 31`,
does not fit an `int`: the run of `blend_alpha` is a signed overflow, whatever
the buffers hold, and the 32-bit pattern of the offset is the `int`
-2147483648, an address before the canvas.  `decode::webp` reaches this call
on the animation `tallData`, whose canvas it does not check.  The clearing
loop of `webpInner` computes the same offset in `uint32_t` and runs on this
canvas. -/
theorem blend_alpha_large_canvas :
    0 + 1 ≤ 16777216 ∧ 32 + 1 ≤ 33 ∧ 16777216 * 33 * 4 < 2 ^ 32 ∧
    2 ^ 31 ≤ ((32 + 0) * 16777216 + 0) * 4 ∧
    toInt32 ((((32 + 0) * 16777216 + 0) * 4 : Nat) : Int) = -2147483648 ∧
    (∀ canvas src : List Nat, blend_alpha canvas src 16777216 33 1 1 0 32 = none) ∧
    webp tallData = none ∧
    (∀ canvas : List Nat, canvas.length = 16777216 * 33 * 4 →
      ∃ out, clearRect 16777216 4 tallFrame canvas = some out) :=
  ⟨by decide, by decide, by decide, by decide, by decide, fun _ _ => rfl, rfl,
    fun canvas hlen => clearRect_tallFrame canvas hlen⟩

/-- Where the row offsets fit an `int`, `blend_alpha` stays inside its
buffers: for an RGBA canvas of `canvasW` by `canvasH` pixels that takes less
than `2 ^ 31` bytes and a sub-frame that lies inside it, `blend_alpha` runs to
the end on buffers of exactly `canvasW * canvasH * 4` and
`srcW * srcH * 4` bytes, so that no read or write leaves them; the bytes it
works on are those of the rectangle, at canvas indices below
`canvasW * canvasH * 4` and source indices below `srcW * srcH * 4`, and every
byte of a pixel outside the rectangle is as it was. -/
theorem blend_alpha_in_bounds (canvas src : List Nat)
    (canvasW canvasH srcW srcH offsetX offsetY : Nat)
    (hX : offsetX + srcW ≤ canvasW) (hY : offsetY + srcH ≤ canvasH)
    (hlen : canvas.length = canvasW * canvasH * 4) (hsz : canvasW * canvasH * 4 < 2 ^ 31)
    (hH : canvasH < 2 ^ 31) (hsrc : src.length = srcW * srcH * 4) :
    ∃ out, blend_alpha canvas src canvasW canvasH srcW srcH offsetX offsetY = some out ∧
      out.length = canvasW * canvasH * 4 ∧
      (∀ x y k, x < srcW → y < srcH → k < 4 →
        ((offsetY + y) * canvasW + offsetX + x) * 4 + k < canvasW * canvasH * 4 ∧
        (y * srcW + x) * 4 + k < srcW * srcH * 4 ∧
        out[((offsetY + y) * canvasW + offsetX + x) * 4 + k]? =
          some (blendByte canvas src (((offsetY + y) * canvasW + offsetX + x) * 4)
            ((y * srcW + x) * 4) k)) ∧
      (∀ X Y k, X < canvasW → Y < canvasH → k < 4 →
        ¬ (offsetX ≤ X ∧ X < offsetX + srcW ∧ offsetY ≤ Y ∧ Y < offsetY + srcH) →
        out[(Y * canvasW + X) * 4 + k]? = canvas[(Y * canvasW + X) * 4 + k]?) := by
  obtain ⟨out, hout, hl, hin, hrest⟩ := blend_alpha_spec canvas src canvasW canvasH srcW srcH
    offsetX offsetY hX hY hlen hsz hH hsrc
  refine ⟨out, hout, by rw [hl, hlen], ?_, hrest⟩
  intro x y k hx hy hk
  have hidx := rect_index_le (W := canvasW) (w := srcW) (show offsetY + y < canvasH by omega) hX
  exact ⟨by omega, src_index_lt hx hy hk, hin x y k hx hy hk⟩

theorem blend_alpha_in_bounds_witness :
    ∃ out, blend_alpha [0, 0, 0, 0, 1, 1, 1, 1, 2, 2, 2, 2, 3, 3, 3, 3] [7, 8, 9, 255]
        2 2 1 1 1 1 = some out ∧
      out.length = 2 * 2 * 4 ∧
      (∀ x y k, x < 1 → y < 1 → k < 4 →
        ((1 + y) * 2 + 1 + x) * 4 + k < 2 * 2 * 4 ∧
        (y * 1 + x) * 4 + k < 1 * 1 * 4 ∧
        out[((1 + y) * 2 + 1 + x) * 4 + k]? =
          some (blendByte [0, 0, 0, 0, 1, 1, 1, 1, 2, 2, 2, 2, 3, 3, 3, 3] [7, 8, 9, 255]
            (((1 + y) * 2 + 1 + x) * 4) ((y * 1 + x) * 4) k)) ∧
      (∀ X Y k, X < 2 → Y < 2 → k < 4 →
        ¬ (1 ≤ X ∧ X < 1 + 1 ∧ 1 ≤ Y ∧ Y < 1 + 1) →
        out[(Y * 2 + X) * 4 + k]? =
          [0, 0, 0, 0, 1, 1, 1, 1, 2, 2, 2, 2, 3, 3, 3, 3][(Y * 2 + X) * 4 + k]?) :=
  blend_alpha_in_bounds [0, 0, 0, 0, 1, 1, 1, 1, 2, 2, 2, 2, 3, 3, 3, 3] [7, 8, 9, 255]
    2 2 1 1 1 1 (by decide) (by decide) (by decide) (by decide) (by decide) (by decide)

end ImagePlus
